import Mathlib

/-!
# Datepicker: selection and navigation core

A shallow embedding of `src/js/util/dates.js` (class `Dates`, which
`src/js/datepicker.js` imports under the name `DateArray`) and of the
selection / navigation methods of `src/js/datepicker.js`.

Conventions of the embedding.

* A moment is a valid instant, held as its `valueOf()` in milliseconds since
  the epoch, read in UTC (the file header of datepicker.js: internal dates are
  UTC moments).  An invalid moment only occurs as an argument value
  (`Value.invalidMoment`).
* A JavaScript exception is a `Fault`; a method that mutates the picker returns
  an `Outcome`: the state reached, and the fault thrown if it did not return.
  A loop that never exits is the fault `nonTermination`.
* What the moment library does with text (`moment(text, format, lang, true)`,
  `m.format(format)`) and with `moment([m])` is taken as a parameter `MomentLib`.
* Numbers held by `config.multidate.enabled` are integers.
-/

set_option autoImplicit false

namespace PickerJs

/-! ## Moments -/

/-- An instant: `valueOf()` in milliseconds since 1970-01-01T00:00:00Z. -/
structure Moment where
  valueOf : Int
deriving DecidableEq, Repr

/-- Milliseconds in a day. -/
def msPerDay : Int := 86400000

/-- The units `moveAvailableDate` and the click handlers pass to `moment#add`. -/
inductive Unit where
  | DAY
  | WEEK
  | MONTH
  | YEAR
deriving DecidableEq, Repr

/-- Days since the epoch of the proleptic Gregorian date `y-m-d` (`m` in 1..12). -/
def daysFromCivil (y m d : Int) : Int :=
  let y1 := if m ≤ 2 then y - 1 else y
  let era := y1 / 400
  let yoe := y1 - era * 400
  let mp := (m + 9) % 12
  let doy := (153 * mp + 2) / 5 + d - 1
  let doe := yoe * 365 + yoe / 4 - yoe / 100 + doy
  era * 146097 + doe - 719468

/-- The proleptic Gregorian date `(y, m, d)` (`m` in 1..12) of a day number. -/
def civilFromDays (z : Int) : Int × Int × Int :=
  let z1 := z + 719468
  let era := z1 / 146097
  let doe := z1 - era * 146097
  let yoe := (doe - doe / 1460 + doe / 36524 - doe / 146096) / 365
  let doy := doe - (365 * yoe + yoe / 4 - yoe / 100)
  let mp := (5 * doy + 2) / 153
  let d := doy - (153 * mp + 2) / 5 + 1
  let m := if mp < 10 then mp + 3 else mp - 9
  let y := yoe + era * 400
  (if m ≤ 2 then y + 1 else y, m, d)

/-- Number of days of month `m` (1..12) of year `y`. -/
def daysInMonth (y m : Int) : Int :=
  if m = 12 then 31 else daysFromCivil y (m + 1) 1 - daysFromCivil y m 1

namespace Moment

/-- The UTC day number of the instant. -/
def dayNumber (a : Moment) : Int := a.valueOf / msPerDay

/-- Milliseconds elapsed since the start of the UTC day. -/
def timeOfDay (a : Moment) : Int := a.valueOf % msPerDay

/-- The weekday `m.day()`: 0 = Sunday .. 6 = Saturday. -/
def day (a : Moment) : Int := (a.dayNumber + 4) % 7

/-- Models `m.startOf('day').valueOf()`. -/
def startOfDay (a : Moment) : Int := a.dayNumber * msPerDay

/-- Models `m.endOf('day').valueOf()`. -/
def endOfDay (a : Moment) : Int := a.dayNumber * msPerDay + (msPerDay - 1)

/-- Models `a.isSame(b)`: without a unit the comparison is by millisecond. -/
def isSame (a b : Moment) : Bool := decide (a.valueOf = b.valueOf)

/-- Models `a.isSame(b, 'day')`: `b` lies within the day of `a`. -/
def isSameDay (a b : Moment) : Bool :=
  decide (a.startOfDay ≤ b.valueOf) && decide (b.valueOf ≤ a.endOfDay)

/-- Models `a.isSameOrAfter(b)` (no unit). -/
def isSameOrAfter (a b : Moment) : Bool := decide (b.valueOf ≤ a.valueOf)

/-- Models `a.isSameOrBefore(b)` (no unit). -/
def isSameOrBefore (a b : Moment) : Bool := decide (a.valueOf ≤ b.valueOf)

/-- Adds `n` calendar months: the day of the month is clamped to the length of
the target month and the time of day is kept. -/
def addMonths (a : Moment) (n : Int) : Moment :=
  let ymd := civilFromDays a.dayNumber
  let total := ymd.2.1 - 1 + n
  let y := ymd.1 + total / 12
  let m := total % 12 + 1
  let d := min ymd.2.2 (daysInMonth y m)
  ⟨daysFromCivil y m d * msPerDay + a.timeOfDay⟩

/-- Models `m.add(dir, unit)` on a UTC moment. -/
def add (a : Moment) (dir : Int) : Unit → Moment
  | Unit.DAY => ⟨a.valueOf + dir * msPerDay⟩
  | Unit.WEEK => ⟨a.valueOf + dir * 7 * msPerDay⟩
  | Unit.MONTH => a.addMonths dir
  | Unit.YEAR => a.addMonths (12 * dir)

end Moment

/-! ## Faults -/

/-- The ways a call can fail to return. -/
inductive Fault where
  /-- A JavaScript `TypeError`: a call of something that is not a function. -/
  | typeError
  /-- Models `throwError('Invalid moment: ...')` in `parseDate`. -/
  | invalidMoment
  /-- Models `throwError('Unknown value type ...')` in `parseDate`. -/
  | unknownValueType
  /-- A loop that never exits. -/
  | nonTermination
deriving DecidableEq, Repr

/-! ## `Dates` (src/js/util/dates.js) -/

/-- An element of `Dates#array`: a moment, or a JavaScript array of elements
(what the constructor stores, see `Dates.new`). -/
inductive Entry where
  | moment (m : Moment)
  | group (es : List Entry)

/-- The class `Dates`: its only field is `array`. -/
structure Dates where
  array : List Entry

namespace Dates

/-- Models `constructor(...moments)`: `this.array = []; this.array.push(moments)`.
The rest parameter `moments` is pushed as one element. -/
def new (moments : List Entry) : Dates := ⟨[] ++ [Entry.group moments]⟩

/-- Models `length()`. -/
def length (ds : Dates) : Nat := ds.array.length

/-- Models `push(m)`. -/
def push (ds : Dates) (m : Entry) : Dates := ⟨ds.array ++ [m]⟩

/-- Models `get(i)`: `return this.slice(i)[0]`.  The class defines no `slice`,
so the call of `this.slice` is a `TypeError` for every `i`. -/
def get (_ds : Dates) (_i : Int) : Except Fault (Option Entry) := Except.error Fault.typeError

/-- Models `last()`: `return this.get(-1)`. -/
def last (ds : Dates) : Except Fault (Option Entry) := ds.get (-1)

/-- The loop of `contains`, from position `i` on: the first position whose
element `isSame` as `other`, or -1.  On an element that is an array,
`m.isSame` is not a function. -/
def containsFrom (other : Moment) : Int → List Entry → Except Fault Int
  | _, [] => Except.ok (-1)
  | i, Entry.moment m :: rest =>
    if m.isSame other then Except.ok i else containsFrom other (i + 1) rest
  | _, Entry.group _ :: _ => Except.error Fault.typeError

/-- Models `contains(other)`. -/
def contains (ds : Dates) (other : Moment) : Except Fault Int :=
  containsFrom other 0 ds.array

/-- Models `Array.prototype.splice(i, 1)`: a negative `i` counts from the end. -/
def splice1 (xs : List Entry) (i : Int) : List Entry :=
  let len : Int := xs.length
  let start : Int := if i < 0 then max (len + i) 0 else min i len
  xs.eraseIdx start.toNat

/-- Models `remove(i)`. -/
def remove (ds : Dates) (i : Int) : Dates := ⟨splice1 ds.array i⟩

/-- Models `clear()`. -/
def clear (_ds : Dates) : Dates := ⟨[]⟩

/-- Models `copy()`: `return new Dates(...this.array)`. -/
def copy (ds : Dates) : Dates := Dates.new ds.array

/-- Models `clonedArray()`: `m.clone()` of every element, in order; an element
that is an array has no `clone`. -/
def clonedArray (ds : Dates) : Except Fault (List Moment) :=
  go ds.array
where
  /-- The `for (let m of this.array)` loop. -/
  go : List Entry → Except Fault (List Moment)
    | [] => Except.ok []
    | Entry.moment m :: rest =>
      match go rest with
      | Except.ok ms => Except.ok (m :: ms)
      | Except.error f => Except.error f
    | Entry.group _ :: _ => Except.error Fault.typeError

/-- Models `formattedArray(format)`: `m.format(format)` of every element, in
order; an element that is an array has no `format`. -/
def formattedArray (ds : Dates) (format : Moment → String) : Except Fault (List String) :=
  go ds.array
where
  /-- The `for (let m of this.array)` loop. -/
  go : List Entry → Except Fault (List String)
    | [] => Except.ok []
    | Entry.moment m :: rest =>
      match go rest with
      | Except.ok strs => Except.ok (format m :: strs)
      | Except.error f => Except.error f
    | Entry.group _ :: _ => Except.error Fault.typeError

/-- The selection holding exactly the moments `ms`, in this order. -/
def ofMoments (ms : List Moment) : Dates := ⟨ms.map Entry.moment⟩

end Dates


/-! ## Values passed in by the caller -/

/-- A JavaScript value handed to the picker as a date: `object` is any object
that is neither a moment nor a string (an array, a plain object, a `Date`). -/
inductive Value where
  | undefined
  | null
  | bool (b : Bool)
  | number (n : Int)
  | string (s : String)
  | moment (m : Moment)
  | invalidMoment
  | object
deriving DecidableEq, Repr

/-- JavaScript truthiness of a value. -/
def Value.truthy : Value → Bool
  | Value.undefined => false
  | Value.null => false
  | Value.bool b => b
  | Value.number n => decide (n ≠ 0)
  | Value.string s => decide (s ≠ "")
  | Value.moment _ => true
  | Value.invalidMoment => true
  | Value.object => true

/-- Truthiness of a rest parameter (`...dates`, `...moments`): it is always an
array, and every array, the empty one included, is truthy. -/
def restIsTruthy (_args : List Value) : Bool := true

/-- The argument of `setDatesDisabled`: what `Array.isArray` tells apart. -/
inductive DatesArg where
  | single (v : Value)
  | array (vs : List Value)
deriving DecidableEq, Repr

/-- The first statements of `setDatesDisabled`: the argument itself when it is
an array, else the one-element array holding it. -/
def DatesArg.toArray : DatesArg → List Value
  | DatesArg.array vs => vs
  | DatesArg.single v => [v]

mutual
/-- Models `String(e)` for an element of `Dates#array`. -/
def Entry.jsString (toStr : Moment → String) : Entry → String
  | Entry.moment m => toStr m
  | Entry.group es => Entry.jsStringList toStr es
/-- Models `String(es)` for an array: the strings of the elements joined by a comma. -/
def Entry.jsStringList (toStr : Moment → String) : List Entry → String
  | [] => ""
  | [e] => Entry.jsString toStr e
  | e :: e2 :: es => Entry.jsString toStr e ++ "," ++ Entry.jsStringList toStr (e2 :: es)
end

/-! ## Configuration and picker state (src/js/datepicker.js) -/

/-- The values `normalizeConfig` leaves in `config.multidate.enabled`:
`true`, `false` or a number. -/
inductive MultidateEnabled where
  | bool (b : Bool)
  | number (n : Int)
deriving DecidableEq, Repr

/-- Models the JavaScript comparison `enabled > k`: a boolean is compared as 0 or 1. -/
def MultidateEnabled.gt (e : MultidateEnabled) (k : Int) : Bool :=
  match e with
  | MultidateEnabled.bool b => decide ((if b then (1 : Int) else 0) > k)
  | MultidateEnabled.number n => decide (n > k)

/-- JavaScript truthiness of `config.multidate.enabled`. -/
def MultidateEnabled.truthy : MultidateEnabled → Bool
  | MultidateEnabled.bool b => b
  | MultidateEnabled.number n => decide (n ≠ 0)

/-- Models `config.multidate`. -/
structure MultidateConfig where
  enabled : MultidateEnabled := MultidateEnabled.bool false
  separator : String := ","
deriving DecidableEq, Repr

/-- Models `startOfAllTime()`: the start of a year, moved to year 0. -/
def startOfAllTime : Moment := ⟨daysFromCivil 0 1 1 * msPerDay⟩

/-- Models `endOfAllTime()`: the end of a year, moved to year 2200. -/
def endOfAllTime : Moment := ⟨daysFromCivil 2200 12 31 * msPerDay + (msPerDay - 1)⟩

/-- Models `config.date` after `normalizeConfig`; `default` is `dflt`. -/
structure DateConfig where
  start : Moment := startOfAllTime
  «end» : Moment := endOfAllTime
  disabled : List Moment := []
  dflt : Moment
deriving DecidableEq, Repr

/-- Models `config.daysOfWeek`. -/
structure DaysOfWeekConfig where
  disabled : List Int := []
  highlighted : List Int := []
deriving DecidableEq, Repr

/-- Modelled from the spec: the constants `View.DAYS` .. `View.CENTURIES` of
constants.js, which is not among the sources; the spec orders the zoom levels
DAY(0) < MONTH(1) < YEAR(2) < DECADE(3) < CENTURY(4), as does the comment on
`Default.view`. -/
def View.DAYS : Int := 0

/-- Modelled from the spec: see `View.DAYS`. -/
def View.MONTHS : Int := 1

/-- Modelled from the spec: see `View.DAYS`. -/
def View.YEARS : Int := 2

/-- Modelled from the spec: see `View.DAYS`. -/
def View.DECADES : Int := 3

/-- Modelled from the spec: see `View.DAYS`. -/
def View.CENTURIES : Int := 4

/-- A view option as the caller gives it: a name or a digit (`Default.view`:
"string or digit"). -/
inductive ViewOption where
  | name (s : String)
  | digit (n : Int)
deriving DecidableEq, Repr

/-- Models `resolveViewType(view, defaultValue)`: the `switch` knows the three
names `days`, `months` and `years`; a value that is not a string is returned
as it is. -/
def resolveViewType (view : ViewOption) (defaultValue : Int) : Int :=
  match view with
  | ViewOption.name s =>
    if s = "days" then View.DAYS
    else if s = "months" then View.MONTHS
    else if s = "years" then View.YEARS
    else defaultValue
  | ViewOption.digit n => n

/-- Models `config.view` after `normalizeConfig`: view-type integers. -/
structure ViewConfig where
  start : Int := 0
  min : Int := 0
  max : Int := 2
deriving DecidableEq, Repr

/-- A value given for `multidate.enabled`: a boolean, a number or a string. -/
inductive EnabledOption where
  | bool (b : Bool)
  | number (n : Int)
  | text (s : String)
deriving DecidableEq, Repr

/-- Models `Number(value)` for a value given for `multidate.enabled`; `none` is
`NaN`.  What `Number` makes of a string is the parameter `numberOf`. -/
def EnabledOption.toNumber (numberOf : String → Option Int) : EnabledOption → Option Int
  | EnabledOption.bool b => some (if b then 1 else 0)
  | EnabledOption.number n => some n
  | EnabledOption.text t => numberOf t

/-- The `multidate.enabled` statements of `normalizeConfig`: a value other
than `true` becomes `Number(value) || false`, and a result other than `false`
becomes `Math.max(0, result)`. -/
def normalizeEnabled (numberOf : String → Option Int) (value : EnabledOption) :
    MultidateEnabled :=
  if value = EnabledOption.bool true then MultidateEnabled.bool true
  else
    match value.toNumber numberOf with
    | none => MultidateEnabled.bool false
    | some n =>
      if n = 0 then MultidateEnabled.bool false
      else MultidateEnabled.number (Max.max 0 n)

/-- The view statements of `normalizeConfig`: the three options are resolved
(`view.max` with the default `View.YEARS`), then
`start = Math.min(start, max)` and `start = Math.max(start, min)`. -/
def normalizeView (start min max : ViewOption) : ViewConfig :=
  let start1 := resolveViewType start View.DAYS
  let min1 := resolveViewType min View.DAYS
  let max1 := resolveViewType max View.YEARS
  let start2 := Min.min start1 max1
  let start3 := Max.max start2 min1
  { start := start3, min := min1, max := max1 }

/-- Models `config.view.modes[viewMode].navStep`: the array has five entries;
`none` is `undefined`. -/
def navStep (viewMode : Int) : Option Int :=
  if viewMode = 0 then some 1
  else if viewMode = 1 then some 1
  else if viewMode = 2 then some 10
  else if viewMode = 3 then some 100
  else if viewMode = 4 then some 1000
  else none

/-- JavaScript's `a % b` on integers: the remainder has the sign of `a`. -/
def jsRemainder (a b : Int) : Int := Int.tmod a b

/-- The value `normalizeConfig` leaves in `multidate.enabled`, as the value
that the next run of `normalizeConfig` finds there. -/
def MultidateEnabled.toOption : MultidateEnabled → EnabledOption
  | MultidateEnabled.bool b => EnabledOption.bool b
  | MultidateEnabled.number n => EnabledOption.number n

/-- The fields of `this.config` that `normalizeConfig` rewrites in place
(`view.start`, `view.min`, `view.max`, `multidate.enabled`, `week.start`,
`week.end`) and the two that `setDaysOfWeekDisabled` and
`setDaysOfWeekHighlighted` assign, as they stand in the object: before the
first run the view fields hold names or digits and `week.end` is absent
(`none`); after a run the view fields hold digits, `multidate.enabled` a
boolean or a number and `week.end` a number.  The defaults are those of
`Default`. -/
structure Options where
  viewStart : ViewOption := ViewOption.name "days"
  viewMin : ViewOption := ViewOption.name "days"
  viewMax : ViewOption := ViewOption.name "centuries"
  multidateEnabled : EnabledOption := EnabledOption.bool false
  weekStart : Int := 0
  weekEnd : Option Int := none
  daysOfWeekDisabled : List Int := []
  daysOfWeekHighlighted : List Int := []
deriving DecidableEq, Repr

/-- The statements of `normalizeConfig()` on the view options,
`multidate.enabled` and the week: `normalizeView`, `normalizeEnabled`,
`week.start %= 7` and `week.end = (week.start + 6) % 7`.  The other statements
assign `allowUpdate` (restored at the end), `multidate.separator`, `format`
and, through `setDateStart`, `setDateEnd` and `setDatesDisabled` (whose
`update()` returns at once while `allowUpdate` is false), the fields of
`config.date`; they come after the statements modelled here. -/
def normalizeConfig (numberOf : String → Option Int) (o : Options) : Options :=
  let view := normalizeView o.viewStart o.viewMin o.viewMax
  let weekStart := jsRemainder o.weekStart 7
  { o with
    viewStart := ViewOption.digit view.start
    viewMin := ViewOption.digit view.min
    viewMax := ViewOption.digit view.max
    multidateEnabled := (normalizeEnabled numberOf o.multidateEnabled).toOption
    weekStart := weekStart
    weekEnd := some (jsRemainder (weekStart + 6) 7) }

/-- The configuration statements of `setDaysOfWeekDisabled(days)`: the
assignment and `this.normalizeConfig()`; the `this.update()` that follows
assigns no option. -/
def setDaysOfWeekDisabled (numberOf : String → Option Int) (o : Options) (days : List Int) :
    Options :=
  normalizeConfig numberOf { o with daysOfWeekDisabled := days }

/-- The configuration statements of `setDaysOfWeekHighlighted(days)`: the
assignment and `this.normalizeConfig()`; the `this.update()` that follows
assigns no option. -/
def setDaysOfWeekHighlighted (numberOf : String → Option Int) (o : Options)
    (days : List Int) : Options :=
  normalizeConfig numberOf { o with daysOfWeekHighlighted := days }

/-- The options of `Default` that the selection and navigation code reads. -/
structure Config where
  autoclose : Bool := false
  toggleActive : Bool := false
  forceParse : Bool := true
  keyboardNavigation : Bool := true
  view : ViewConfig := {}
  multidate : MultidateConfig := {}
  date : DateConfig
  daysOfWeek : DaysOfWeekConfig := {}
deriving DecidableEq, Repr

/-- What the picker asks of the moment library with the configured format and
locale: `parse` is `moment(text, format, lang, true)` (`none` when the result
is not valid), `format` is `m.format(format)`, and `restamp` is `newMoment(m)`,
which is `moment([m])` put in UTC with the configured locale. -/
structure MomentLib where
  parse : String → Option Moment
  format : Moment → String
  restamp : Moment → Moment
  /-- Models `String(m)`, the default string form of a moment. -/
  toStr : Moment → String := fun m => toString m.valueOf

/-- The event names of `Event` in constants.js that the picker triggers. -/
inductive EventType where
  | SHOW
  | HIDE
  | DATE_CHANGE
  | DATE_CLEAR
  | MONTH_CHANGE
  | YEAR_CHANGE
  | DECADE_CHANGE
  | CENTURY_CHANGE
deriving DecidableEq, Repr

/-- The payload `_trigger` hands to `super.trigger`. -/
structure EventRecord where
  type : EventType
  date : Option Moment
  dates : List Moment
deriving DecidableEq, Repr

/-- The fields of a `Datepicker` instance that the selection code reads or
writes.  `elementVal` is `this.$element.val()`, `inputVal` is
`this.$element.find('input').val()`, `events` the trace of triggered events. -/
structure Datepicker where
  config : Config
  dates : Dates
  viewDate : Moment
  focusDate : Option Moment := none
  allowUpdate : Bool := true
  isInput : Bool := true
  component : Bool := false
  elementVal : String := ""
  inputVal : String := ""
  events : List EventRecord := []
  /-- Models `this.viewMode`. -/
  viewMode : Int := 0
  /-- Models `this.isInline`. -/
  isInline : Bool := false
  /-- Models `this.hasInput`. -/
  hasInput : Bool := false
  /-- Modelled from the spec: `this.renderer.isShowing()`; renderer.js is not
  among the sources, the spec has the renderer told of the visibility
  (`notifyVisibility`), which `renderer.show()` and `renderer.hide()` set. -/
  showing : Bool := false

/-- The result of a method call: the state reached and, when the call threw
instead of returning, the fault. -/
structure Outcome where
  state : Datepicker
  fault : Option Fault

/-- Sequencing of statements: when the first part threw, the rest is not run;
otherwise the rest runs from the state the first part left. -/
def Outcome.andThen (o : Outcome) (rest : Datepicker → Outcome) : Outcome :=
  match o.fault with
  | some f => ⟨o.state, some f⟩
  | none => rest o.state

namespace Datepicker

/-- The loop `while (this.dates.length() > limit) this.dates.remove(0)`.  It is
run with as many steps as the array has elements: after them the array is
empty, `remove(0)` changes nothing any more, and the loop exits iff
`0 > limit` is false; `none` is the loop that never exits. -/
def trimLoop (limit : Int) : Nat → Dates → Option Dates
  | 0, ds => if (ds.length : Int) > limit then none else some ds
  | k + 1, ds => if (ds.length : Int) > limit then trimLoop limit k (ds.remove 0) else some ds

/-- Models `toggleMultidate(date)` for a moment `date` (an object, so the
leading `if (!date) this.dates.clear()` is not taken). -/
def toggleMultidate (p : Datepicker) (date : Moment) : Outcome :=
  match p.dates.contains date with
  | Except.error f => ⟨p, some f⟩
  | Except.ok index =>
    let dates1 : Dates :=
      if index ≠ -1 then
        if p.config.multidate.enabled = MultidateEnabled.bool true
            ∨ p.config.multidate.enabled.gt 1 = true
            ∨ p.config.toggleActive = true then
          p.dates.remove index
        else p.dates
      else if p.config.multidate.enabled = MultidateEnabled.bool false then
        (p.dates.clear).push (Entry.moment date)
      else
        p.dates.push (Entry.moment date)
    match p.config.multidate.enabled with
    | MultidateEnabled.number n =>
      match trimLoop n dates1.length dates1 with
      | some dates2 => ⟨{ p with dates := dates2 }, none⟩
      | none => ⟨{ p with dates := Dates.clear dates1 }, some Fault.nonTermination⟩
    | MultidateEnabled.bool _ => ⟨{ p with dates := dates1 }, none⟩

/-- Models `getDate()`: the clone of `this.dates.last()`, or `null` (`none`)
when that is `undefined`. -/
def getDate (p : Datepicker) : Except Fault (Option Moment) :=
  match p.dates.last with
  | Except.error f => Except.error f
  | Except.ok none => Except.ok none
  | Except.ok (some (Entry.moment m)) => Except.ok (some m)
  | Except.ok (some (Entry.group _)) => Except.error Fault.typeError

/-- Models `getDateFormatted()`:
`this.dates.formattedArray(format).join(this.config.multidate.separator)`. -/
def getDateFormatted (L : MomentLib) (p : Datepicker) : Except Fault String :=
  match p.dates.formattedArray L.format with
  | Except.error f => Except.error f
  | Except.ok strs => Except.ok (String.intercalate p.config.multidate.separator strs)

/-- Models `weekOfDateIsDisabled(date)`:
`$.inArray(date.day(), this.config.daysOfWeek.disabled) !== -1`. -/
def weekOfDateIsDisabled (p : Datepicker) (date : Moment) : Bool :=
  p.config.daysOfWeek.disabled.contains date.day

/-- Models `dateIsDisabled(date)`. -/
def dateIsDisabled (p : Datepicker) (date : Moment) : Bool :=
  p.weekOfDateIsDisabled date
    || decide ((p.config.date.disabled.filter (fun d => date.isSameDay d)).length > 0)

/-- Models `dateWithinRange(date)`. -/
def dateWithinRange (p : Datepicker) (date : Moment) : Bool :=
  date.isSameOrAfter p.config.date.start && date.isSameOrBefore p.config.date.end

/-- What `moveAvailableDate` returns: `false` or a moment. -/
inductive MoveResult where
  | noDestination
  | date (m : Moment)
deriving DecidableEq, Repr

/-- Models `moveAvailableDate(date, dir, unit)`: the `do ... while` loop, run
for at most `fuel` rounds; `none` when the rounds are used up. -/
def moveAvailableDate (p : Datepicker) : Nat → Moment → Int → Unit → Option MoveResult
  | 0, _, _, _ => none
  | fuel + 1, date, dir, unit =>
    let m := date.add dir unit
    if !p.dateWithinRange m then some MoveResult.noDestination
    else if p.dateIsDisabled m then moveAvailableDate p fuel m dir Unit.DAY
    else some (MoveResult.date m)

/-- Models `parseDate(value)` with the configured format.  `throwError` comes
from the base class: it throws. -/
def parseDate (L : MomentLib) : Value → Except Fault Moment
  | Value.moment m => Except.ok (L.restamp m)
  | Value.invalidMoment => Except.error Fault.invalidMoment
  | Value.string s =>
    match L.parse s with
    | some m => Except.ok m
    | none => Except.error Fault.invalidMoment
  | _ => Except.error Fault.unknownValueType

/-- Models `parseDates(...dates)`: falsy values are skipped, the others parsed
in order. -/
def parseDates (L : MomentLib) : List Value → Except Fault (List Moment)
  | [] => Except.ok []
  | date :: rest =>
    if date.truthy then
      match parseDate L date with
      | Except.error f => Except.error f
      | Except.ok m =>
        match parseDates L rest with
        | Except.error f => Except.error f
        | Except.ok ms => Except.ok (m :: ms)
    else parseDates L rest

/-- The loop of `setDatesDisabled`: `newDisabled.push(this.parseDate(d))` for
every element, in order. -/
def parseEach (L : MomentLib) : List Value → Except Fault (List Moment)
  | [] => Except.ok []
  | d :: rest =>
    match parseDate L d with
    | Except.error f => Except.error f
    | Except.ok m =>
      match parseEach L rest with
      | Except.error f => Except.error f
      | Except.ok ms => Except.ok (m :: ms)

/-- Models `resolveDates(...dates)`.  `$.grep(array, fn, true)` keeps the
elements for which `fn` is false; a moment is truthy, so `!date` is false. -/
def resolveDates (L : MomentLib) (p : Datepicker) (dates : List Value) : Except Fault Dates :=
  let parsed : Except Fault (List Moment) :=
    if restIsTruthy dates then parseDates L dates
    else
      let text : String := if p.isInput then p.elementVal else p.inputVal
      let pieces : List Value :=
        if (Value.string text).truthy && p.config.multidate.enabled.truthy then
          (text.splitOn p.config.multidate.separator).map Value.string
        else [Value.string text]
      parseDates L pieces
  match parsed with
  | Except.error f => Except.error f
  | Except.ok newDatesArray =>
    Except.ok (Dates.new
      ((newDatesArray.filter (fun date => !(!p.dateWithinRange date || false))).map Entry.moment))

/-- Models `resolveViewDate()`. -/
def resolveViewDate (p : Datepicker) : Outcome :=
  if p.dates.length ≠ 0 then
    match p.dates.last with
    | Except.error f => ⟨p, some f⟩
    | Except.ok (some (Entry.moment m)) => ⟨{ p with viewDate := m }, none⟩
    | Except.ok _ => ⟨p, some Fault.typeError⟩
  else if p.viewDate.valueOf < p.config.date.start.valueOf then
    ⟨{ p with viewDate := p.config.date.start }, none⟩
  else if p.viewDate.valueOf > p.config.date.end.valueOf then
    ⟨{ p with viewDate := p.config.date.end }, none⟩
  else
    ⟨{ p with viewDate := p.config.date.dflt }, none⟩

/-- Models `setInputValue()`. -/
def setInputValue (L : MomentLib) (p : Datepicker) : Outcome :=
  match p.getDateFormatted L with
  | Except.error f => ⟨p, some f⟩
  | Except.ok formatted =>
    if !p.isInput then
      if p.component then ⟨{ p with inputVal := formatted }, none⟩ else ⟨p, none⟩
    else ⟨{ p with elementVal := formatted }, none⟩

/-- Models `_trigger(event, altdate)`.  `super.trigger` comes from the base
class: it hands the record to the listeners, here the trace `events`. -/
def _trigger (p : Datepicker) (event : EventType) (altdate : Option Moment) : Outcome :=
  let date : Except Fault (Option Moment) :=
    match altdate with
    | some a => Except.ok (some a)
    | none =>
      match p.dates.last with
      | Except.error f => Except.error f
      | Except.ok none => Except.ok none
      | Except.ok (some (Entry.moment m)) => Except.ok (some m)
      | Except.ok (some (Entry.group _)) => Except.error Fault.typeError
  match date with
  | Except.error f => ⟨p, some f⟩
  | Except.ok d =>
    match p.dates.clonedArray with
    | Except.error f => ⟨p, some f⟩
    | Except.ok ds => ⟨{ p with events := p.events ++ [⟨event, d, ds⟩] }, none⟩

/-- Models `update(...moments)`.  `this.renderer.fill()` and
`this.$element.change()` act on the renderer and the host only. -/
def update (L : MomentLib) (p : Datepicker) (moments : List Value) : Outcome :=
  if !p.allowUpdate then ⟨p, none⟩
  else
    let oldDates := p.dates.copy
    match resolveDates L p moments with
    | Except.error f => ⟨p, some f⟩
    | Except.ok newDates =>
      match resolveViewDate { p with dates := newDates } with
      | ⟨p1, some f⟩ => ⟨p1, some f⟩
      | ⟨p1, none⟩ =>
        let step : Outcome :=
          if restIsTruthy moments then setInputValue L p1
          else if p1.dates.length ≠ 0 then
            if Entry.jsStringList L.toStr oldDates.array ≠ Entry.jsStringList L.toStr p1.dates.array
            then _trigger p1 EventType.DATE_CHANGE none
            else ⟨p1, none⟩
          else ⟨p1, none⟩
        match step with
        | ⟨p2, some f⟩ => ⟨p2, some f⟩
        | ⟨p2, none⟩ =>
          if p2.dates.length = 0 ∧ oldDates.length ≠ 0 then _trigger p2 EventType.DATE_CLEAR none
          else ⟨p2, none⟩

/-- Models `setDates(...dates)`. -/
def setDates (L : MomentLib) (p : Datepicker) (dates : List Value) : Outcome :=
  update L p dates

/-- Models `setDate(date)`. -/
def setDate (L : MomentLib) (p : Datepicker) (date : Value) : Outcome :=
  setDates L p [date]

/-- Models `setDateStart(dateStart)`. -/
def setDateStart (L : MomentLib) (p : Datepicker) (dateStart : Value) : Outcome :=
  if dateStart.truthy then
    match parseDate L dateStart with
    | Except.error f => ⟨p, some f⟩
    | Except.ok m =>
      update L { p with config := { p.config with date := { p.config.date with start := m } } } []
  else
    update L
      { p with config := { p.config with date := { p.config.date with start := startOfAllTime } } }
      []

/-- Models `setDateEnd(dateEnd)`. -/
def setDateEnd (L : MomentLib) (p : Datepicker) (dateEnd : Value) : Outcome :=
  if dateEnd.truthy then
    match parseDate L dateEnd with
    | Except.error f => ⟨p, some f⟩
    | Except.ok m =>
      update L { p with config := { p.config with date := { p.config.date with «end» := m } } } []
  else
    update L
      { p with config := { p.config with date := { p.config.date with «end» := endOfAllTime } } }
      []

/-- Models `setDatesDisabled(dates)`. -/
def setDatesDisabled (L : MomentLib) (p : Datepicker) (dates : DatesArg) : Outcome :=
  match parseEach L dates.toArray with
  | Except.error f => ⟨p, some f⟩
  | Except.ok newDisabled =>
    update L
      { p with config := { p.config with date := { p.config.date with disabled := newDisabled } } }
      []

/-- Models `showMode(dir)`; `none` is the call without an argument.  The
renderer calls act on the DOM only; reading
`this.config.view.modes[this.viewMode].cssClass` is a `TypeError` when
`viewMode` is not an index of the five modes. -/
def showMode (p : Datepicker) (dir : Option Int) : Outcome :=
  let p1 : Datepicker :=
    match dir with
    | some d =>
      if d ≠ 0 then
        { p with viewMode := Max.max p.config.view.min (Min.min p.config.view.max (p.viewMode + d)) }
      else p
    | none => p
  match navStep p1.viewMode with
  | some _ => ⟨p1, none⟩
  | none => ⟨p1, some Fault.typeError⟩

/-- Models `hide()`.  `this.renderer.hide()` clears `showing`;
`detachSecondaryEvents()` acts on the DOM only. -/
def hide (L : MomentLib) (p : Datepicker) : Outcome :=
  if p.isInline || !p.showing then ⟨p, none⟩
  else
    (showMode { p with focusDate := none, showing := false, viewMode := p.config.view.start }
        none).andThen fun p2 =>
      (if p2.config.forceParse
            && ((p2.isInput && (Value.string p2.elementVal).truthy)
              || (p2.hasInput && (Value.string p2.inputVal).truthy)) then
          setInputValue L p2
        else ⟨p2, none⟩).andThen fun p3 =>
        _trigger p3 EventType.HIDE none

/-- The second argument of `clickDate`: `'date'` or `'view'`. -/
inductive Scope where
  | date
  | view
deriving DecidableEq, Repr

/-- Models `clickDate(date, which)`; `which = none` is a falsy `which`.
`this.renderer.fill()` and `$e.change()` act on the renderer and the host only. -/
def clickDate (L : MomentLib) (p : Datepicker) (date : Moment) (which : Option Scope) : Outcome :=
  (if which = none ∨ which = some Scope.date then toggleMultidate p date
    else ⟨p, none⟩).andThen fun p1 =>
    (setInputValue L
        (if which = none ∨ which = some Scope.view then { p1 with viewDate := date }
          else p1)).andThen fun p3 =>
      (if which = none ∨ which ≠ some Scope.view then _trigger p3 EventType.DATE_CHANGE none
        else ⟨p3, none⟩).andThen fun p4 =>
        if p4.config.autoclose && decide (which = none ∨ which = some Scope.date) then hide L p4
        else ⟨p4, none⟩

/-- The branch of `click` for a target inside the prev or next arrow; `prev`
tells which.  `this.renderer.fill()` acts on the renderer only. -/
def clickPrevNext (p : Datepicker) (prev : Bool) : Outcome :=
  match navStep p.viewMode with
  | none => ⟨p, some Fault.typeError⟩
  | some step =>
    let dir : Int := step * (if prev then -1 else 1)
    if p.viewMode = View.DAYS then
      _trigger { p with viewDate := p.viewDate.add dir Unit.MONTH } EventType.MONTH_CHANGE
        (some (p.viewDate.add dir Unit.MONTH))
    else if p.viewMode = View.MONTHS then
      _trigger { p with viewDate := p.viewDate.add dir Unit.YEAR } EventType.YEAR_CHANGE
        (some (p.viewDate.add dir Unit.YEAR))
    else ⟨{ p with viewDate := p.viewDate.add dir Unit.YEAR }, none⟩

/-- The moments `moveAvailableDate` tries one after the other: the value of
`m` after each `m = m.add(dir, unit)` of the loop, for at most `fuel` rounds. -/
def moveCandidates (p : Datepicker) : Nat → Moment → Int → Unit → List Moment
  | 0, _, _, _ => []
  | fuel + 1, date, dir, unit =>
    let m := date.add dir unit
    if !p.dateWithinRange m then [m]
    else if p.dateIsDisabled m then m :: moveCandidates p fuel m dir Unit.DAY
    else [m]

/-- Models `m.year()`. -/
def yearOf (m : Moment) : Int := (civilFromDays m.dayNumber).1

/-- Models `m.month()`: 0 = January .. 11 = December. -/
def monthOf (m : Moment) : Int := (civilFromDays m.dayNumber).2.1 - 1

/-- Models `newMoment(year, month, day)`, which is `moment([year, month, day])`
put in UTC: midnight of that day (`month` counts from 0). -/
def newMomentYMD (year month day : Int) : Moment :=
  ⟨daysFromCivil year (month + 1) day * msPerDay⟩

/-- The branch of `click` for a target with the class `day` that is not
disabled.  `cell` is `parseInt($target.text(), 10)` (`none` is `NaN`), `old`
and `new` tell whether the cell has the classes of the previous and of the
next month. -/
def clickDay (L : MomentLib) (p : Datepicker) (cell : Option Int) (old new : Bool) : Outcome :=
  let day : Int :=
    match cell with
    | some d => if d = 0 then 1 else d
    | none => 1
  let year0 := yearOf p.viewDate
  let month0 := monthOf p.viewDate
  let year1 := if old && decide (month0 = 0) then year0 - 1 else year0
  let month1 := if old then (if month0 = 0 then 11 else month0 - 1) else month0
  let monthChanged1 := old
  let yearChanged1 := old && decide (month0 = 0)
  let year2 := if new && decide (month1 = 11) then year1 + 1 else year1
  let month2 := if new then (if month1 = 11 then 0 else month1 + 1) else month1
  let monthChanged2 := new || monthChanged1
  let yearChanged2 := (new && decide (month1 = 11)) || yearChanged1
  (clickDate L p (newMomentYMD year2 month2 day) none).andThen fun p1 =>
    (if yearChanged2 then _trigger p1 EventType.YEAR_CHANGE (some p1.viewDate)
      else ⟨p1, none⟩).andThen fun p2 =>
      if monthChanged2 then _trigger p2 EventType.MONTH_CHANGE (some p2.viewDate)
      else ⟨p2, none⟩

/-- A call that moves the view mode: `showMode(delta)` or `hide()`. -/
inductive ViewCall where
  | showMode (delta : Int)
  | hide
deriving DecidableEq, Repr

/-- The state after a sequence of `showMode` and `hide` calls, each call
starting from the state the previous one left, whether it returned or threw. -/
def runViewCalls (L : MomentLib) (p : Datepicker) : List ViewCall → Datepicker
  | [] => p
  | ViewCall.showMode delta :: rest => runViewCalls L (showMode p (some delta)).state rest
  | ViewCall.hide :: rest => runViewCalls L (hide L p).state rest

/-- Calls `toggleMultidate` on each date of the list in turn, stopping at the
first call that throws. -/
def toggleEach (p : Datepicker) : List Moment → Outcome
  | [] => ⟨p, none⟩
  | d :: rest =>
    match p.toggleMultidate d with
    | ⟨q, none⟩ => toggleEach q rest
    | ⟨q, some f⟩ => ⟨q, some f⟩

/-- The four arrow keys of `Keycodes`. -/
inductive ArrowKey where
  | LEFT
  | UP
  | RIGHT
  | DOWN
deriving DecidableEq, Repr

/-- The case of the `switch` in `keydown(ev)` for the four arrow keys, which
`keydown` reaches when the picker is showing.  `ctrlKey` and `shiftKey` are
`ev.ctrlKey` and `ev.shiftKey`; `moveAvailableDate` is run for at most `fuel`
rounds, and the result is `none` when they are used up.  A `newViewDate` that
is still `null` and one that is `false` are both `noDestination`: the code
only tests `if (newViewDate)`.  `this.renderer.fill()` and
`ev.preventDefault()` act on the renderer and the event only. -/
def keydownArrow (L : MomentLib) (p : Datepicker) (fuel : Nat) (key : ArrowKey)
    (ctrlKey shiftKey : Bool) : Option Outcome :=
  let focusDate : Moment :=
    match p.focusDate with
    | some f => f
    | none => p.viewDate
  if !p.config.keyboardNavigation || decide (p.config.daysOfWeek.disabled.length = 7) then
    some ⟨p, none⟩
  else
    let dir : Int := if key = ArrowKey.LEFT ∨ key = ArrowKey.UP then -1 else 1
    let dir4 : Int := if key = ArrowKey.UP ∨ key = ArrowKey.DOWN then dir * 4 else dir
    let moved : Option (MoveResult × Option EventType) :=
      if p.viewMode = View.DAYS then
        if ctrlKey then
          (p.moveAvailableDate fuel focusDate dir Unit.YEAR).map
            fun r => (r, some EventType.YEAR_CHANGE)
        else if shiftKey then
          (p.moveAvailableDate fuel focusDate dir Unit.MONTH).map
            fun r => (r, some EventType.MONTH_CHANGE)
        else if key = ArrowKey.LEFT ∨ key = ArrowKey.RIGHT then
          (p.moveAvailableDate fuel focusDate dir Unit.DAY).map fun r => (r, none)
        else if !p.weekOfDateIsDisabled focusDate then
          (p.moveAvailableDate fuel focusDate dir Unit.WEEK).map fun r => (r, none)
        else some (MoveResult.noDestination, none)
      else if p.viewMode = View.MONTHS then
        (p.moveAvailableDate fuel focusDate dir4 Unit.MONTH).map fun r => (r, none)
      else if p.viewMode = View.YEARS then
        (p.moveAvailableDate fuel focusDate dir4 Unit.YEAR).map fun r => (r, none)
      else some (MoveResult.noDestination, none)
    match moved with
    | none => none
    | some (MoveResult.noDestination, _) => some ⟨p, none⟩
    | some (MoveResult.date m, event) =>
      some
        ((match event with
          | some e => _trigger p e (some p.viewDate)
          | none => ⟨p, none⟩).andThen fun p1 =>
          setInputValue L { p1 with focusDate := some m, viewDate := m })

/-- Models `keydown(ev)` for the Enter key.  On a picker that is not showing
`keydown` returns at once (Enter is neither Down nor Esc).  The value of
`this.focusDate || this.dates.last() || this.viewDate` and that of
`this.dates.last() || this.viewDate` are moments or the call throws: a
`last()` that returned an array is taken as a `TypeError` (`Dates#get` throws
before).  `dateChanged` is set exactly when `keyboard.navigation` is on.
`this.renderer.fill()`, `ev.preventDefault()`, `ev.stopPropagation()` and
`element.change()` act on the renderer, the event and the host only. -/
def keydownEnter (L : MomentLib) (p : Datepicker) : Outcome :=
  if !p.showing then ⟨p, none⟩
  else if !p.config.forceParse then ⟨p, none⟩
  else
    let focus : Except Fault Moment :=
      match p.focusDate with
      | some f => Except.ok f
      | none =>
        match p.dates.last with
        | Except.error e => Except.error e
        | Except.ok (some (Entry.moment m)) => Except.ok m
        | Except.ok (some (Entry.group _)) => Except.error Fault.typeError
        | Except.ok none => Except.ok p.viewDate
    match focus with
    | Except.error e => ⟨p, some e⟩
    | Except.ok focusDate =>
      (if p.config.keyboardNavigation then p.toggleMultidate focusDate
        else ⟨p, none⟩).andThen fun p1 =>
        (match p1.dates.last with
          | Except.error e => (⟨{ p1 with focusDate := none }, some e⟩ : Outcome)
          | Except.ok (some (Entry.moment m)) =>
            ⟨{ p1 with focusDate := none, viewDate := m }, none⟩
          | Except.ok (some (Entry.group _)) =>
            ⟨{ p1 with focusDate := none }, some Fault.typeError⟩
          | Except.ok none => ⟨{ p1 with focusDate := none }, none⟩).andThen fun p2 =>
          (setInputValue L p2).andThen fun p3 =>
            (if p3.showing && p3.config.autoclose then hide L p3
              else ⟨p3, none⟩).andThen fun p4 =>
              if p.config.keyboardNavigation then
                if p4.dates.length ≠ 0 then _trigger p4 EventType.DATE_CHANGE none
                else _trigger p4 EventType.DATE_CLEAR none
              else ⟨p4, none⟩

end Datepicker

/-! ## Moment objects -/

/-- The moments of a picker as objects.  A moment is a mutable object: `add`
changes it in place, and an assignment such as `this.viewDate = date` or a
`push(date)` stores a reference to it.  `store r` is the instant the object
`r` holds; `viewDate` is the object `this.viewDate` refers to, and `dates`
are the objects the entries of `this.dates.array` refer to, in order.  Two
references may be to the same object. -/
structure ObjectPicker where
  store : Nat → Moment
  viewDate : Nat
  dates : List Nat
  viewMode : Int := 0
  events : List EventRecord := []

namespace ObjectPicker

/-- The instants of the selected dates, in order: `this.dates.clonedArray()`. -/
def selection (q : ObjectPicker) : List Moment := q.dates.map q.store

/-- Models `r.add(dir, unit)` on the object `r`: afterwards `r` holds the
moved instant and every other object holds what it held. -/
def add (q : ObjectPicker) (r : Nat) (dir : Int) (unit : Unit) : ObjectPicker :=
  { q with store := fun s => if s = r then (q.store r).add dir unit else q.store s }

/-- Models `_trigger(event, altdate)` with the moment object `altdate`: the
record holds a clone of `altdate` and the clones of the selected dates. -/
def _trigger (q : ObjectPicker) (event : EventType) (altdate : Nat) : ObjectPicker :=
  { q with events := q.events ++ [⟨event, some (q.store altdate), q.selection⟩] }

/-- The branch of `click` for a target inside the prev or next arrow, on
objects; `none` is the `TypeError` of reading `navStep` of a mode that is not
among the five. -/
def clickPrevNext (q : ObjectPicker) (prev : Bool) : Option ObjectPicker :=
  match navStep q.viewMode with
  | none => none
  | some step =>
    let dir : Int := step * (if prev then -1 else 1)
    if q.viewMode = View.DAYS then
      some ((q.add q.viewDate dir Unit.MONTH)._trigger EventType.MONTH_CHANGE q.viewDate)
    else if q.viewMode = View.MONTHS then
      some ((q.add q.viewDate dir Unit.YEAR)._trigger EventType.YEAR_CHANGE q.viewDate)
    else some (q.add q.viewDate dir Unit.YEAR)

/-- The picker `p` with the moments of `q` read as values. -/
def values (q : ObjectPicker) (p : Datepicker) : Datepicker :=
  { p with
    dates := Dates.ofMoments q.selection
    viewDate := q.store q.viewDate
    viewMode := q.viewMode
    events := q.events }

end ObjectPicker

/-! ## Sample values -/

/-- Midnight UTC of the given day of March 2012. -/
def march (day : Int) : Moment := ⟨daysFromCivil 2012 3 day * msPerDay⟩

/-- A configuration with the defaults of `Default`, the given `toggleActive`
and `multidate.enabled`, and 5 March 2012 as default date. -/
def sampleConfig (toggleActive : Bool) (enabled : MultidateEnabled) : Config :=
  { toggleActive := toggleActive, multidate := { enabled := enabled }, date := { dflt := march 5 } }

/-- A picker over `sampleConfig` whose selection is the moments `S`. -/
def samplePicker (toggleActive : Bool) (enabled : MultidateEnabled) (S : List Moment) : Datepicker :=
  { config := sampleConfig toggleActive enabled, dates := Dates.ofMoments S, viewDate := march 5 }

/-- A formatter that prints the day number of a moment. -/
def sampleLib : MomentLib :=
  { parse := fun _ => none, format := fun m => toString m.dayNumber, restamp := fun m => m }

/-- A picker over the default options with the given disabled weekdays and
disabled dates, and nothing selected. -/
def constrainedPicker (days : List Int) (disabled : List Moment) : Datepicker :=
  { config := { date := { dflt := march 5, disabled := disabled },
                daysOfWeek := { disabled := days } },
    dates := Dates.ofMoments [], viewDate := march 5 }

/-- A moment library for the format `MM/DD/YYYY` that knows three texts:
`03/05/2012`, `03/14/2012` and `03/20/2012`. -/
def inputLib : MomentLib :=
  { parse := fun t =>
      if t = "03/05/2012" then some (march 5)
      else if t = "03/14/2012" then some (march 14)
      else if t = "03/20/2012" then some (march 20)
      else none,
    format := fun m =>
      if m = march 5 then "03/05/2012"
      else if m = march 14 then "03/14/2012"
      else if m = march 20 then "03/20/2012"
      else "other",
    restamp := fun m => m }

/-- The picker at the point where its constructor calls `this.update()`: an
input holding `text`, `this.dates = new DateArray()`, updates allowed. -/
def freshPicker (text : String) (enabled : MultidateEnabled) : Datepicker :=
  { config := sampleConfig false enabled, dates := Dates.new [], viewDate := march 5,
    elementVal := text }

/-- A single-select picker on an input showing `03/05/2012`, with 5 March 2012
selected. -/
def selectedPicker : Datepicker :=
  { config := sampleConfig false (MultidateEnabled.bool false),
    dates := Dates.ofMoments [march 5], viewDate := march 5, elementVal := "03/05/2012" }

/-- Midnight UTC of the given day of October 2012. -/
def october (day : Int) : Moment := ⟨daysFromCivil 2012 10 day * msPerDay⟩

/-- A picker with the range 1 March 2012 .. 10 March 2012 (both at midnight),
nothing selected, view date and default date 5 March 2012. -/
def rangePicker (allowUpdate : Bool) : Datepicker :=
  { config := { date := { start := march 1, «end» := march 10, dflt := march 5 } },
    dates := Dates.ofMoments [], viewDate := march 5, allowUpdate := allowUpdate }

/-- Noon UTC of the given day of March 2012. -/
def marchNoon (day : Int) : Moment := ⟨daysFromCivil 2012 3 day * msPerDay + 43200000⟩

/-- A picker as its constructor leaves it for the given view options:
`config.view` is normalised and `viewMode` is `config.view.start`. -/
def viewPicker (start min max : ViewOption) (showing : Bool) : Datepicker :=
  { config := { view := normalizeView start min max, date := { dflt := march 5 } },
    dates := Dates.ofMoments [], viewDate := march 5,
    viewMode := (normalizeView start min max).start, showing := showing }

/-- A picker with the range 1 March .. 10 March 2012, nothing selected, view
date 5 March 2012, and the default date 20 March 2012, outside the range. -/
def defaultOutsidePicker : Datepicker :=
  { config := { date := { start := march 1, «end» := march 10, dflt := march 20 } },
    dates := Dates.ofMoments [], viewDate := march 5 }

/-- A shown single-select picker on an input showing `03/05/2012`, with
5 March 2012 selected, keyboard focus on 7 March, zoomed out to the years view. -/
def shownPicker : Datepicker :=
  { config := sampleConfig false (MultidateEnabled.bool false),
    dates := Dates.ofMoments [march 5], viewDate := march 5, focusDate := some (march 7),
    elementVal := "03/05/2012", viewMode := 2, showing := true }

/-- A shown single-select picker with `autoclose` on, on an input showing
`03/05/2012`, with 5 March 2012 selected. -/
def autoclosePicker : Datepicker :=
  { config := { autoclose := true, date := { dflt := march 5 } },
    dates := Dates.ofMoments [march 5], viewDate := march 5,
    elementVal := "03/05/2012", showing := true }

/-- Midnight UTC of the given day of July 2012. -/
def july (day : Int) : Moment := ⟨daysFromCivil 2012 7 day * msPerDay⟩

/-- A picker over `sampleConfig` with 14 March 2012 selected and the view date
5 March 2012. -/
def viewElsewherePicker : Datepicker :=
  { config := sampleConfig false (MultidateEnabled.bool false),
    dates := Dates.ofMoments [march 14], viewDate := march 5 }

/-- A shown single-select picker on an input showing `03/05/2012`, with
5 March 2012 selected and shown, the given `forceParse` and
`keyboard.navigation`, and the given keyboard focus. -/
def enterPicker (forceParse keyboardNavigation : Bool) (focus : Option Moment) : Datepicker :=
  { config := { forceParse := forceParse, keyboardNavigation := keyboardNavigation,
                date := { dflt := march 5 } },
    dates := Dates.ofMoments [march 5], viewDate := march 5, focusDate := focus,
    elementVal := "03/05/2012", showing := true }

/-- A shown picker at the days view over the default options with the given
disabled weekdays, nothing selected, view date 5 March 2012 (a Monday) and the
given keyboard focus. -/
def arrowPicker (days : List Int) (focus : Option Moment) : Datepicker :=
  { config := { date := { dflt := march 5 }, daysOfWeek := { disabled := days } },
    dates := Dates.ofMoments [], viewDate := march 5, focusDate := focus, showing := true }

/-- Midnight UTC of the given day of April 2012. -/
def april (day : Int) : Moment := ⟨daysFromCivil 2012 4 day * msPerDay⟩

/-- Three moment objects: object 0 holds 5 March 2012, object 1 holds
14 March 2012 and every other object 20 March 2012; `this.viewDate` refers to
the object `viewDate` and the entries of the selection to the objects `dates`. -/
def objectPicker (viewDate : Nat) (dates : List Nat) (viewMode : Int) : ObjectPicker :=
  { store := fun r => if r = 0 then march 5 else if r = 1 then march 14 else march 20,
    viewDate := viewDate, dates := dates, viewMode := viewMode }

/-! # Theorems -/

/-! ## Facts about `Dates` -/

theorem Moment.isSame_iff (a b : Moment) : a.isSame b = true ↔ a = b := by
  cases a; cases b; simp [Moment.isSame]

theorem Dates.containsFrom_moments (other : Moment) (S : List Moment) (i : Int) :
    Dates.containsFrom other i (S.map Entry.moment)
      = Except.ok (if other ∈ S then i + (S.indexOf other : Nat) else -1) := by
  induction S generalizing i with
  | nil => simp [Dates.containsFrom]
  | cons m rest ih =>
    by_cases h : m = other
    · subst h
      simp [Dates.containsFrom, (Moment.isSame_iff m m).2 rfl]
    · have h1 : m.isSame other = false := by
        cases hs : m.isSame other
        · rfl
        · exact absurd ((Moment.isSame_iff m other).1 hs) h
      have h2 : other ≠ m := fun e => h e.symm
      simp only [List.map_cons, Dates.containsFrom, h1, ih, List.mem_cons, h2, false_or,
        List.indexOf_cons_ne _ h, Bool.false_eq_true, if_false]
      by_cases hm : other ∈ rest
      · simp only [hm, if_true]
        congr 1
        push_cast
        ring
      · simp only [hm, if_false]

theorem Dates.contains_ofMoments (other : Moment) (S : List Moment) :
    (Dates.ofMoments S).contains other
      = Except.ok (if other ∈ S then ((S.indexOf other : Nat) : Int) else -1) := by
  simp [Dates.contains, Dates.ofMoments, Dates.containsFrom_moments]

theorem Dates.splice1_natCast (xs : List Entry) (k : Nat) :
    Dates.splice1 xs (k : Int) = xs.eraseIdx k := by
  unfold Dates.splice1
  have h0 : ¬ ((k : Int) < 0) := by omega
  simp only [h0, if_false]
  by_cases hk : k ≤ xs.length
  · have : min (k : Int) (xs.length : Int) = ((k : Nat) : Int) := by
      rw [min_eq_left]; exact_mod_cast hk
    rw [this]; simp
  · have hk2 : xs.length ≤ k := by omega
    have : min (k : Int) (xs.length : Int) = ((xs.length : Nat) : Int) := by
      rw [min_eq_right]; exact_mod_cast hk2
    rw [this]
    simp only [Int.toNat_ofNat]
    rw [List.eraseIdx_of_length_le (le_refl _), List.eraseIdx_of_length_le hk2]

theorem Dates.remove_ofMoments (S : List Moment) (k : Nat) :
    (Dates.ofMoments S).remove (k : Int) = Dates.ofMoments (S.eraseIdx k) := by
  simp only [Dates.remove, Dates.ofMoments, Dates.splice1_natCast]
  congr 1
  induction S generalizing k with
  | nil => simp
  | cons m rest ih =>
    cases k with
    | zero => simp
    | succ j => simp [ih]

theorem Dates.push_ofMoments (S : List Moment) (d : Moment) :
    (Dates.ofMoments S).push (Entry.moment d) = Dates.ofMoments (S ++ [d]) := by
  simp [Dates.push, Dates.ofMoments]

/-- The capacity loop exits, with the last `n` elements, for every limit `n ≥ 0`. -/
theorem Datepicker.trimLoop_nat (n k : Nat) (ds : Dates) (hk : ds.array.length ≤ k + n) :
    Datepicker.trimLoop (n : Int) k ds = some ⟨ds.array.drop (ds.array.length - n)⟩ := by
  induction k generalizing ds with
  | zero =>
    have h : ¬ ((ds.length : Int) > (n : Int)) := by
      simp only [Dates.length]; omega
    have h2 : ds.array.length - n = 0 := by omega
    simp [Datepicker.trimLoop, h, h2]
  | succ j ih =>
    by_cases h : (ds.length : Int) > (n : Int)
    · have hlen : n < ds.array.length := by
        simp only [Dates.length] at h; omega
      have hrem : ds.remove 0 = ⟨ds.array.tail⟩ := by
        have := Dates.splice1_natCast ds.array 0
        simp only [Nat.cast_zero] at this
        simp [Dates.remove, this]
      simp only [Datepicker.trimLoop, h, if_true, hrem]
      rw [ih ⟨ds.array.tail⟩ (by simp; omega)]
      congr 2
      cases hds : ds.array with
      | nil => simp [hds] at hlen
      | cons e es =>
        simp only [List.tail_cons, List.length_cons]
        have : es.length + 1 - n = (es.length - n) + 1 := by
          simp [hds] at hlen; omega
        rw [this, List.drop_succ_cons]
    · have h2 : ds.array.length - n = 0 := by
        simp only [Dates.length] at h; omega
      simp [Datepicker.trimLoop, h, h2]

theorem Dates.formattedArray_ofMoments (S : List Moment) (f : Moment → String) :
    (Dates.ofMoments S).formattedArray f = Except.ok (S.map f) := by
  unfold Dates.formattedArray Dates.ofMoments
  induction S with
  | nil => rfl
  | cons m rest ih =>
    simp only [List.map_cons, Dates.formattedArray.go]
    simp only [] at ih
    rw [ih]

/-- The capacity loop changes nothing when the array is within the limit. -/
theorem Datepicker.trimLoop_within (n : Int) (k : Nat) (ds : Dates)
    (h : (ds.array.length : Int) ≤ n) : Datepicker.trimLoop n k ds = some ds := by
  have h2 : ¬ ((ds.length : Int) > n) := by
    simp only [Dates.length]; omega
  cases k <;> simp [Datepicker.trimLoop, h2]

/-! ## Facts about `toggleMultidate` -/

/-- A date that is not selected is pushed; under a numeric limit `n ≥ 0` the
oldest dates are dropped until `n` remain. -/
theorem Datepicker.toggleMultidate_absent_number (p : Datepicker) (S : List Moment)
    (d : Moment) (n : Nat)
    (hmode : p.config.multidate.enabled = MultidateEnabled.number (n : Int))
    (hsel : p.dates = Dates.ofMoments S) (hd : d ∉ S) :
    p.toggleMultidate d
      = ⟨{ p with dates := Dates.ofMoments ((S ++ [d]).drop (S.length + 1 - n)) }, none⟩ := by
  unfold Datepicker.toggleMultidate
  rw [hsel, Dates.contains_ofMoments]
  simp only [hd, if_false, hmode, ne_eq, not_true_eq_false, reduceCtorEq, Dates.push_ofMoments]
  rw [Datepicker.trimLoop_nat n _ _ (by simp [Dates.length])]
  simp [Dates.ofMoments, List.map_drop]

/-- A date that is not selected is pushed when `multidate.enabled` is `true`. -/
theorem Datepicker.toggleMultidate_absent_true (p : Datepicker) (S : List Moment) (d : Moment)
    (hmode : p.config.multidate.enabled = MultidateEnabled.bool true)
    (hsel : p.dates = Dates.ofMoments S) (hd : d ∉ S) :
    p.toggleMultidate d = ⟨{ p with dates := Dates.ofMoments (S ++ [d]) }, none⟩ := by
  unfold Datepicker.toggleMultidate
  rw [hsel, Dates.contains_ofMoments]
  simp [hd, hmode, Dates.push_ofMoments]

/-- A date that is not selected replaces the selection when `multidate.enabled`
is `false`. -/
theorem Datepicker.toggleMultidate_absent_false (p : Datepicker) (S : List Moment) (d : Moment)
    (hmode : p.config.multidate.enabled = MultidateEnabled.bool false)
    (hsel : p.dates = Dates.ofMoments S) (hd : d ∉ S) :
    p.toggleMultidate d = ⟨{ p with dates := Dates.ofMoments [d] }, none⟩ := by
  unfold Datepicker.toggleMultidate
  rw [hsel, Dates.contains_ofMoments]
  simp [hd, hmode, Dates.clear, Dates.push, Dates.ofMoments]

/-- A selected date is removed when the removal condition of `toggleMultidate`
holds and the remaining dates are within the numeric limit, if there is one. -/
theorem Datepicker.toggleMultidate_present (p : Datepicker) (S : List Moment) (d : Moment)
    (hcond : p.config.multidate.enabled = MultidateEnabled.bool true
      ∨ p.config.multidate.enabled.gt 1 = true ∨ p.config.toggleActive = true)
    (hcap : ∀ n, p.config.multidate.enabled = MultidateEnabled.number n →
      ((S.erase d).length : Int) ≤ n)
    (hsel : p.dates = Dates.ofMoments S) (hd : d ∈ S) :
    p.toggleMultidate d = ⟨{ p with dates := Dates.ofMoments (S.erase d) }, none⟩ := by
  unfold Datepicker.toggleMultidate
  rw [hsel, Dates.contains_ofMoments]
  have hidx : ((List.indexOf d S : Nat) : Int) ≠ -1 := by omega
  simp only [hd, if_true, hidx, ne_eq, not_false_eq_true, hcond, Dates.remove_ofMoments,
    List.eraseIdx_indexOf_eq_erase]
  cases he : p.config.multidate.enabled with
  | bool b => rfl
  | number n =>
    simp only []
    rw [Datepicker.trimLoop_within n _ _ (by simpa [Dates.ofMoments] using hcap n he)]

/-- A selected date is removed under a numeric limit `n ≥ 0` when the removal
condition holds; the capacity loop then keeps the last `n` of the others. -/
theorem Datepicker.toggleMultidate_present_number (p : Datepicker) (S : List Moment)
    (d : Moment) (n : Nat)
    (hmode : p.config.multidate.enabled = MultidateEnabled.number (n : Int))
    (hcond : p.config.multidate.enabled.gt 1 = true ∨ p.config.toggleActive = true)
    (hsel : p.dates = Dates.ofMoments S) (hd : d ∈ S) :
    p.toggleMultidate d
      = ⟨{ p with dates := Dates.ofMoments ((S.erase d).drop ((S.erase d).length - n)) },
          none⟩ := by
  unfold Datepicker.toggleMultidate
  rw [hsel, Dates.contains_ofMoments]
  have hidx : ((List.indexOf d S : Nat) : Int) ≠ -1 := by omega
  have hcond2 : p.config.multidate.enabled = MultidateEnabled.bool true
      ∨ p.config.multidate.enabled.gt 1 = true ∨ p.config.toggleActive = true := Or.inr hcond
  simp only [hd, if_true, hidx, ne_eq, not_false_eq_true, hcond2, Dates.remove_ofMoments,
    List.eraseIdx_indexOf_eq_erase]
  simp only [hmode]
  rw [Datepicker.trimLoop_nat n _ _ (by simp [Dates.length])]
  simp [Dates.ofMoments, List.map_drop]

/-- Dropping down to `n` elements before and after appending one element is
dropping down to `n` elements after appending it. -/
theorem drop_drop_append_singleton {α : Type} (E : List α) (d : α) (n : Nat) :
    (E.drop (E.length - n) ++ [d]).drop ((E.drop (E.length - n)).length + 1 - n)
      = (E ++ [d]).drop (E.length + 1 - n) := by
  by_cases hc : E.length ≤ n
  · have h0 : E.length - n = 0 := by omega
    simp [h0]
  · have hk : (E.drop (E.length - n)).length = n := by simp; omega
    have e1 : E.length + 1 - n = (E.length - n) + 1 := by omega
    have e2 : List.drop (E.length - n) (E ++ [d]) = List.drop (E.length - n) E ++ [d] :=
      List.drop_append_of_le_length (by omega)
    have e3 : n + 1 - n = 1 := by omega
    rw [hk, e1, ← List.drop_drop, e2, e3]

/-- Pushing distinct dates one after the other under a numeric limit `N` keeps
the last `N` of all dates pushed so far. -/
theorem Datepicker.toggleEach_number (N : Nat) (ds : List Moment) (p : Datepicker)
    (S : List Moment)
    (hmode : p.config.multidate.enabled = MultidateEnabled.number (N : Int))
    (hsel : p.dates = Dates.ofMoments S) (hlen : S.length ≤ N) (hnodup : (S ++ ds).Nodup) :
    p.toggleEach ds
      = ⟨{ p with dates := Dates.ofMoments ((S ++ ds).drop ((S ++ ds).length - N)) }, none⟩ := by
  induction ds generalizing p S with
  | nil =>
    have h0 : S.length - N = 0 := by omega
    simp only [Datepicker.toggleEach, List.append_nil, h0, List.drop_zero, ← hsel]
  | cons d rest ih =>
    have hd : d ∉ S := by
      intro hmem
      have := List.nodup_append.1 hnodup
      exact this.2.2 hmem (List.mem_cons_self d rest)
    have h1 := Datepicker.toggleMultidate_absent_number p S d N hmode hsel hd
    have hsub : ((S ++ [d]).drop (S.length + 1 - N) ++ rest).Nodup := by
      have hsl : List.Sublist ((S ++ [d]).drop (S.length + 1 - N) ++ rest) (S ++ d :: rest) := by
        have : S ++ d :: rest = (S ++ [d]) ++ rest := by simp
        rw [this]
        exact List.Sublist.append (List.drop_sublist _ _) (List.Sublist.refl rest)
      exact List.Nodup.sublist hsl hnodup
    have h2 := ih { p with dates := Dates.ofMoments ((S ++ [d]).drop (S.length + 1 - N)) }
      ((S ++ [d]).drop (S.length + 1 - N)) hmode rfl (by simp; omega) hsub
    simp only [Datepicker.toggleEach, h1, h2]
    congr 3
    have e1 : S ++ d :: rest = (S ++ [d]) ++ rest := by simp
    rw [e1]
    by_cases hc : S.length + 1 ≤ N
    · have h0 : S.length + 1 - N = 0 := by omega
      simp [h0]
    · have hk : ((S ++ [d]).drop (S.length + 1 - N)).length = N := by simp; omega
      have e2 : ((S ++ [d]).drop (S.length + 1 - N) ++ rest).length - N = rest.length := by
        rw [List.length_append, hk]; omega
      have e3 : (S ++ [d] ++ rest).length - N = (S.length + 1 - N) + rest.length := by
        simp; omega
      have e4 : List.drop (S.length + 1 - N) (S ++ [d] ++ rest)
          = List.drop (S.length + 1 - N) (S ++ [d]) ++ rest :=
        List.drop_append_of_le_length (by simp)
      rw [e2, e3, ← List.drop_drop, e4]

/-! ## Facts about parsing and `update` -/

theorem Datepicker.parseDate_error_kind (L : MomentLib) (v : Value) (f : Fault)
    (h : Datepicker.parseDate L v = Except.error f) :
    f = Fault.invalidMoment ∨ f = Fault.unknownValueType := by
  cases v <;> simp only [Datepicker.parseDate] at h
  case string t =>
    cases hp : L.parse t <;> simp [hp] at h
    exact Or.inl h.symm
  case moment m => cases h
  case invalidMoment => cases h; exact Or.inl rfl
  all_goals cases h; exact Or.inr rfl

/-- `parseDates` throws as soon as the list holds a truthy value that
`parseDate` rejects. -/
theorem Datepicker.parseDates_error (L : MomentLib) (dates : List Value)
    (hbad : ∃ v ∈ dates, v.truthy = true ∧ ∃ f, Datepicker.parseDate L v = Except.error f) :
    ∃ f, Datepicker.parseDates L dates = Except.error f
      ∧ (f = Fault.invalidMoment ∨ f = Fault.unknownValueType) := by
  induction dates with
  | nil => obtain ⟨v, hv, _⟩ := hbad; cases hv
  | cons d rest ih =>
    obtain ⟨v, hv, ht, f, hf⟩ := hbad
    by_cases hd : d.truthy = true
    · cases hpd : Datepicker.parseDate L d with
      | error g =>
        exact ⟨g, by simp [Datepicker.parseDates, hd, hpd],
          Datepicker.parseDate_error_kind L d g hpd⟩
      | ok m =>
        have hv2 : v ∈ rest := by
          rcases List.mem_cons.1 hv with h | h
          · subst h; rw [hpd] at hf; cases hf
          · exact h
        obtain ⟨g, hg, hk⟩ := ih ⟨v, hv2, ht, f, hf⟩
        exact ⟨g, by simp [Datepicker.parseDates, hd, hpd, hg], hk⟩
    · have hv2 : v ∈ rest := by
        rcases List.mem_cons.1 hv with h | h
        · subst h; exact absurd ht hd
        · exact h
      obtain ⟨g, hg, hk⟩ := ih ⟨v, hv2, ht, f, hf⟩
      exact ⟨g, by simp [Datepicker.parseDates, hd, hg], hk⟩

/-- Called without arguments, `resolveDates` parses its empty rest parameter:
the host text is not read, and the result is `new DateArray()`. -/
theorem Datepicker.resolveDates_noargs (L : MomentLib) (p : Datepicker) :
    Datepicker.resolveDates L p [] = Except.ok (Dates.new []) := by
  simp [Datepicker.resolveDates, restIsTruthy, Datepicker.parseDates]

/-- Called without arguments while updates are allowed, `update` replaces the
selection by `new DateArray()` and then throws in `resolveViewDate`. -/
theorem Datepicker.update_noargs (L : MomentLib) (p : Datepicker) (h : p.allowUpdate = true) :
    Datepicker.update L p [] = ⟨{ p with dates := Dates.new [] }, some Fault.typeError⟩ := by
  simp [Datepicker.update, h, Datepicker.resolveDates_noargs, Datepicker.resolveViewDate,
    Dates.new, Dates.length, Dates.last, Dates.get]

/-- `update` does not touch the configuration. -/
theorem Datepicker.update_noargs_config (L : MomentLib) (p : Datepicker) :
    (Datepicker.update L p []).state.config = p.config := by
  cases h : p.allowUpdate
  · simp [Datepicker.update, h]
  · rw [Datepicker.update_noargs L p h]

/-! ## Facts about the constraints -/

/-- `a.isSame(b, 'day')` holds exactly when both fall on the same UTC day. -/
theorem Moment.isSameDay_iff (a b : Moment) :
    a.isSameDay b = true ↔ b.dayNumber = a.dayNumber := by
  simp only [Moment.isSameDay, Moment.startOfDay, Moment.endOfDay, Moment.dayNumber, msPerDay,
    Bool.and_eq_true, decide_eq_true_eq]
  omega

theorem Datepicker.dateIsDisabled_iff (p : Datepicker) (d : Moment) :
    p.dateIsDisabled d = true
      ↔ d.day ∈ p.config.daysOfWeek.disabled
        ∨ ∃ e ∈ p.config.date.disabled, e.dayNumber = d.dayNumber := by
  simp only [Datepicker.dateIsDisabled, Datepicker.weekOfDateIsDisabled, Bool.or_eq_true,
    List.contains_eq_any_beq, List.any_eq_true, beq_iff_eq, exists_eq_right, decide_eq_true_eq,
    gt_iff_lt, List.length_pos_iff_exists_mem,
    List.mem_filter, Moment.isSameDay_iff]
  constructor
  · rintro (⟨x, hx, rfl⟩ | h)
    · exact Or.inl hx
    · exact Or.inr h
  · rintro (h | h)
    · exact Or.inl ⟨_, h, rfl⟩
    · exact Or.inr h

theorem Datepicker.dateWithinRange_iff (p : Datepicker) (d : Moment) :
    p.dateWithinRange d = true
      ↔ p.config.date.start.valueOf ≤ d.valueOf ∧ d.valueOf ≤ p.config.date.end.valueOf := by
  simp [Datepicker.dateWithinRange, Moment.isSameOrAfter, Moment.isSameOrBefore]

/-! ## Facts about the view mode -/

theorem Datepicker.setInputValue_frame (L : MomentLib) (p : Datepicker) :
    (Datepicker.setInputValue L p).state.config = p.config
      ∧ (Datepicker.setInputValue L p).state.viewMode = p.viewMode := by
  unfold Datepicker.setInputValue
  cases p.getDateFormatted L with
  | error f => exact ⟨rfl, rfl⟩
  | ok formatted =>
    cases p.isInput <;> cases p.component <;> exact ⟨rfl, rfl⟩

theorem Datepicker.trigger_frame (p : Datepicker) (event : EventType) (altdate : Option Moment) :
    (Datepicker._trigger p event altdate).state.config = p.config
      ∧ (Datepicker._trigger p event altdate).state.viewMode = p.viewMode := by
  unfold Datepicker._trigger
  cases altdate with
  | none => simp [Dates.last, Dates.get]
  | some a =>
    simp only []
    cases p.dates.clonedArray <;> exact ⟨rfl, rfl⟩

theorem Datepicker.showMode_none_state (p : Datepicker) :
    (Datepicker.showMode p none).state = p := by
  simp only [Datepicker.showMode]
  split <;> rfl

theorem Datepicker.showMode_some_state (p : Datepicker) (d : Int) :
    (Datepicker.showMode p (some d)).state.config = p.config
      ∧ ((Datepicker.showMode p (some d)).state.viewMode = p.viewMode
        ∨ (Datepicker.showMode p (some d)).state.viewMode
            = Max.max p.config.view.min (Min.min p.config.view.max (p.viewMode + d))) := by
  by_cases hd : d ≠ 0
  · simp only [Datepicker.showMode, if_pos hd]
    split <;> exact ⟨rfl, Or.inr rfl⟩
  · simp only [Datepicker.showMode, if_neg hd]
    split <;> exact ⟨rfl, Or.inl rfl⟩

theorem Outcome.andThen_state (o : Outcome) (rest : Datepicker → Outcome) :
    (o.andThen rest).state = o.state ∨ (o.andThen rest).state = (rest o.state).state := by
  unfold Outcome.andThen
  cases o.fault
  · exact Or.inr rfl
  · exact Or.inl rfl

/-- `hide()` keeps the configuration and leaves `viewMode` as it was or at
`config.view.start`. -/
theorem Datepicker.hide_frame (L : MomentLib) (p : Datepicker) :
    (Datepicker.hide L p).state.config = p.config
      ∧ ((Datepicker.hide L p).state.viewMode = p.viewMode
        ∨ (Datepicker.hide L p).state.viewMode = p.config.view.start) := by
  by_cases h : (p.isInline || !p.showing) = true
  · have e : Datepicker.hide L p = ⟨p, none⟩ := by
      unfold Datepicker.hide
      rw [if_pos h]
    rw [e]
    exact ⟨rfl, Or.inl rfl⟩
  · have key : ∀ q : Datepicker, q.config = p.config → q.viewMode = p.config.view.start →
        ∀ r : Datepicker,
          r = ((if q.config.forceParse
                && ((q.isInput && (Value.string q.elementVal).truthy)
                  || (q.hasInput && (Value.string q.inputVal).truthy)) then
              Datepicker.setInputValue L q
            else ⟨q, none⟩).andThen fun p3 => Datepicker._trigger p3 EventType.HIDE none).state →
          r.config = p.config ∧ r.viewMode = p.config.view.start := by
      intro q hqc hqv r hr
      have hstep : ∀ o : Outcome, o.state.config = q.config → o.state.viewMode = q.viewMode →
          (o.andThen fun p3 => Datepicker._trigger p3 EventType.HIDE none).state.config = p.config
          ∧ (o.andThen fun p3 => Datepicker._trigger p3 EventType.HIDE none).state.viewMode
              = p.config.view.start := by
        intro o hoc hov
        rcases Outcome.andThen_state o (fun p3 => Datepicker._trigger p3 EventType.HIDE none)
          with e | e
        · rw [e]; exact ⟨hoc.trans hqc, hov.trans hqv⟩
        · rw [e]
          have ht := Datepicker.trigger_frame o.state EventType.HIDE none
          exact ⟨ht.1.trans (hoc.trans hqc), ht.2.trans (hov.trans hqv)⟩
      rw [hr]
      split
      · exact hstep _ (Datepicker.setInputValue_frame L q).1 (Datepicker.setInputValue_frame L q).2
      · exact hstep _ rfl rfl
    have hs := Datepicker.showMode_none_state
      { p with focusDate := none, showing := false, viewMode := p.config.view.start }
    unfold Datepicker.hide
    rw [if_neg h]
    rcases Outcome.andThen_state
      (Datepicker.showMode
        { p with focusDate := none, showing := false, viewMode := p.config.view.start } none)
      (fun p2 =>
        (if p2.config.forceParse
              && ((p2.isInput && (Value.string p2.elementVal).truthy)
                || (p2.hasInput && (Value.string p2.inputVal).truthy)) then
            Datepicker.setInputValue L p2
          else ⟨p2, none⟩).andThen fun p3 => Datepicker._trigger p3 EventType.HIDE none)
      with e | e
    · rw [e, hs]
      exact ⟨rfl, Or.inr rfl⟩
    · rw [e, hs]
      have := key { p with focusDate := none, showing := false, viewMode := p.config.view.start }
        rfl rfl _ rfl
      exact ⟨this.1, Or.inr this.2⟩

theorem normalizeView_bounds (start min max : ViewOption) :
    (normalizeView start min max).min ≤ (normalizeView start min max).start
      ∧ ((normalizeView start min max).min ≤ (normalizeView start min max).max →
          (normalizeView start min max).start ≤ (normalizeView start min max).max) := by
  simp only [normalizeView]
  constructor
  · exact le_max_right _ _
  · intro h
    exact max_le (min_le_right _ _) h

/-- The bounds on `viewMode` survive every sequence of `showMode` and `hide`
calls, provided `config.view.start` satisfies them. -/
theorem Datepicker.runViewCalls_bounds (L : MomentLib) (calls : List ViewCall) (p : Datepicker)
    (hs1 : p.config.view.min ≤ p.config.view.start)
    (hs2 : p.config.view.min ≤ p.config.view.max → p.config.view.start ≤ p.config.view.max)
    (hv1 : p.config.view.min ≤ p.viewMode)
    (hv2 : p.config.view.min ≤ p.config.view.max → p.viewMode ≤ p.config.view.max) :
    (Datepicker.runViewCalls L p calls).config = p.config
      ∧ p.config.view.min ≤ (Datepicker.runViewCalls L p calls).viewMode
      ∧ (p.config.view.min ≤ p.config.view.max →
          (Datepicker.runViewCalls L p calls).viewMode ≤ p.config.view.max) := by
  induction calls generalizing p with
  | nil => exact ⟨rfl, hv1, hv2⟩
  | cons c rest ih =>
    cases c with
    | showMode delta =>
      obtain ⟨hc, hm⟩ := Datepicker.showMode_some_state p delta
      have hb : p.config.view.min ≤ (Datepicker.showMode p (some delta)).state.viewMode
          ∧ (p.config.view.min ≤ p.config.view.max →
              (Datepicker.showMode p (some delta)).state.viewMode ≤ p.config.view.max) := by
        rcases hm with e | e
        · rw [e]; exact ⟨hv1, hv2⟩
        · rw [e]
          exact ⟨le_max_left _ _, fun h => max_le h (min_le_left _ _)⟩
      have h := ih (Datepicker.showMode p (some delta)).state (by rw [hc]; exact hs1)
        (by rw [hc]; exact hs2) (by rw [hc]; exact hb.1) (by rw [hc]; exact hb.2)
      rw [hc] at h
      exact h
    | hide =>
      obtain ⟨hc, hm⟩ := Datepicker.hide_frame L p
      have hb : p.config.view.min ≤ (Datepicker.hide L p).state.viewMode
          ∧ (p.config.view.min ≤ p.config.view.max →
              (Datepicker.hide L p).state.viewMode ≤ p.config.view.max) := by
        rcases hm with e | e
        · rw [e]; exact ⟨hv1, hv2⟩
        · rw [e]; exact ⟨hs1, hs2⟩
      have h := ih (Datepicker.hide L p).state (by rw [hc]; exact hs1)
        (by rw [hc]; exact hs2) (by rw [hc]; exact hb.1) (by rw [hc]; exact hb.2)
      rw [hc] at h
      exact h

theorem Datepicker.trigger_viewDate (p : Datepicker) (event : EventType)
    (altdate : Option Moment) :
    (Datepicker._trigger p event altdate).state.viewDate = p.viewDate := by
  unfold Datepicker._trigger
  cases altdate with
  | none => simp [Dates.last, Dates.get]
  | some a =>
    simp only []
    cases p.dates.clonedArray <;> rfl

/-! ## Facts about `moveAvailableDate` -/

/-- Going forward by days, the loop stops once `n` days beyond the current
moment are past `date.end`: `n + 1` rounds are enough. -/
theorem Datepicker.moveAvailableDate_day_forward (p : Datepicker) (dir : Int) (hdir : 0 < dir)
    (n : Nat) (m : Moment)
    (hn : p.config.date.end.valueOf - m.valueOf < (n : Int) * msPerDay) :
    ∃ r, ∀ fuel, n + 1 ≤ fuel → p.moveAvailableDate fuel m dir Unit.DAY = some r := by
  induction n generalizing m with
  | zero =>
    refine ⟨Datepicker.MoveResult.noDestination, fun fuel hf => ?_⟩
    obtain ⟨k, rfl⟩ : ∃ k, fuel = k + 1 := ⟨fuel - 1, by omega⟩
    have hout : p.dateWithinRange (m.add dir Unit.DAY) = false := by
      cases hw : p.dateWithinRange (m.add dir Unit.DAY)
      · rfl
      · have := (Datepicker.dateWithinRange_iff p _).1 hw
        simp only [Moment.add, msPerDay] at this
        simp only [msPerDay] at hn
        omega
    simp [Datepicker.moveAvailableDate, hout]
  | succ j ih =>
    by_cases hw : p.dateWithinRange (m.add dir Unit.DAY) = true
    · by_cases hdis : p.dateIsDisabled (m.add dir Unit.DAY) = true
      · have hstep : p.config.date.end.valueOf - (m.add dir Unit.DAY).valueOf
            < (j : Int) * msPerDay := by
          simp only [Moment.add, msPerDay]
          simp only [msPerDay] at hn
          push_cast at hn
          omega
        obtain ⟨r, hr⟩ := ih (m.add dir Unit.DAY) hstep
        refine ⟨r, fun fuel hf => ?_⟩
        obtain ⟨k, rfl⟩ : ∃ k, fuel = k + 1 := ⟨fuel - 1, by omega⟩
        simp only [Datepicker.moveAvailableDate, hw, hdis, Bool.not_true, Bool.false_eq_true,
          if_false, if_true]
        exact hr k (by omega)
      · refine ⟨Datepicker.MoveResult.date (m.add dir Unit.DAY), fun fuel hf => ?_⟩
        obtain ⟨k, rfl⟩ : ∃ k, fuel = k + 1 := ⟨fuel - 1, by omega⟩
        simp [Datepicker.moveAvailableDate, hw, hdis]
    · refine ⟨Datepicker.MoveResult.noDestination, fun fuel hf => ?_⟩
      obtain ⟨k, rfl⟩ : ∃ k, fuel = k + 1 := ⟨fuel - 1, by omega⟩
      have hout : p.dateWithinRange (m.add dir Unit.DAY) = false := by simpa using hw
      simp [Datepicker.moveAvailableDate, hout]

/-- Going backward by days, the loop stops once `n` days before the current
moment are before `date.start`: `n + 1` rounds are enough. -/
theorem Datepicker.moveAvailableDate_day_backward (p : Datepicker) (dir : Int) (hdir : dir < 0)
    (n : Nat) (m : Moment)
    (hn : m.valueOf - p.config.date.start.valueOf < (n : Int) * msPerDay) :
    ∃ r, ∀ fuel, n + 1 ≤ fuel → p.moveAvailableDate fuel m dir Unit.DAY = some r := by
  induction n generalizing m with
  | zero =>
    refine ⟨Datepicker.MoveResult.noDestination, fun fuel hf => ?_⟩
    obtain ⟨k, rfl⟩ : ∃ k, fuel = k + 1 := ⟨fuel - 1, by omega⟩
    have hout : p.dateWithinRange (m.add dir Unit.DAY) = false := by
      cases hw : p.dateWithinRange (m.add dir Unit.DAY)
      · rfl
      · have := (Datepicker.dateWithinRange_iff p _).1 hw
        simp only [Moment.add, msPerDay] at this
        simp only [msPerDay] at hn
        omega
    simp [Datepicker.moveAvailableDate, hout]
  | succ j ih =>
    by_cases hw : p.dateWithinRange (m.add dir Unit.DAY) = true
    · by_cases hdis : p.dateIsDisabled (m.add dir Unit.DAY) = true
      · have hstep : (m.add dir Unit.DAY).valueOf - p.config.date.start.valueOf
            < (j : Int) * msPerDay := by
          simp only [Moment.add, msPerDay]
          simp only [msPerDay] at hn
          push_cast at hn
          omega
        obtain ⟨r, hr⟩ := ih (m.add dir Unit.DAY) hstep
        refine ⟨r, fun fuel hf => ?_⟩
        obtain ⟨k, rfl⟩ : ∃ k, fuel = k + 1 := ⟨fuel - 1, by omega⟩
        simp only [Datepicker.moveAvailableDate, hw, hdis, Bool.not_true, Bool.false_eq_true,
          if_false, if_true]
        exact hr k (by omega)
      · refine ⟨Datepicker.MoveResult.date (m.add dir Unit.DAY), fun fuel hf => ?_⟩
        obtain ⟨k, rfl⟩ : ∃ k, fuel = k + 1 := ⟨fuel - 1, by omega⟩
        simp [Datepicker.moveAvailableDate, hw, hdis]
    · refine ⟨Datepicker.MoveResult.noDestination, fun fuel hf => ?_⟩
      obtain ⟨k, rfl⟩ : ∃ k, fuel = k + 1 := ⟨fuel - 1, by omega⟩
      have hout : p.dateWithinRange (m.add dir Unit.DAY) = false := by simpa using hw
      simp [Datepicker.moveAvailableDate, hout]

/-- After any first step the day loop of `moveAvailableDate` stops when `dir`
is not 0. -/
theorem Datepicker.moveAvailableDate_day_stops (p : Datepicker) (dir : Int) (hdir : dir ≠ 0)
    (m : Moment) :
    ∃ n r, ∀ fuel, n ≤ fuel → p.moveAvailableDate fuel m dir Unit.DAY = some r := by
  rcases lt_or_gt_of_ne hdir with h | h
  · obtain ⟨r, hr⟩ := Datepicker.moveAvailableDate_day_backward p dir h
      ((m.valueOf - p.config.date.start.valueOf).toNat + 1) m
      (by simp only [msPerDay]; omega)
    exact ⟨_, r, hr⟩
  · obtain ⟨r, hr⟩ := Datepicker.moveAvailableDate_day_forward p dir h
      ((p.config.date.end.valueOf - m.valueOf).toNat + 1) m
      (by simp only [msPerDay]; omega)
    exact ⟨_, r, hr⟩

theorem Datepicker.moveCandidates_head (p : Datepicker) (fuel : Nat) (date : Moment)
    (dir : Int) (unit : Unit) :
    ∀ y ∈ (p.moveCandidates fuel date dir unit).head?, y = date.add dir unit := by
  intro y hy
  cases fuel with
  | zero => simp [Datepicker.moveCandidates] at hy
  | succ k =>
    simp only [Datepicker.moveCandidates] at hy
    split at hy
    · simp at hy; exact hy.symm
    · split at hy <;> (simp at hy; exact hy.symm)

theorem Datepicker.moveCandidates_chain (p : Datepicker) (fuel : Nat) (date : Moment)
    (dir : Int) (unit : Unit) :
    List.Chain' (fun a b : Moment => b.valueOf = a.valueOf + dir * msPerDay)
      (p.moveCandidates fuel date dir unit) := by
  induction fuel generalizing date unit with
  | zero => simp [Datepicker.moveCandidates]
  | succ k ih =>
    simp only [Datepicker.moveCandidates]
    split
    · simp
    · split
      · rw [List.chain'_cons']
        refine ⟨fun y hy => ?_, ih _ _⟩
        rw [Datepicker.moveCandidates_head p k _ dir Unit.DAY y hy]
        rfl
      · simp

theorem Datepicker.moveCandidates_last (p : Datepicker) (fuel : Nat) (date : Moment)
    (dir : Int) (unit : Unit) (m : Moment)
    (h : p.moveAvailableDate fuel date dir unit = some (Datepicker.MoveResult.date m)) :
    (p.moveCandidates fuel date dir unit).getLast? = some m := by
  induction fuel generalizing date unit with
  | zero => simp [Datepicker.moveAvailableDate] at h
  | succ k ih =>
    simp only [Datepicker.moveAvailableDate] at h
    simp only [Datepicker.moveCandidates]
    by_cases hw : p.dateWithinRange (date.add dir unit) = true
    · by_cases hdis : p.dateIsDisabled (date.add dir unit) = true
      · simp only [hw, hdis, Bool.not_true, Bool.false_eq_true, if_false, if_true] at h ⊢
        have h2 := ih _ _ h
        cases hc : p.moveCandidates k (date.add dir unit) dir Unit.DAY with
        | nil => rw [hc] at h2; simp at h2
        | cons c cs =>
          rw [hc] at h2
          rw [List.getLast?_cons_cons]
          exact h2
      · simp only [hw, hdis, Bool.not_true, Bool.false_eq_true, if_false] at h ⊢
        have hm : date.add dir unit = m := by
          injection h with h1
          injection h1
        simp [hm]
    · have hout : p.dateWithinRange (date.add dir unit) = false := by simpa using hw
      simp [hout] at h

/-! ## Facts about the event trace -/

theorem Datepicker.trigger_events (p : Datepicker) (event : EventType)
    (altdate : Option Moment) :
    (Datepicker._trigger p event altdate).state.events = p.events
      ∨ ∃ r : EventRecord, r.type = event
          ∧ (Datepicker._trigger p event altdate).state.events = p.events ++ [r] := by
  unfold Datepicker._trigger
  cases altdate with
  | none => simp [Dates.last, Dates.get]
  | some a =>
    simp only []
    cases p.dates.clonedArray with
    | error f => exact Or.inl rfl
    | ok ds => exact Or.inr ⟨⟨event, some a, ds⟩, rfl, rfl⟩

/-- The two period triggers that follow `clickDate` in the day branch of
`click` add to the trace, after whatever `clickDate` left, at most a
YearChange followed by at most a MonthChange, and nothing when `clickDate`
threw. -/
theorem Datepicker.period_suffix (o : Outcome) (yearChanged monthChanged : Bool) :
    ∃ suffix : List EventRecord,
      (o.andThen fun p1 =>
          (if yearChanged then Datepicker._trigger p1 EventType.YEAR_CHANGE (some p1.viewDate)
            else ⟨p1, none⟩).andThen fun p2 =>
            if monthChanged then Datepicker._trigger p2 EventType.MONTH_CHANGE (some p2.viewDate)
            else ⟨p2, none⟩).state.events = o.state.events ++ suffix
        ∧ List.Sublist (suffix.map (fun r => r.type))
            [EventType.YEAR_CHANGE, EventType.MONTH_CHANGE]
        ∧ (o.fault ≠ none → suffix = []) := by
  have hy : ∀ q : Datepicker, ∃ s1 : List EventRecord,
      (if yearChanged then Datepicker._trigger q EventType.YEAR_CHANGE (some q.viewDate)
        else (⟨q, none⟩ : Outcome)).state.events = q.events ++ s1
      ∧ (s1.map (fun r => r.type) = [] ∨ s1.map (fun r => r.type) = [EventType.YEAR_CHANGE]) := by
    intro q
    cases yearChanged with
    | false => exact ⟨[], by simp, Or.inl rfl⟩
    | true =>
      rcases Datepicker.trigger_events q EventType.YEAR_CHANGE (some q.viewDate) with e | ⟨r, hr, e⟩
      · exact ⟨[], by simp [e], Or.inl rfl⟩
      · exact ⟨[r], by simp [e], Or.inr (by simp [hr])⟩
  have hm : ∀ q : Datepicker, ∃ s2 : List EventRecord,
      (if monthChanged then Datepicker._trigger q EventType.MONTH_CHANGE (some q.viewDate)
        else (⟨q, none⟩ : Outcome)).state.events = q.events ++ s2
      ∧ (s2.map (fun r => r.type) = [] ∨ s2.map (fun r => r.type) = [EventType.MONTH_CHANGE]) := by
    intro q
    cases monthChanged with
    | false => exact ⟨[], by simp, Or.inl rfl⟩
    | true =>
      rcases Datepicker.trigger_events q EventType.MONTH_CHANGE (some q.viewDate) with e | ⟨r, hr, e⟩
      · exact ⟨[], by simp [e], Or.inl rfl⟩
      · exact ⟨[r], by simp [e], Or.inr (by simp [hr])⟩
  cases hof : o.fault with
  | some f =>
    refine ⟨[], ?_, by simp, fun _ => rfl⟩
    simp [Outcome.andThen, hof]
  | none =>
    obtain ⟨s1, h1, t1⟩ := hy o.state
    cases hyf : (if yearChanged then
        Datepicker._trigger o.state EventType.YEAR_CHANGE (some o.state.viewDate)
        else (⟨o.state, none⟩ : Outcome)).fault with
    | some f =>
      refine ⟨s1, ?_, ?_, fun h => absurd rfl h⟩
      · simp only [Outcome.andThen, hof, hyf]
        exact h1
      · rcases t1 with t | t <;> rw [t] <;> decide
    | none =>
      obtain ⟨s2, h2, t2⟩ := hm (if yearChanged then
        Datepicker._trigger o.state EventType.YEAR_CHANGE (some o.state.viewDate)
        else (⟨o.state, none⟩ : Outcome)).state
      refine ⟨s1 ++ s2, ?_, ?_, fun h => absurd rfl h⟩
      · simp only [Outcome.andThen, hof, hyf]
        rw [h2, h1, List.append_assoc]
      · rw [List.map_append]
        rcases t1 with t | t <;> rcases t2 with u | u <;> rw [t, u] <;> decide

theorem Datepicker.parseDates_moments (L : MomentLib) (ms : List Moment) :
    Datepicker.parseDates L (ms.map Value.moment) = Except.ok (ms.map L.restamp) := by
  induction ms with
  | nil => rfl
  | cons m rest ih =>
    simp [Datepicker.parseDates, Value.truthy, Datepicker.parseDate, ih]

/-! ## Facts about `normalizeConfig` -/

/-- JavaScript's `a % 7` in terms of the remainder of a non-negative number. -/
theorem jsRemainder_seven (a : Int) :
    (0 ≤ a → jsRemainder a 7 = a % 7) ∧ (a < 0 → jsRemainder a 7 = -((-a) % 7)) := by
  constructor
  · intro h
    exact Int.tmod_eq_emod h (by decide)
  · intro h
    obtain ⟨n, rfl⟩ : ∃ n : Nat, a = Int.negSucc n := ⟨(-a - 1).toNat, by
      rw [Int.negSucc_eq]; omega⟩
    show Int.tmod (Int.negSucc n) 7 = _
    have : Int.tmod (Int.negSucc n) 7 = -(((n + 1 : Nat) : Int) % 7) := rfl
    rw [this, Int.negSucc_eq]
    congr 1

theorem jsRemainder_idem (a : Int) : jsRemainder (jsRemainder a 7) 7 = jsRemainder a 7 := by
  rcases le_or_lt 0 a with h | h
  · rw [(jsRemainder_seven a).1 h]
    exact Int.tmod_eq_of_lt (by omega) (by omega)
  · rw [(jsRemainder_seven a).2 h]
    by_cases h0 : (-a) % 7 = 0
    · rw [h0]; rfl
    · rw [(jsRemainder_seven _).2 (by omega)]
      congr 1
      rw [neg_neg]
      exact Int.emod_emod_of_dvd _ (dvd_refl 7)

/-- On digits `normalizeView` changes nothing once the start view has been
brought between `min` and `max`. -/
theorem normalizeView_idem (start min max : ViewOption) :
    normalizeView (ViewOption.digit (normalizeView start min max).start)
        (ViewOption.digit (normalizeView start min max).min)
        (ViewOption.digit (normalizeView start min max).max)
      = normalizeView start min max := by
  simp only [normalizeView, resolveViewType, ViewConfig.mk.injEq, and_true]
  omega

/-- What a second run of the `multidate.enabled` statements makes of the
result of a first run: the same value, except that the number 0 becomes
`false`. -/
theorem normalizeEnabled_again (numberOf : String → Option Int) (value : EnabledOption) :
    (normalizeEnabled numberOf value ≠ MultidateEnabled.number 0 →
        normalizeEnabled numberOf (normalizeEnabled numberOf value).toOption
          = normalizeEnabled numberOf value)
      ∧ (normalizeEnabled numberOf value = MultidateEnabled.number 0 →
        normalizeEnabled numberOf (normalizeEnabled numberOf value).toOption
          = MultidateEnabled.bool false) := by
  constructor
  · intro h
    generalize hr : normalizeEnabled numberOf value = r at h
    have hrange : r = MultidateEnabled.bool true ∨ r = MultidateEnabled.bool false
        ∨ ∃ n : Int, 0 ≤ n ∧ r = MultidateEnabled.number n := by
      rw [← hr]
      unfold normalizeEnabled
      split
      · exact Or.inl rfl
      · split
        · exact Or.inr (Or.inl rfl)
        · split
          · exact Or.inr (Or.inl rfl)
          · exact Or.inr (Or.inr ⟨_, le_max_left _ _, rfl⟩)
    rcases hrange with rfl | rfl | ⟨n, hn, rfl⟩
    · rfl
    · rfl
    · have h0 : n ≠ 0 := fun e => h (by rw [e])
      simp [normalizeEnabled, MultidateEnabled.toOption, EnabledOption.toNumber, h0]
      omega
  · intro h
    rw [h]
    rfl

/-! ## Facts about the keyboard -/

theorem Datepicker.setInputValue_selection (L : MomentLib) (p : Datepicker) :
    (Datepicker.setInputValue L p).state.dates = p.dates
      ∧ (Datepicker.setInputValue L p).state.focusDate = p.focusDate
      ∧ (Datepicker.setInputValue L p).state.viewDate = p.viewDate := by
  unfold Datepicker.setInputValue
  cases p.getDateFormatted L with
  | error f => exact ⟨rfl, rfl, rfl⟩
  | ok formatted =>
    cases p.isInput <;> cases p.component <;> exact ⟨rfl, rfl, rfl⟩

/-- With a direction other than 0 `moveAvailableDate` stops, whatever the unit
of the first step. -/
theorem Datepicker.moveAvailableDate_stops (p : Datepicker) (date : Moment) (dir : Int)
    (unit : Unit) (hdir : dir ≠ 0) :
    ∃ n r, ∀ fuel, n ≤ fuel → p.moveAvailableDate fuel date dir unit = some r := by
  by_cases hw : p.dateWithinRange (date.add dir unit) = true
  · by_cases hdis : p.dateIsDisabled (date.add dir unit) = true
    · obtain ⟨n, r, hr⟩ := Datepicker.moveAvailableDate_day_stops p dir hdir (date.add dir unit)
      refine ⟨n + 1, r, fun fuel hf => ?_⟩
      obtain ⟨k, rfl⟩ : ∃ k, fuel = k + 1 := ⟨fuel - 1, by omega⟩
      simp only [Datepicker.moveAvailableDate, hw, hdis, Bool.not_true, Bool.false_eq_true,
        if_false, if_true]
      exact hr k (by omega)
    · refine ⟨1, Datepicker.MoveResult.date (date.add dir unit), fun fuel hf => ?_⟩
      obtain ⟨k, rfl⟩ : ∃ k, fuel = k + 1 := ⟨fuel - 1, by omega⟩
      simp [Datepicker.moveAvailableDate, hw, hdis]
  · refine ⟨1, Datepicker.MoveResult.noDestination, fun fuel hf => ?_⟩
    obtain ⟨k, rfl⟩ : ∃ k, fuel = k + 1 := ⟨fuel - 1, by omega⟩
    have hout : p.dateWithinRange (date.add dir unit) = false := by simpa using hw
    simp [Datepicker.moveAvailableDate, hout]

/-- Enter on a shown picker with `forceParse` on and the keyboard focus on
`f`: the toggle (when `keyboard.navigation` is on), then `focusDate = null`,
then the `TypeError` of `this.dates.last()`. -/
theorem Datepicker.keydownEnter_focus (L : MomentLib) (p : Datepicker) (f : Moment)
    (hs : p.showing = true) (hp : p.config.forceParse = true) (hf : p.focusDate = some f) :
    Datepicker.keydownEnter L p
      = (if p.config.keyboardNavigation then p.toggleMultidate f
          else ⟨p, none⟩).andThen fun p1 =>
          ⟨{ p1 with focusDate := none }, some Fault.typeError⟩ := by
  simp only [Datepicker.keydownEnter, hs, hp, hf, Dates.last, Dates.get, Bool.not_true,
    Bool.false_eq_true, if_false]
  rfl

/-- An Up or Down arrow without modifier key at the days view, with
`keyboard.navigation` on; `focus` is `this.focusDate || this.viewDate`. -/
theorem Datepicker.keydownArrow_week (L : MomentLib) (p : Datepicker) (fuel : Nat)
    (key : Datepicker.ArrowKey) (focus : Moment)
    (hkey : key = Datepicker.ArrowKey.UP ∨ key = Datepicker.ArrowKey.DOWN)
    (hview : p.viewMode = View.DAYS) (hnav : p.config.keyboardNavigation = true)
    (hfocus : p.focusDate = some focus ∨ (p.focusDate = none ∧ p.viewDate = focus)) :
    Datepicker.keydownArrow L p fuel key false false
      = if p.config.daysOfWeek.disabled.length = 7 ∨ p.weekOfDateIsDisabled focus = true then
          some ⟨p, none⟩
        else
          match p.moveAvailableDate fuel focus (if key = Datepicker.ArrowKey.UP then -1 else 1)
              Unit.WEEK with
          | none => none
          | some Datepicker.MoveResult.noDestination => some ⟨p, none⟩
          | some (Datepicker.MoveResult.date m) =>
            some (Datepicker.setInputValue L { p with focusDate := some m, viewDate := m }) := by
  have hf : (match p.focusDate with
      | some f => f
      | none => p.viewDate) = focus := by
    rcases hfocus with h | ⟨h, h2⟩
    · rw [h]
    · rw [h, h2]
  unfold Datepicker.keydownArrow
  simp only [hf, hnav, hview, Bool.not_true, Bool.false_or, if_true, Bool.false_eq_true, if_false,
    decide_eq_true_eq]
  by_cases h7 : p.config.daysOfWeek.disabled.length = 7
  · simp [h7]
  · simp only [h7, if_false, false_or]
    by_cases hw : p.weekOfDateIsDisabled focus = true
    · rcases hkey with rfl | rfl <;> simp [hw]
    · have hw2 : p.weekOfDateIsDisabled focus = false := by simpa using hw
      rcases hkey with rfl | rfl
      · simp only [hw2, Bool.not_false, if_true, Bool.false_eq_true, if_false]
        rcases hm : p.moveAvailableDate fuel focus (-1) Unit.WEEK with _ | _ | m <;>
          simp [hm, hview, Outcome.andThen]
      · simp only [hw2, Bool.not_false, if_true, Bool.false_eq_true, if_false]
        rcases hm : p.moveAvailableDate fuel focus 1 Unit.WEEK with _ | _ | m <;>
          simp [hm, hview, Outcome.andThen]

/-! ## Facts about moment objects -/

theorem Dates.clonedArray_ofMoments (S : List Moment) :
    (Dates.ofMoments S).clonedArray = Except.ok S := by
  unfold Dates.clonedArray Dates.ofMoments
  induction S with
  | nil => rfl
  | cons m rest ih =>
    simp only [List.map_cons, Dates.clonedArray.go]
    simp only [] at ih
    rw [ih]

/-- The prev/next branch on objects, written out: the object of `viewDate` is
moved, then the period event of the view is triggered. -/
theorem ObjectPicker.clickPrevNext_eq (q : ObjectPicker) (prev : Bool) (step : Int)
    (h : navStep q.viewMode = some step) :
    q.clickPrevNext prev
      = some
        (if q.viewMode = View.DAYS then
          (q.add q.viewDate (step * (if prev then -1 else 1)) Unit.MONTH)._trigger
            EventType.MONTH_CHANGE q.viewDate
        else if q.viewMode = View.MONTHS then
          (q.add q.viewDate (step * (if prev then -1 else 1)) Unit.YEAR)._trigger
            EventType.YEAR_CHANGE q.viewDate
        else q.add q.viewDate (step * (if prev then -1 else 1)) Unit.YEAR) := by
  simp only [ObjectPicker.clickPrevNext, h]
  split
  · rfl
  · split <;> rfl

/-- After `r.add(dir, unit)` the entries of the selection that are the object
`r` hold the moved instant, the others what they held. -/
theorem ObjectPicker.add_selection (q : ObjectPicker) (r : Nat) (dir : Int) (unit : Unit) :
    (q.add r dir unit).selection
      = q.dates.map (fun s => if s = r then (q.store r).add dir unit else q.store s) := rfl

/-- `r.add(dir, unit)` leaves the selection as it was when no entry is the
object `r`. -/
theorem ObjectPicker.add_selection_of_not_mem (q : ObjectPicker) (r : Nat) (dir : Int)
    (unit : Unit) (h : r ∉ q.dates) : (q.add r dir unit).selection = q.selection := by
  rw [ObjectPicker.add_selection]
  apply List.map_congr_left
  intro s hs
  have : s ≠ r := fun e => h (e ▸ hs)
  simp [this]

theorem ObjectPicker.add_store_self (q : ObjectPicker) (r : Nat) (dir : Int) (unit : Unit) :
    (q.add r dir unit).store r = (q.store r).add dir unit := by
  simp [ObjectPicker.add]

theorem ObjectPicker.add_store_other (q : ObjectPicker) (r s : Nat) (dir : Int) (unit : Unit)
    (h : s ≠ r) : (q.add r dir unit).store s = q.store s := by
  simp [ObjectPicker.add, h]

/-- The value reading of the picker after `viewDate.add(dir, unit)` when no
entry of the selection is the object of `viewDate`. -/
theorem ObjectPicker.add_values (q : ObjectPicker) (p : Datepicker) (dir : Int) (unit : Unit)
    (h : q.viewDate ∉ q.dates) :
    (q.add q.viewDate dir unit).values p
      = { q.values p with viewDate := (q.store q.viewDate).add dir unit } := by
  show ({ p with
      dates := Dates.ofMoments (q.add q.viewDate dir unit).selection
      viewDate := (q.add q.viewDate dir unit).store q.viewDate
      viewMode := q.viewMode
      events := q.events } : Datepicker) = _
  rw [ObjectPicker.add_selection_of_not_mem q q.viewDate dir unit h,
    ObjectPicker.add_store_self]
  rfl

/-- The value reading of the picker after a `_trigger` with `viewDate` as
`altdate`. -/
theorem ObjectPicker.trigger_values (q : ObjectPicker) (p : Datepicker) (event : EventType) :
    Datepicker._trigger (q.values p) event (some (q.values p).viewDate)
      = ⟨(q._trigger event q.viewDate).values p, none⟩ := by
  simp only [Datepicker._trigger, ObjectPicker.values, Dates.clonedArray_ofMoments]
  rfl

/-- When no entry of the selection is the object of `viewDate`, the prev/next
branch on objects, read as values, is the prev/next branch on values. -/
theorem ObjectPicker.clickPrevNext_values (q : ObjectPicker) (p : Datepicker) (prev : Bool)
    (q2 : ObjectPicker) (h : q.clickPrevNext prev = some q2) (hns : q.viewDate ∉ q.dates) :
    Datepicker.clickPrevNext (q.values p) prev = ⟨q2.values p, none⟩ := by
  cases hstep : navStep q.viewMode with
  | none => simp [ObjectPicker.clickPrevNext, hstep] at h
  | some step =>
    rw [ObjectPicker.clickPrevNext_eq q prev step hstep] at h
    injection h with h
    subst h
    have hvm : (q.values p).viewMode = q.viewMode := rfl
    have hA := fun (dir : Int) (unit : Unit) => ObjectPicker.add_values q p dir unit hns
    simp only [Datepicker.clickPrevNext, hvm, hstep]
    by_cases hd : q.viewMode = View.DAYS
    · simp only [if_pos hd]
      have e := ObjectPicker.trigger_values (q.add q.viewDate (step * (if prev then -1 else 1))
        Unit.MONTH) p EventType.MONTH_CHANGE
      rw [hA] at e
      exact e
    · by_cases hm : q.viewMode = View.MONTHS
      · simp only [if_neg hd, if_pos hm]
        have e := ObjectPicker.trigger_values (q.add q.viewDate
          (step * (if prev then -1 else 1)) Unit.YEAR) p EventType.YEAR_CHANGE
        rw [hA] at e
        exact e
      · simp only [if_neg hd, if_neg hm]
        rw [hA]
        rfl

/-! ## Facts about a click on a day -/

theorem Datepicker.toggleMultidate_events (p : Datepicker) (date : Moment) :
    (p.toggleMultidate date).state.events = p.events := by
  unfold Datepicker.toggleMultidate
  cases p.dates.contains date with
  | error f => rfl
  | ok index =>
    simp only []
    split
    · split <;> rfl
    · rfl

theorem Datepicker.setInputValue_events (L : MomentLib) (p : Datepicker) :
    (Datepicker.setInputValue L p).state.events = p.events := by
  unfold Datepicker.setInputValue
  cases p.getDateFormatted L with
  | error f => rfl
  | ok formatted =>
    cases p.isInput <;> cases p.component <;> rfl

/-- A `_trigger` without `altdate` throws through `Dates#last` and hands
nothing on. -/
theorem Datepicker.trigger_none (p : Datepicker) (event : EventType) :
    Datepicker._trigger p event none = ⟨p, some Fault.typeError⟩ := by
  simp [Datepicker._trigger, Dates.last, Dates.get]

/-- Statements that follow a part that threw are not run. -/
theorem Outcome.andThen_of_throws (o : Outcome) (rest : Datepicker → Outcome)
    (E : List EventRecord) (hf : o.fault ≠ none) (he : o.state.events = E) :
    (o.andThen rest).fault ≠ none ∧ (o.andThen rest).state.events = E := by
  unfold Outcome.andThen
  cases h : o.fault with
  | none => exact absurd h hf
  | some f => exact ⟨by simp, he⟩

/-- A sequence whose second part throws whenever it is run, and in which no
part adds to the trace, throws and leaves the trace as it was. -/
theorem Outcome.andThen_throws (o : Outcome) (rest : Datepicker → Outcome)
    (E : List EventRecord) (he : o.state.events = E)
    (hrest : ∀ q : Datepicker, q.events = E →
      (rest q).fault ≠ none ∧ (rest q).state.events = E) :
    (o.andThen rest).fault ≠ none ∧ (o.andThen rest).state.events = E := by
  unfold Outcome.andThen
  cases h : o.fault with
  | none => exact hrest o.state he
  | some f => exact ⟨by simp, he⟩

/-- `clickDate(date)` without a scope throws and hands no event on. -/
theorem Datepicker.clickDate_throws (L : MomentLib) (p : Datepicker) (date : Moment) :
    (Datepicker.clickDate L p date none).fault ≠ none
      ∧ (Datepicker.clickDate L p date none).state.events = p.events := by
  simp only [Datepicker.clickDate, true_or, if_true]
  refine Outcome.andThen_throws _ _ p.events (Datepicker.toggleMultidate_events p date)
    (fun q hq => ?_)
  refine Outcome.andThen_throws _ _ p.events
    ((Datepicker.setInputValue_events L _).trans hq) (fun q2 hq2 => ?_)
  rw [Datepicker.trigger_none]
  exact Outcome.andThen_of_throws _ _ p.events (by simp) hq2

/-! ## Claims -/

/-- C1: in single-select mode (`multidate.enabled = false`) with
`toggleActive = false`, for every selection `S` of at most one date and every
date `d`, `toggleMultidate(d)` returns and leaves the selection exactly `[d]`
(the rest of the picker is untouched); when `S = [d]` the date stays selected. -/
theorem C1_single_select_leaves_exactly_date (p : Datepicker) (S : List Moment) (d : Moment)
    (hmode : p.config.multidate.enabled = MultidateEnabled.bool false)
    (htoggle : p.config.toggleActive = false)
    (hsel : p.dates = Dates.ofMoments S) (hlen : S.length ≤ 1) :
    p.toggleMultidate d = ⟨{ p with dates := Dates.ofMoments [d] }, none⟩ := by
  unfold Datepicker.toggleMultidate
  rw [hsel, Dates.contains_ofMoments]
  match S, hlen with
  | [], _ =>
    simp [hmode, Dates.clear, Dates.push, Dates.ofMoments]
  | [m], _ =>
    by_cases h : d = m
    · subst h
      simp [hmode, htoggle, MultidateEnabled.gt, Dates.ofMoments]
    · simp [hmode, h, Dates.clear, Dates.push, Dates.ofMoments]

/-- Witness of C1: 5 March 2012 is the one selected date and is clicked again. -/
theorem C1_single_select_leaves_exactly_date_witness :
    (samplePicker false (MultidateEnabled.bool false) [march 5]).toggleMultidate (march 5)
      = ⟨{ samplePicker false (MultidateEnabled.bool false) [march 5] with
            dates := Dates.ofMoments [march 5] }, none⟩ :=
  C1_single_select_leaves_exactly_date
    (samplePicker false (MultidateEnabled.bool false) [march 5]) [march 5] (march 5)
    rfl rfl rfl (by decide)

/-- C2, evaluated on the code: with `toggleActive = true` and
`multidate.enabled = false`, for every date `d`, `toggleMultidate(d)` on the
selection `[d]` returns with the empty selection and `getDateFormatted()` is
then the empty string, but `getDate()` then throws a `TypeError` (through
`Dates#last` and `Dates#get`) instead of returning `null`. -/
theorem C2_toggle_active_unselects_getDate_throws (L : MomentLib) (d : Moment) :
    (samplePicker true (MultidateEnabled.bool false) [d]).toggleMultidate d
        = ⟨{ samplePicker true (MultidateEnabled.bool false) [d] with
              dates := Dates.ofMoments [] }, none⟩
      ∧ ((samplePicker true (MultidateEnabled.bool false) [d]).toggleMultidate d).state.getDateFormatted L
        = Except.ok ""
      ∧ ((samplePicker true (MultidateEnabled.bool false) [d]).toggleMultidate d).state.getDate
        = Except.error Fault.typeError := by
  have h := Datepicker.toggleMultidate_present
    (samplePicker true (MultidateEnabled.bool false) [d]) [d] d
    (Or.inr (Or.inr rfl)) (fun n hn => by simp [samplePicker, sampleConfig] at hn) rfl (by simp)
  simp only [List.erase_cons_head] at h
  refine ⟨h, ?_, ?_⟩
  · rw [h]
    simp [Datepicker.getDateFormatted, Dates.formattedArray_ofMoments, String.intercalate]
  · rw [h]
    rfl

/-- Counterexample to C3 as stated: with `multidate.enabled = true` and the
duplicate-free selection `[5 March, 14 March]`, clicking the selected date
5 March twice leaves `[14 March, 5 March]`: the same dates in another
selection order, not the selection before the clicks. -/
theorem C3_counterexample :
    (samplePicker false (MultidateEnabled.bool true) [march 5, march 14]).config.multidate.enabled
        = MultidateEnabled.bool true
      ∧ [march 5, march 14].Nodup
      ∧ march 5 ∈ [march 5, march 14]
      ∧ (((samplePicker false (MultidateEnabled.bool true) [march 5, march 14]).toggleMultidate
          (march 5)).state.toggleMultidate (march 5)).state.dates
          = Dates.ofMoments [march 14, march 5]
      ∧ (((samplePicker false (MultidateEnabled.bool true) [march 5, march 14]).toggleMultidate
          (march 5)).state.toggleMultidate (march 5)).state.dates
          ≠ (samplePicker false (MultidateEnabled.bool true) [march 5, march 14]).dates := by
  refine ⟨rfl, by decide, by decide, rfl, ?_⟩
  intro h
  have h2 := congrArg
    (fun ds : Dates => match ds.array with
      | Entry.moment m :: _ => m.valueOf
      | _ => 0) h
  revert h2
  decide

/-- C3, amended: in multi-select mode (`multidate.enabled` is `true` or a
number greater than 1) or with `toggleActive = true`, for every duplicate-free
selection `S` and every `d` in `S` (a numeric `multidate.enabled` being at
least 0, as `normalizeConfig` leaves it), both calls of `toggleMultidate(d)`
return, and together they leave `d` as the last selected date: the dates of
`S` with `d` moved to the end when `multidate.enabled = true`, the last `N` of
that list under a numeric limit `N`, and `[d]` alone when
`multidate.enabled = false`.  The list with `d` moved to the end is `S` itself
when `d` was the last date of `S`. -/
theorem C3_toggle_twice_moves_date_to_end (p : Datepicker) (S : List Moment) (d : Moment)
    (hmode : p.config.multidate.enabled = MultidateEnabled.bool true
      ∨ p.config.multidate.enabled.gt 1 = true ∨ p.config.toggleActive = true)
    (hnonneg : ∀ n, p.config.multidate.enabled = MultidateEnabled.number n → 0 ≤ n)
    (hnodup : S.Nodup) (hd : d ∈ S) (hsel : p.dates = Dates.ofMoments S) :
    (p.toggleMultidate d).fault = none
      ∧ (p.toggleMultidate d).state.toggleMultidate d
          = ⟨{ p with
                dates := Dates.ofMoments (match p.config.multidate.enabled with
                  | MultidateEnabled.bool true => S.erase d ++ [d]
                  | MultidateEnabled.bool false => [d]
                  | MultidateEnabled.number n => (S.erase d ++ [d]).drop (S.length - n.toNat)) },
              none⟩
      ∧ (S.getLast? = some d → S.erase d ++ [d] = S) := by
  have hlen : (S.erase d).length + 1 = S.length := by
    have hpos : 0 < S.length := List.length_pos_of_mem hd
    rw [List.length_erase_of_mem hd]; omega
  have hnot : d ∉ S.erase d := fun h => (List.Nodup.mem_erase_iff hnodup).1 h |>.1 rfl
  have hlast : S.getLast? = some d → S.erase d ++ [d] = S := by
    intro hl
    obtain ⟨T, rfl⟩ : ∃ T, S = T ++ [d] := by
      have hne : S ≠ [] := List.ne_nil_of_mem hd
      refine ⟨S.dropLast, ?_⟩
      have h4 := List.dropLast_append_getLast hne
      have h5 : S.getLast hne = d := by
        rw [List.getLast?_eq_getLast _ hne] at hl
        exact Option.some.inj hl
      rw [h5] at h4
      exact h4.symm
    have hdT : d ∉ T := by
      intro hmem
      have := List.nodup_append.1 hnodup
      exact this.2.2 hmem (List.mem_singleton_self d)
    rw [List.erase_append_right _ hdT]
    simp
  cases he : p.config.multidate.enabled with
  | bool b =>
    have hcap : ∀ n, p.config.multidate.enabled = MultidateEnabled.number n →
        ((S.erase d).length : Int) ≤ n := by
      intro n hn; rw [he] at hn; cases hn
    have h1 := Datepicker.toggleMultidate_present p S d hmode hcap hsel hd
    refine ⟨by rw [h1], ?_, hlast⟩
    rw [h1]
    cases b with
    | true => exact Datepicker.toggleMultidate_absent_true _ (S.erase d) d he rfl hnot
    | false => exact Datepicker.toggleMultidate_absent_false _ (S.erase d) d he rfl hnot
  | number n =>
    obtain ⟨k, rfl⟩ := Int.eq_ofNat_of_zero_le (hnonneg n he)
    have hcond : p.config.multidate.enabled.gt 1 = true ∨ p.config.toggleActive = true := by
      rcases hmode with h | h | h
      · rw [he] at h; cases h
      · exact Or.inl h
      · exact Or.inr h
    have h1 := Datepicker.toggleMultidate_present_number p S d k he hcond hsel hd
    have hnot2 : d ∉ (S.erase d).drop ((S.erase d).length - k) :=
      fun h => hnot (List.mem_of_mem_drop h)
    refine ⟨by rw [h1], ?_, hlast⟩
    rw [h1]
    have h2 := Datepicker.toggleMultidate_absent_number
      { p with dates := Dates.ofMoments ((S.erase d).drop ((S.erase d).length - k)) }
      ((S.erase d).drop ((S.erase d).length - k)) d k he rfl hnot2
    rw [h2, drop_drop_append_singleton, hlen]
    rfl

/-- Witness of C3 (amended): limit 2, selection `[5 March, 14 March]`, and the
last selected date 14 March is clicked twice. -/
theorem C3_toggle_twice_moves_date_to_end_witness :
    ((samplePicker false (MultidateEnabled.number 2) [march 5, march 14]).toggleMultidate
        (march 14)).fault = none
      ∧ ((samplePicker false (MultidateEnabled.number 2) [march 5, march 14]).toggleMultidate
          (march 14)).state.toggleMultidate (march 14)
          = ⟨{ samplePicker false (MultidateEnabled.number 2) [march 5, march 14] with
                dates := Dates.ofMoments (([march 5, march 14].erase (march 14) ++ [march 14]).drop
                    ([march 5, march 14].length - (2 : Int).toNat)) },
              none⟩
      ∧ ([march 5, march 14].getLast? = some (march 14) →
          [march 5, march 14].erase (march 14) ++ [march 14] = [march 5, march 14]) :=
  C3_toggle_twice_moves_date_to_end
    (samplePicker false (MultidateEnabled.number 2) [march 5, march 14]) [march 5, march 14]
    (march 14) (Or.inr (Or.inl (by decide)))
    (fun n hn => by
      have h2 : MultidateEnabled.number 2 = MultidateEnabled.number n := hn
      cases h2
      decide)
    (by decide) (by decide) rfl

/-- C4: with a numeric limit `N ≥ 2`, for every selection `S` of fewer than `N`
dates and every date `d` not in `S`, `toggleMultidate(d)` returns with the
selection `S` followed by `d`, the formatted value is then the formatted dates
of `S` and `d` joined by the separator, and `toggleMultidate(d)` again returns
with exactly `S`. -/
theorem C4_limit_push_then_unselect (L : MomentLib) (p : Datepicker) (S : List Moment)
    (d : Moment) (N : Int) (hN : 2 ≤ N)
    (hmode : p.config.multidate.enabled = MultidateEnabled.number N)
    (hlen : (S.length : Int) < N) (hd : d ∉ S) (hsel : p.dates = Dates.ofMoments S) :
    p.toggleMultidate d = ⟨{ p with dates := Dates.ofMoments (S ++ [d]) }, none⟩
      ∧ (p.toggleMultidate d).state.getDateFormatted L
          = Except.ok (String.intercalate p.config.multidate.separator ((S ++ [d]).map L.format))
      ∧ (p.toggleMultidate d).state.toggleMultidate d
          = ⟨{ p with dates := Dates.ofMoments S }, none⟩ := by
  obtain ⟨k, rfl⟩ := Int.eq_ofNat_of_zero_le (show 0 ≤ N by omega)
  have h1 : p.toggleMultidate d = ⟨{ p with dates := Dates.ofMoments (S ++ [d]) }, none⟩ := by
    have h := Datepicker.toggleMultidate_absent_number p S d k hmode hsel hd
    have hk : S.length + 1 - k = 0 := by omega
    rw [h, hk]
    rfl
  refine ⟨h1, ?_, ?_⟩
  · rw [h1]
    simp only [Datepicker.getDateFormatted, Dates.formattedArray_ofMoments]
  · rw [h1]
    have herase : (S ++ [d]).erase d = S := by
      rw [List.erase_append_right _ hd]
      simp
    have h2 := Datepicker.toggleMultidate_present
      { p with dates := Dates.ofMoments (S ++ [d]) } (S ++ [d]) d
      (Or.inr (Or.inl (by simp only [hmode, MultidateEnabled.gt, decide_eq_true_eq]; omega)))
      (fun n hn => by
        have hn2 : MultidateEnabled.number (k : Int) = MultidateEnabled.number n := by
          rw [← hmode]; exact hn
        cases hn2
        rw [herase]; omega)
      rfl (by simp)
    rw [h2, herase]

/-- Witness of C4: limit 2, selection `[5 March]`, 14 March is clicked. -/
theorem C4_limit_push_then_unselect_witness :
    (samplePicker false (MultidateEnabled.number 2) [march 5]).toggleMultidate (march 14)
        = ⟨{ samplePicker false (MultidateEnabled.number 2) [march 5] with
              dates := Dates.ofMoments ([march 5] ++ [march 14]) }, none⟩
      ∧ ((samplePicker false (MultidateEnabled.number 2) [march 5]).toggleMultidate
          (march 14)).state.getDateFormatted sampleLib
          = Except.ok (String.intercalate
              (samplePicker false (MultidateEnabled.number 2) [march 5]).config.multidate.separator
              (([march 5] ++ [march 14]).map sampleLib.format))
      ∧ ((samplePicker false (MultidateEnabled.number 2) [march 5]).toggleMultidate
          (march 14)).state.toggleMultidate (march 14)
          = ⟨{ samplePicker false (MultidateEnabled.number 2) [march 5] with
                dates := Dates.ofMoments [march 5] }, none⟩ :=
  C4_limit_push_then_unselect sampleLib
    (samplePicker false (MultidateEnabled.number 2) [march 5]) [march 5] (march 14) 2
    (by decide) rfl (by decide) (by decide) rfl

/-- C5: for every limit `N ≥ 1` (`multidate.enabled = N`) and every list of
pairwise distinct dates, calling `toggleMultidate` on them in turn from the
empty selection returns every time and leaves exactly the last `min(k, N)` of
the `k` dates, in the order they were pushed. -/
theorem C5_limit_keeps_most_recent (p : Datepicker) (N : Nat) (ds : List Moment)
    (hN : 1 ≤ N) (hmode : p.config.multidate.enabled = MultidateEnabled.number (N : Int))
    (hnodup : ds.Nodup) (hsel : p.dates = Dates.ofMoments []) :
    p.toggleEach ds = ⟨{ p with dates := Dates.ofMoments (ds.drop (ds.length - N)) }, none⟩
      ∧ (ds.drop (ds.length - N)).length = min ds.length N
      ∧ List.IsSuffix (ds.drop (ds.length - N)) ds := by
  refine ⟨?_, ?_, List.drop_suffix _ _⟩
  · have h := Datepicker.toggleEach_number N ds p [] hmode hsel (by simp) (by simpa using hnodup)
    simpa using h
  · simp only [List.length_drop]
    omega

/-- Witness of C5: limit 2 and the three dates 5, 14 and 20 March. -/
theorem C5_limit_keeps_most_recent_witness :
    (samplePicker false (MultidateEnabled.number 2) []).toggleEach [march 5, march 14, march 20]
        = ⟨{ samplePicker false (MultidateEnabled.number 2) [] with
              dates := Dates.ofMoments
                ([march 5, march 14, march 20].drop ([march 5, march 14, march 20].length - 2)) },
            none⟩
      ∧ ([march 5, march 14, march 20].drop ([march 5, march 14, march 20].length - 2)).length
          = min [march 5, march 14, march 20].length 2
      ∧ List.IsSuffix
          ([march 5, march 14, march 20].drop ([march 5, march 14, march 20].length - 2))
          [march 5, march 14, march 20] :=
  C5_limit_keeps_most_recent (samplePicker false (MultidateEnabled.number 2) []) 2
    [march 5, march 14, march 20] (by decide) rfl (by decide) rfl

/-- C6: for every start date, direction, unit and configuration, and every
number of rounds, whenever `moveAvailableDate` returns a date, that date
satisfies `dateWithinRange` and does not satisfy `dateIsDisabled`. -/
theorem C6_moveAvailableDate_result_selectable (p : Datepicker) (fuel : Nat) (date : Moment)
    (dir : Int) (unit : Unit) (m : Moment)
    (h : p.moveAvailableDate fuel date dir unit = some (Datepicker.MoveResult.date m)) :
    p.dateWithinRange m = true ∧ p.dateIsDisabled m = false := by
  induction fuel generalizing date unit with
  | zero => simp [Datepicker.moveAvailableDate] at h
  | succ k ih =>
    simp only [Datepicker.moveAvailableDate] at h
    by_cases hr : p.dateWithinRange (date.add dir unit) = true
    · by_cases hdis : p.dateIsDisabled (date.add dir unit) = true
      · simp only [hr, hdis, Bool.not_true, Bool.false_eq_true, if_false, if_true] at h
        exact ih _ _ h
      · simp only [hr, hdis, Bool.not_true, Bool.false_eq_true, if_false] at h
        have hm : date.add dir unit = m := by
          injection h with h1
          injection h1
        subst hm
        exact ⟨hr, by simpa using hdis⟩
    · have hr2 : p.dateWithinRange (date.add dir unit) = false := by simpa using hr
      simp [hr2] at h

/-- Witness of C6: from Monday 5 March 2012 one day forward with Tuesdays and
7 March disabled: the walk passes 6 and 7 March and returns 8 March. -/
theorem C6_moveAvailableDate_result_selectable_witness :
    (constrainedPicker [2] [march 7]).moveAvailableDate 5 (march 5) 1 Unit.DAY
        = some (Datepicker.MoveResult.date (march 8))
      ∧ (constrainedPicker [2] [march 7]).dateWithinRange (march 8) = true
      ∧ (constrainedPicker [2] [march 7]).dateIsDisabled (march 8) = false :=
  ⟨by decide,
    C6_moveAvailableDate_result_selectable (constrainedPicker [2] [march 7]) 5 (march 5) 1
      Unit.DAY (march 8) (by decide)⟩

/-- C7, evaluated on the code: `update()` without arguments does not read the
host text.  For every picker `resolveDates()` yields `new DateArray()`,
whatever the host holds; on a picker constructed on an input holding
`03/05/2012` (format `MM/DD/YYYY`, which the library parses to 5 March 2012),
and on a multi-select picker holding `03/05/2012,03/14/2012`, `update()`
leaves a selection whose only element is an empty array, and throws a
`TypeError`. -/
theorem C7_update_noargs_ignores_host_text :
    (∀ (L : MomentLib) (p : Datepicker),
        Datepicker.resolveDates L p [] = Except.ok (Dates.new []))
      ∧ inputLib.parse "03/05/2012" = some (march 5)
      ∧ Datepicker.update inputLib (freshPicker "03/05/2012" (MultidateEnabled.bool false)) []
          = ⟨{ freshPicker "03/05/2012" (MultidateEnabled.bool false) with
                dates := ⟨[Entry.group []]⟩ }, some Fault.typeError⟩
      ∧ Datepicker.update inputLib
            (freshPicker "03/05/2012,03/14/2012" (MultidateEnabled.bool true)) []
          = ⟨{ freshPicker "03/05/2012,03/14/2012" (MultidateEnabled.bool true) with
                dates := ⟨[Entry.group []]⟩ }, some Fault.typeError⟩ :=
  ⟨Datepicker.resolveDates_noargs, by decide,
    Datepicker.update_noargs inputLib _ rfl, Datepicker.update_noargs inputLib _ rfl⟩

/-- C8, evaluated on the code: on a picker with 5 March 2012 selected (and
shown in the host input), `setDateStart()`, `setDateEnd()` and
`setDatesDisabled([])` each leave a selection whose only element is an empty
array and throw a `TypeError`, although 5 March 2012 is within the range and
not disabled afterwards. -/
theorem C8_setters_drop_the_selection :
    selectedPicker.dates.array = [Entry.moment (march 5)]
      ∧ (Datepicker.setDateStart inputLib selectedPicker Value.undefined).fault
          = some Fault.typeError
      ∧ (Datepicker.setDateStart inputLib selectedPicker Value.undefined).state.dates.array
          = [Entry.group []]
      ∧ (Datepicker.setDateStart inputLib selectedPicker Value.undefined).state.dateWithinRange
          (march 5) = true
      ∧ (Datepicker.setDateEnd inputLib selectedPicker Value.undefined).fault
          = some Fault.typeError
      ∧ (Datepicker.setDateEnd inputLib selectedPicker Value.undefined).state.dates.array
          = [Entry.group []]
      ∧ (Datepicker.setDateEnd inputLib selectedPicker Value.undefined).state.dateWithinRange
          (march 5) = true
      ∧ (Datepicker.setDatesDisabled inputLib selectedPicker (DatesArg.array [])).fault
          = some Fault.typeError
      ∧ (Datepicker.setDatesDisabled inputLib selectedPicker (DatesArg.array [])).state.dates.array
          = [Entry.group []]
      ∧ (Datepicker.setDatesDisabled inputLib selectedPicker (DatesArg.array [])).state.dateWithinRange
          (march 5) = true
      ∧ (Datepicker.setDatesDisabled inputLib selectedPicker (DatesArg.array [])).state.dateIsDisabled
          (march 5) = false := by
  refine ⟨rfl, rfl, rfl, by decide, rfl, rfl, by decide, rfl, rfl, by decide, by decide⟩

/-- Counterexample to C9 as stated: the empty string is a value `parseDate`
rejects, yet `setDates('')` on a picker with 5 March 2012 selected does not
leave the selection as it was: `parseDates` skips the falsy value, and the
selection is replaced. -/
theorem C9_counterexample :
    Datepicker.parseDate inputLib (Value.string "") = Except.error Fault.invalidMoment
      ∧ selectedPicker.allowUpdate = true
      ∧ selectedPicker.dates.array = [Entry.moment (march 5)]
      ∧ (Datepicker.setDates inputLib selectedPicker [Value.string ""]).state.dates.array
          = [Entry.group []]
      ∧ (Datepicker.setDates inputLib selectedPicker [Value.string ""]).state.dates.array
          ≠ selectedPicker.dates.array := by
  refine ⟨rfl, rfl, rfl, rfl, ?_⟩
  intro h
  have h2 : [Entry.group []] = [Entry.moment (march 5)] := h
  cases h2

/-- C9, amended: for every picker state and every argument list of `setDates`
(for `setDate` and a paste: the one-element list) that contains a truthy value
`parseDate` rejects (a non-empty string not matching the format, an invalid
moment, or another truthy value that is neither), the picker (selection,
`viewDate`, host text and every other field) is exactly as before the call,
and while updates are allowed (after construction) the call throws the parse
error. -/
theorem C9_rejected_truthy_value_leaves_state (L : MomentLib) (p : Datepicker)
    (dates : List Value)
    (hbad : ∃ v ∈ dates, v.truthy = true ∧ ∃ f, Datepicker.parseDate L v = Except.error f) :
    (Datepicker.setDates L p dates).state = p
      ∧ (p.allowUpdate = true →
          ∃ f, (Datepicker.setDates L p dates).fault = some f
            ∧ (f = Fault.invalidMoment ∨ f = Fault.unknownValueType)) := by
  obtain ⟨f, hf, hk⟩ := Datepicker.parseDates_error L dates hbad
  cases hallow : p.allowUpdate
  · simp [Datepicker.setDates, Datepicker.update, hallow]
  · refine ⟨?_, fun _ => ⟨f, ?_, hk⟩⟩ <;>
      simp [Datepicker.setDates, Datepicker.update, hallow, Datepicker.resolveDates,
        restIsTruthy, hf]

/-- Witness of C9 (amended): `setDates('03/14/2012', 'tomorrow')` on a picker
with 5 March 2012 selected. -/
theorem C9_rejected_truthy_value_leaves_state_witness :
    (Datepicker.setDates inputLib selectedPicker
        [Value.string "03/14/2012", Value.string "tomorrow"]).state = selectedPicker
      ∧ ∃ f, (Datepicker.setDates inputLib selectedPicker
            [Value.string "03/14/2012", Value.string "tomorrow"]).fault = some f
          ∧ (f = Fault.invalidMoment ∨ f = Fault.unknownValueType) :=
  ⟨(C9_rejected_truthy_value_leaves_state inputLib selectedPicker
      [Value.string "03/14/2012", Value.string "tomorrow"]
      ⟨Value.string "tomorrow", by decide, by decide, Fault.invalidMoment, rfl⟩).1,
    (C9_rejected_truthy_value_leaves_state inputLib selectedPicker
      [Value.string "03/14/2012", Value.string "tomorrow"]
      ⟨Value.string "tomorrow", by decide, by decide, Fault.invalidMoment, rfl⟩).2 rfl⟩

/-- C10: `setDatesDisabled(dates)`, for every picker and argument.  If every
element parses, `config.date.disabled` afterwards is exactly the list of the
parsed elements, in order, whatever the list held before; if an element fails
to parse, the call throws and the picker, `config.date.disabled` included, is
exactly as before the call. -/
theorem C10_setDatesDisabled_replaces_or_keeps (L : MomentLib) (p : Datepicker)
    (dates : DatesArg) :
    ((∀ v ∈ dates.toArray, ∃ m, Datepicker.parseDate L v = Except.ok m) →
        List.Forall₂ (fun v m => Datepicker.parseDate L v = Except.ok m) dates.toArray
          (Datepicker.setDatesDisabled L p dates).state.config.date.disabled)
      ∧ ((∃ v ∈ dates.toArray, ∃ f, Datepicker.parseDate L v = Except.error f) →
          ∃ f, Datepicker.setDatesDisabled L p dates = ⟨p, some f⟩) := by
  have key : ∀ vs : List Value,
      ((∀ v ∈ vs, ∃ m, Datepicker.parseDate L v = Except.ok m) →
        ∃ ms, Datepicker.parseEach L vs = Except.ok ms
          ∧ List.Forall₂ (fun v m => Datepicker.parseDate L v = Except.ok m) vs ms)
      ∧ ((∃ v ∈ vs, ∃ f, Datepicker.parseDate L v = Except.error f) →
          ∃ f, Datepicker.parseEach L vs = Except.error f) := by
    intro vs
    induction vs with
    | nil =>
      exact ⟨fun _ => ⟨[], rfl, List.Forall₂.nil⟩, fun ⟨v, hv, _⟩ => by cases hv⟩
    | cons d rest ih =>
      constructor
      · intro hall
        obtain ⟨m, hm⟩ := hall d (List.mem_cons_self d rest)
        obtain ⟨ms, hms, hrel⟩ := ih.1 (fun v hv => hall v (List.mem_cons_of_mem d hv))
        exact ⟨m :: ms, by simp [Datepicker.parseEach, hm, hms], List.Forall₂.cons hm hrel⟩
      · rintro ⟨v, hv, f, hf⟩
        cases hpd : Datepicker.parseDate L d with
        | error g => exact ⟨g, by simp [Datepicker.parseEach, hpd]⟩
        | ok m =>
          have hv2 : v ∈ rest := by
            rcases List.mem_cons.1 hv with h | h
            · subst h; rw [hpd] at hf; cases hf
            · exact h
          obtain ⟨g, hg⟩ := ih.2 ⟨v, hv2, f, hf⟩
          exact ⟨g, by simp [Datepicker.parseEach, hpd, hg]⟩
  constructor
  · intro hall
    obtain ⟨ms, hms, hrel⟩ := (key dates.toArray).1 hall
    simp only [Datepicker.setDatesDisabled, hms, Datepicker.update_noargs_config]
    exact hrel
  · intro hany
    obtain ⟨f, hf⟩ := (key dates.toArray).2 hany
    exact ⟨f, by simp [Datepicker.setDatesDisabled, hf]⟩

/-- Witness of C10: on a picker whose disabled list is `[7 March]`, the
argument `['03/14/2012', '03/05/2012']` parses, and `['03/14/2012', 'soon']`
does not. -/
theorem C10_setDatesDisabled_replaces_or_keeps_witness :
    List.Forall₂ (fun v m => Datepicker.parseDate inputLib v = Except.ok m)
        [Value.string "03/14/2012", Value.string "03/05/2012"]
        (Datepicker.setDatesDisabled inputLib (constrainedPicker [] [march 7])
          (DatesArg.array [Value.string "03/14/2012", Value.string "03/05/2012"])).state.config.date.disabled
      ∧ ∃ f, Datepicker.setDatesDisabled inputLib (constrainedPicker [] [march 7])
          (DatesArg.array [Value.string "03/14/2012", Value.string "soon"])
          = ⟨constrainedPicker [] [march 7], some f⟩ :=
  ⟨(C10_setDatesDisabled_replaces_or_keeps inputLib (constrainedPicker [] [march 7])
      (DatesArg.array [Value.string "03/14/2012", Value.string "03/05/2012"])).1
      (by
        intro v hv
        simp only [DatesArg.toArray, List.mem_cons, List.mem_singleton, List.not_mem_nil,
          or_false] at hv
        rcases hv with h | h
        · exact ⟨march 14, by rw [h]; rfl⟩
        · exact ⟨march 5, by rw [h]; rfl⟩),
    (C10_setDatesDisabled_replaces_or_keeps inputLib (constrainedPicker [] [march 7])
      (DatesArg.array [Value.string "03/14/2012", Value.string "soon"])).2
      ⟨Value.string "soon", by decide, Fault.invalidMoment, rfl⟩⟩

/-- Counterexample to C11 as stated: with the range 1 March .. 10 March 2012,
`setDateStart('03/14/2012')` stores 14 March as `date.start`, later than
`date.end`; while updates are not allowed the call even returns normally. -/
theorem C11_counterexample :
    (rangePicker true).config.date.start = march 1
      ∧ (rangePicker true).config.date.end = march 10
      ∧ (march 10).valueOf < (march 14).valueOf
      ∧ (Datepicker.setDateStart inputLib (rangePicker true)
          (Value.string "03/14/2012")).state.config.date.start = march 14
      ∧ (Datepicker.setDateStart inputLib (rangePicker true)
          (Value.string "03/14/2012")).state.config.date.end = march 10
      ∧ (Datepicker.setDateStart inputLib (rangePicker false)
          (Value.string "03/14/2012")).fault = none
      ∧ (Datepicker.setDateStart inputLib (rangePicker false)
          (Value.string "03/14/2012")).state.config.date.start = march 14 := by
  refine ⟨rfl, rfl, by decide, rfl, rfl, rfl, rfl⟩

/-- C11, amended: for every current range `[s, e]` and every truthy value `x`
that `parseDate` accepts as the date `m`, `setDateStart(x)` stores `m` as
`date.start` and leaves `date.end = e`, whether or not `m` is later than `e`,
and `setDateEnd(x)` stores `m` as `date.end` and leaves `date.start = s`; so
`date.start <= date.end` holds after the call exactly when `m <= e`
(`s <= m` for `setDateEnd`). -/
theorem C11_setters_store_without_range_check (L : MomentLib) (p : Datepicker) (x : Value)
    (m : Moment) (ht : x.truthy = true) (hp : Datepicker.parseDate L x = Except.ok m) :
    (Datepicker.setDateStart L p x).state.config.date = { p.config.date with start := m }
      ∧ (Datepicker.setDateEnd L p x).state.config.date = { p.config.date with «end» := m }
      ∧ ((Datepicker.setDateStart L p x).state.config.date.start.valueOf
            ≤ (Datepicker.setDateStart L p x).state.config.date.end.valueOf
          ↔ m.valueOf ≤ p.config.date.end.valueOf)
      ∧ ((Datepicker.setDateEnd L p x).state.config.date.start.valueOf
            ≤ (Datepicker.setDateEnd L p x).state.config.date.end.valueOf
          ↔ p.config.date.start.valueOf ≤ m.valueOf) := by
  have h1 : (Datepicker.setDateStart L p x).state.config.date
      = { p.config.date with start := m } := by
    simp only [Datepicker.setDateStart, ht, if_true, hp, Datepicker.update_noargs_config]
  have h2 : (Datepicker.setDateEnd L p x).state.config.date
      = { p.config.date with «end» := m } := by
    simp only [Datepicker.setDateEnd, ht, if_true, hp, Datepicker.update_noargs_config]
  refine ⟨h1, h2, ?_, ?_⟩
  · rw [h1]
  · rw [h2]

/-- Witness of C11 (amended): range 1 March .. 10 March 2012 and the text
`03/14/2012`. -/
theorem C11_setters_store_without_range_check_witness :
    (Datepicker.setDateStart inputLib (rangePicker true) (Value.string "03/14/2012")).state.config.date
        = { (rangePicker true).config.date with start := march 14 }
      ∧ (Datepicker.setDateEnd inputLib (rangePicker true) (Value.string "03/14/2012")).state.config.date
        = { (rangePicker true).config.date with «end» := march 14 }
      ∧ ((Datepicker.setDateStart inputLib (rangePicker true)
            (Value.string "03/14/2012")).state.config.date.start.valueOf
            ≤ (Datepicker.setDateStart inputLib (rangePicker true)
                (Value.string "03/14/2012")).state.config.date.end.valueOf
          ↔ (march 14).valueOf ≤ (rangePicker true).config.date.end.valueOf)
      ∧ ((Datepicker.setDateEnd inputLib (rangePicker true)
            (Value.string "03/14/2012")).state.config.date.start.valueOf
            ≤ (Datepicker.setDateEnd inputLib (rangePicker true)
                (Value.string "03/14/2012")).state.config.date.end.valueOf
          ↔ (rangePicker true).config.date.start.valueOf ≤ (march 14).valueOf) :=
  C11_setters_store_without_range_check inputLib (rangePicker true) (Value.string "03/14/2012")
    (march 14) (by decide) rfl

/-- C12: for every date `d`, `dateIsDisabled(d)` is true if and only if the
weekday of `d` (0 = Sunday .. 6 = Saturday) is in `daysOfWeek.disabled` or some
entry of `date.disabled` falls on the same calendar day as `d`.  With
`daysOfWeek.disabled = [1, 5]`, 22 October 2012 (a Monday) and 26 October 2012
(a Friday) are disabled and 24 October is not; with
`date.disabled = [2012-10-01, 2012-10-10, 2012-10-20]` the disabled days of
October 2012 are exactly the 1st, the 10th and the 20th, at any time of day. -/
theorem C12_dateIsDisabled_iff_weekday_or_same_day :
    (∀ (p : Datepicker) (d : Moment),
        (p.dateIsDisabled d = true
          ↔ d.day ∈ p.config.daysOfWeek.disabled
            ∨ ∃ e ∈ p.config.date.disabled, e.dayNumber = d.dayNumber)
        ∧ 0 ≤ d.day ∧ d.day ≤ 6)
      ∧ (october 22).day = 1 ∧ (october 26).day = 5
      ∧ (constrainedPicker [1, 5] []).dateIsDisabled (october 22) = true
      ∧ (constrainedPicker [1, 5] []).dateIsDisabled (october 26) = true
      ∧ (constrainedPicker [1, 5] []).dateIsDisabled (october 24) = false
      ∧ (∀ k ∈ List.range' 1 31,
          ((constrainedPicker [] [october 1, october 10, october 20]).dateIsDisabled
              (october k) = true ↔ (k = 1 ∨ k = 10 ∨ k = 20))
          ∧ ((constrainedPicker [] [october 1, october 10, october 20]).dateIsDisabled
              ⟨(october k).valueOf + 43200000⟩ = true ↔ (k = 1 ∨ k = 10 ∨ k = 20))) := by
  refine ⟨fun p d => ⟨Datepicker.dateIsDisabled_iff p d, ?_, ?_⟩, by decide, by decide,
    by decide, by decide, by decide, by decide⟩
  · simp only [Moment.day]; omega
  · simp only [Moment.day]; omega

/-- C13, evaluated on the code: `dateWithinRange(d)` compares instants, not
calendar days: it is true if and only if `start <= d <= end` by millisecond.
With `date.end` at midnight of 10 March 2012, noon of 10 March falls on the
calendar day of `date.end` and is not within range. -/
theorem C13_dateWithinRange_compares_instants :
    (∀ (p : Datepicker) (d : Moment),
        p.dateWithinRange d = true
          ↔ p.config.date.start.valueOf ≤ d.valueOf ∧ d.valueOf ≤ p.config.date.end.valueOf)
      ∧ (marchNoon 10).dayNumber = (rangePicker true).config.date.end.dayNumber
      ∧ (rangePicker true).config.date.start.dayNumber ≤ (marchNoon 10).dayNumber
      ∧ (rangePicker true).dateWithinRange (marchNoon 10) = false
      ∧ (rangePicker true).dateWithinRange (march 10) = true := by
  refine ⟨Datepicker.dateWithinRange_iff, by decide, by decide, by decide, by decide⟩

/-- Counterexample to C14 as stated: `normalizeConfig` takes `view.min = 'years'`
with `view.max = 'days'` and `view.start = 'days'`; it leaves
`config.view.start = 2`, `min = 2`, `max = 0`, so `viewMode` is 2, above
`config.view.max`, after construction and still after `showMode(-1)` and
`hide()`. -/
theorem C14_counterexample :
    (viewPicker (ViewOption.name "days") (ViewOption.name "years") (ViewOption.name "days")
        true).config.view = { start := 2, min := 2, max := 0 }
      ∧ (viewPicker (ViewOption.name "days") (ViewOption.name "years") (ViewOption.name "days")
          true).viewMode = 2
      ∧ ¬ ((viewPicker (ViewOption.name "days") (ViewOption.name "years") (ViewOption.name "days")
            true).viewMode
          ≤ (viewPicker (ViewOption.name "days") (ViewOption.name "years")
              (ViewOption.name "days") true).config.view.max)
      ∧ (Datepicker.runViewCalls sampleLib
          (viewPicker (ViewOption.name "days") (ViewOption.name "years") (ViewOption.name "days")
            true) [Datepicker.ViewCall.showMode (-1), Datepicker.ViewCall.hide]).viewMode = 2
      ∧ (Datepicker.runViewCalls sampleLib
          (viewPicker (ViewOption.name "days") (ViewOption.name "years") (ViewOption.name "days")
            true) [Datepicker.ViewCall.showMode (-1), Datepicker.ViewCall.hide]).config.view.max = 0 := by
  refine ⟨by decide, by decide, by decide, by decide, by decide⟩

/-- C14, amended: for every configuration of `view.start`, `view.min` and
`view.max` (names or digits), on the picker as constructed (`config.view`
normalised, `viewMode = config.view.start`) and after every sequence of
`showMode(delta)` calls (any integer `delta`) and `hide()` calls,
`config.view` is unchanged, `config.view.min <= viewMode`, and
`viewMode <= config.view.max` provided `config.view.min <= config.view.max`. -/
theorem C14_viewMode_within_min_max (L : MomentLib) (p : Datepicker)
    (start min max : ViewOption) (calls : List Datepicker.ViewCall)
    (hcfg : p.config.view = normalizeView start min max)
    (hvm : p.viewMode = p.config.view.start) :
    (Datepicker.runViewCalls L p calls).config.view = normalizeView start min max
      ∧ (Datepicker.runViewCalls L p calls).config.view.min
          ≤ (Datepicker.runViewCalls L p calls).viewMode
      ∧ ((Datepicker.runViewCalls L p calls).config.view.min
            ≤ (Datepicker.runViewCalls L p calls).config.view.max →
          (Datepicker.runViewCalls L p calls).viewMode
            ≤ (Datepicker.runViewCalls L p calls).config.view.max) := by
  have hb := normalizeView_bounds start min max
  rw [← hcfg] at hb
  have h := Datepicker.runViewCalls_bounds L calls p hb.1 hb.2 (by rw [hvm]; exact hb.1)
    (by rw [hvm]; exact hb.2)
  rw [h.1]
  exact ⟨hcfg, h.2.1, h.2.2⟩

/-- Witness of C14 (amended): the default options `days`, `days`, `centuries`
and the calls `showMode(1)`, `showMode(7)`, `hide()`, `showMode(-9)` on a shown
picker. -/
theorem C14_viewMode_within_min_max_witness :
    (Datepicker.runViewCalls sampleLib
        (viewPicker (ViewOption.name "days") (ViewOption.name "days")
          (ViewOption.name "centuries") true)
        [Datepicker.ViewCall.showMode 1, Datepicker.ViewCall.showMode 7, Datepicker.ViewCall.hide,
          Datepicker.ViewCall.showMode (-9)]).config.view
        = normalizeView (ViewOption.name "days") (ViewOption.name "days")
            (ViewOption.name "centuries")
      ∧ (Datepicker.runViewCalls sampleLib
          (viewPicker (ViewOption.name "days") (ViewOption.name "days")
            (ViewOption.name "centuries") true)
          [Datepicker.ViewCall.showMode 1, Datepicker.ViewCall.showMode 7, Datepicker.ViewCall.hide,
            Datepicker.ViewCall.showMode (-9)]).config.view.min
          ≤ (Datepicker.runViewCalls sampleLib
              (viewPicker (ViewOption.name "days") (ViewOption.name "days")
                (ViewOption.name "centuries") true)
              [Datepicker.ViewCall.showMode 1, Datepicker.ViewCall.showMode 7, Datepicker.ViewCall.hide,
                Datepicker.ViewCall.showMode (-9)]).viewMode
      ∧ ((Datepicker.runViewCalls sampleLib
            (viewPicker (ViewOption.name "days") (ViewOption.name "days")
              (ViewOption.name "centuries") true)
            [Datepicker.ViewCall.showMode 1, Datepicker.ViewCall.showMode 7, Datepicker.ViewCall.hide,
              Datepicker.ViewCall.showMode (-9)]).config.view.min
            ≤ (Datepicker.runViewCalls sampleLib
                (viewPicker (ViewOption.name "days") (ViewOption.name "days")
                  (ViewOption.name "centuries") true)
                [Datepicker.ViewCall.showMode 1, Datepicker.ViewCall.showMode 7, Datepicker.ViewCall.hide,
                  Datepicker.ViewCall.showMode (-9)]).config.view.max →
          (Datepicker.runViewCalls sampleLib
              (viewPicker (ViewOption.name "days") (ViewOption.name "days")
                (ViewOption.name "centuries") true)
              [Datepicker.ViewCall.showMode 1, Datepicker.ViewCall.showMode 7, Datepicker.ViewCall.hide,
                Datepicker.ViewCall.showMode (-9)]).viewMode
            ≤ (Datepicker.runViewCalls sampleLib
                (viewPicker (ViewOption.name "days") (ViewOption.name "days")
                  (ViewOption.name "centuries") true)
                [Datepicker.ViewCall.showMode 1, Datepicker.ViewCall.showMode 7, Datepicker.ViewCall.hide,
                  Datepicker.ViewCall.showMode (-9)]).config.view.max) :=
  C14_viewMode_within_min_max sampleLib
    (viewPicker (ViewOption.name "days") (ViewOption.name "days") (ViewOption.name "centuries")
      true)
    (ViewOption.name "days") (ViewOption.name "days") (ViewOption.name "centuries")
    [Datepicker.ViewCall.showMode 1, Datepicker.ViewCall.showMode 7, Datepicker.ViewCall.hide, Datepicker.ViewCall.showMode (-9)] rfl rfl

/-- C15, evaluated on the code: `resolveViewType` maps `days`, `months` and
`years` to 0, 1 and 2, but `decades` and `centuries` fall into the `default`
branch of its `switch` and yield the default value (0 for `view.start` and
`view.min`, 2 for `view.max`), not 3 and 4; the default configuration
(`days`, `days`, `centuries`) normalises to `view.max = 2`. -/
theorem C15_resolveViewType_misses_decades_centuries :
    resolveViewType (ViewOption.name "days") View.DAYS = 0
      ∧ resolveViewType (ViewOption.name "months") View.DAYS = 1
      ∧ resolveViewType (ViewOption.name "years") View.DAYS = 2
      ∧ resolveViewType (ViewOption.name "decades") View.DAYS = 0
      ∧ resolveViewType (ViewOption.name "centuries") View.DAYS = 0
      ∧ resolveViewType (ViewOption.name "decades") View.YEARS = 2
      ∧ resolveViewType (ViewOption.name "centuries") View.YEARS = 2
      ∧ normalizeView (ViewOption.name "days") (ViewOption.name "days")
          (ViewOption.name "centuries") = { start := 0, min := 0, max := 2 } := by
  refine ⟨by decide, by decide, by decide, by decide, by decide, by decide, by decide,
    by decide⟩

/-- C16, evaluated on the code: `contains` uses `isSame` without a unit and so
matches by exact instant.  With midnight of 5 March 2012 selected,
`contains` of noon of the same calendar day is -1 (midnight itself is found at
index 0), and in multi-select mode toggling midnight and then noon of 5 March
from the empty selection leaves two entries on the same calendar day. -/
theorem C16_contains_matches_exact_instant :
    (marchNoon 5).dayNumber = (march 5).dayNumber
      ∧ (Dates.ofMoments [march 5]).contains (marchNoon 5) = Except.ok (-1)
      ∧ (Dates.ofMoments [march 5]).contains (march 5) = Except.ok 0
      ∧ (samplePicker false (MultidateEnabled.bool true) []).toggleEach [march 5, marchNoon 5]
          = ⟨{ samplePicker false (MultidateEnabled.bool true) [] with
                dates := Dates.ofMoments [march 5, marchNoon 5] }, none⟩ := by
  refine ⟨by decide, rfl, rfl, rfl⟩

/-- C17, evaluated on the code: with the limit `multidate.enabled = 2`,
`setDates('03/05/2012', '03/14/2012', '03/20/2012')` keeps all three dates:
`resolveDates` applies no limit (and the result holds them as one array
element); the call then throws a `TypeError`. -/
theorem C17_setDates_ignores_the_limit :
    (samplePicker false (MultidateEnabled.number 2) []).config.multidate.enabled
        = MultidateEnabled.number 2
      ∧ Datepicker.resolveDates inputLib (samplePicker false (MultidateEnabled.number 2) [])
          [Value.string "03/05/2012", Value.string "03/14/2012", Value.string "03/20/2012"]
          = Except.ok (Dates.new
              [Entry.moment (march 5), Entry.moment (march 14), Entry.moment (march 20)])
      ∧ (Datepicker.setDates inputLib (samplePicker false (MultidateEnabled.number 2) [])
          [Value.string "03/05/2012", Value.string "03/14/2012",
            Value.string "03/20/2012"]).state.dates.array
          = [Entry.group
              [Entry.moment (march 5), Entry.moment (march 14), Entry.moment (march 20)]]
      ∧ (Datepicker.setDates inputLib (samplePicker false (MultidateEnabled.number 2) [])
          [Value.string "03/05/2012", Value.string "03/14/2012",
            Value.string "03/20/2012"]).fault
          = some Fault.typeError := by
  refine ⟨rfl, rfl, rfl, rfl⟩

/-- Counterexample to C18 as stated, with the range 1 March .. 10 March 2012
and the view date 5 March: a click on `next` in the days view moves `viewDate`
to 5 April 2012, outside the range; and with the default date 20 March 2012,
`resolveViewDate` on the empty selection sets `viewDate` to that default,
outside the range. -/
theorem C18_counterexample :
    (rangePicker true).dateWithinRange (rangePicker true).viewDate = true
      ∧ (Datepicker.clickPrevNext (rangePicker true) false).fault = none
      ∧ (Datepicker.clickPrevNext (rangePicker true) false).state.viewDate
          = ⟨daysFromCivil 2012 4 5 * msPerDay⟩
      ∧ (Datepicker.clickPrevNext (rangePicker true) false).state.dateWithinRange
          (Datepicker.clickPrevNext (rangePicker true) false).state.viewDate = false
      ∧ defaultOutsidePicker.dateWithinRange defaultOutsidePicker.viewDate = true
      ∧ (Datepicker.resolveViewDate defaultOutsidePicker).fault = none
      ∧ (Datepicker.resolveViewDate defaultOutsidePicker).state.viewDate = march 20
      ∧ (Datepicker.resolveViewDate defaultOutsidePicker).state.dateWithinRange
          (Datepicker.resolveViewDate defaultOutsidePicker).state.viewDate = false := by
  refine ⟨by decide, rfl, by decide, by decide, by decide, rfl, rfl, by decide⟩

/-- C18, amended: on a picker with nothing selected and
`date.start <= date.end`, whose configured default date lies within
`[date.start, date.end]` or whose `viewDate` lies outside it, `resolveViewDate`
returns with `viewDate` within `[date.start, date.end]`.  A click on prev or
next does not clamp: it leaves `viewDate` moved by `navStep(viewMode)` months
(days view) or years (other views), backwards for prev. -/
theorem C18_viewDate_within_range_after_resolve (p : Datepicker)
    (hempty : p.dates.length = 0)
    (hrange : p.config.date.start.valueOf ≤ p.config.date.end.valueOf)
    (hdef : p.dateWithinRange p.config.date.dflt = true ∨ p.dateWithinRange p.viewDate = false) :
    (Datepicker.resolveViewDate p).fault = none
      ∧ (Datepicker.resolveViewDate p).state.dateWithinRange
          (Datepicker.resolveViewDate p).state.viewDate = true
      ∧ ∀ (prev : Bool) (step : Int), navStep p.viewMode = some step →
          (Datepicker.clickPrevNext p prev).state.viewDate
            = p.viewDate.add (step * (if prev then -1 else 1))
                (if p.viewMode = View.DAYS then Unit.MONTH else Unit.YEAR) := by
  refine ⟨?_, ?_, ?_⟩
  · unfold Datepicker.resolveViewDate
    simp only [hempty, ne_eq, not_true_eq_false, if_false]
    split
    · rfl
    · split <;> rfl
  · unfold Datepicker.resolveViewDate
    simp only [hempty, ne_eq, not_true_eq_false, if_false]
    by_cases h1 : p.viewDate.valueOf < p.config.date.start.valueOf
    · simp only [h1, if_true, Datepicker.dateWithinRange_iff]
      exact ⟨le_refl _, hrange⟩
    · by_cases h2 : p.viewDate.valueOf > p.config.date.end.valueOf
      · simp only [h1, h2, if_true, if_false, Datepicker.dateWithinRange_iff]
        exact ⟨hrange, le_refl _⟩
      · simp only [h1, h2, if_false]
        rcases hdef with h | h
        · exact h
        · have hw : p.dateWithinRange p.viewDate = true :=
            (Datepicker.dateWithinRange_iff p p.viewDate).2 ⟨by omega, by omega⟩
          rw [hw] at h
          cases h
  · intro prev step hstep
    unfold Datepicker.clickPrevNext
    simp only [hstep]
    by_cases hd : p.viewMode = View.DAYS
    · simp only [hd, if_true, Datepicker.trigger_viewDate]
    · simp only [hd, if_false]
      split
      · exact Datepicker.trigger_viewDate _ _ _
      · rfl

/-- Witness of C18 (amended): range 1 March .. 10 March 2012, default date
5 March, nothing selected. -/
theorem C18_viewDate_within_range_after_resolve_witness :
    (Datepicker.resolveViewDate (rangePicker true)).fault = none
      ∧ (Datepicker.resolveViewDate (rangePicker true)).state.dateWithinRange
          (Datepicker.resolveViewDate (rangePicker true)).state.viewDate = true
      ∧ ∀ (prev : Bool) (step : Int), navStep (rangePicker true).viewMode = some step →
          (Datepicker.clickPrevNext (rangePicker true) prev).state.viewDate
            = (rangePicker true).viewDate.add (step * (if prev then -1 else 1))
                (if (rangePicker true).viewMode = View.DAYS then Unit.MONTH else Unit.YEAR) :=
  C18_viewDate_within_range_after_resolve (rangePicker true) rfl (by decide)
    (Or.inl (by decide))

/-- C19, evaluated on the code: `hide()` on a shown, non-inline picker sets
`viewMode` to `config.view.start` and `focusDate` to none and leaves the
selection unchanged, but it emits no Hide event: `_trigger(Event.HIDE)` throws
a `TypeError` (through `Dates#last`) before the event is handed on.  On a
hidden or an inline picker `hide()` changes nothing and emits nothing. -/
theorem C19_hide_resets_but_emits_no_event :
    Datepicker.hide inputLib shownPicker
        = ⟨{ shownPicker with
              focusDate := none, showing := false,
              viewMode := shownPicker.config.view.start }, some Fault.typeError⟩
      ∧ (Datepicker.hide inputLib shownPicker).state.events = []
      ∧ (Datepicker.hide inputLib shownPicker).state.dates.array = shownPicker.dates.array
      ∧ Datepicker.hide inputLib { shownPicker with showing := false }
          = ⟨{ shownPicker with showing := false }, none⟩
      ∧ Datepicker.hide inputLib { shownPicker with isInline := true }
          = ⟨{ shownPicker with isInline := true }, none⟩ := by
  refine ⟨rfl, rfl, rfl, rfl, rfl⟩

/-- C20, evaluated on the code, on a shown picker with `autoclose` on and
5 March 2012 selected.  `clickDate(date, 'view')` returns with the selection
unchanged, `viewDate = date` and no event.  `clickDate(date, 'date')` applies
`toggleMultidate(date)` and leaves `viewDate` unchanged, and `clickDate(date)`
does both, but neither emits DateChange nor calls `hide()`: `_trigger` throws
a `TypeError` (through `Dates#last`) first, and the picker stays shown. -/
theorem C20_clickDate_scopes :
    Datepicker.clickDate inputLib autoclosePicker (march 14) (some Datepicker.Scope.view)
        = ⟨{ autoclosePicker with viewDate := march 14 }, none⟩
      ∧ Datepicker.clickDate inputLib autoclosePicker (march 14) (some Datepicker.Scope.date)
        = ⟨{ autoclosePicker with
              dates := Dates.ofMoments [march 14],
              elementVal := "03/14/2012" }, some Fault.typeError⟩
      ∧ Datepicker.clickDate inputLib autoclosePicker (march 14) none
        = ⟨{ autoclosePicker with
              dates := Dates.ofMoments [march 14], viewDate := march 14,
              elementVal := "03/14/2012" }, some Fault.typeError⟩
      ∧ (autoclosePicker.toggleMultidate (march 14)).state.dates = Dates.ofMoments [march 14]
      ∧ autoclosePicker.config.autoclose = true
      ∧ (Datepicker.clickDate inputLib autoclosePicker (march 14)
          (some Datepicker.Scope.date)).state.events = []
      ∧ (Datepicker.clickDate inputLib autoclosePicker (march 14)
          (some Datepicker.Scope.date)).state.showing = true
      ∧ (Datepicker.clickDate inputLib autoclosePicker (march 14) none).state.events = []
      ∧ (Datepicker.clickDate inputLib autoclosePicker (march 14) none).state.showing = true := by
  refine ⟨rfl, rfl, rfl, rfl, rfl, rfl, rfl, rfl, rfl⟩

/-- C22: for every start date, every direction other than 0, every unit and
every configuration (the range `[date.start, date.end]` is always bounded),
`moveAvailableDate` terminates: there is a number of rounds from which on the
loop has returned the same result, a date or `false`; this includes the
configurations in which every weekday or every day in range is disabled. -/
theorem C22_moveAvailableDate_terminates (p : Datepicker) (date : Moment) (dir : Int)
    (unit : Unit) (hdir : dir ≠ 0) :
    ∃ n r, ∀ fuel, n ≤ fuel → p.moveAvailableDate fuel date dir unit = some r := by
  by_cases hw : p.dateWithinRange (date.add dir unit) = true
  · by_cases hdis : p.dateIsDisabled (date.add dir unit) = true
    · obtain ⟨n, r, hr⟩ := Datepicker.moveAvailableDate_day_stops p dir hdir (date.add dir unit)
      refine ⟨n + 1, r, fun fuel hf => ?_⟩
      obtain ⟨k, rfl⟩ : ∃ k, fuel = k + 1 := ⟨fuel - 1, by omega⟩
      simp only [Datepicker.moveAvailableDate, hw, hdis, Bool.not_true, Bool.false_eq_true,
        if_false, if_true]
      exact hr k (by omega)
    · refine ⟨1, Datepicker.MoveResult.date (date.add dir unit), fun fuel hf => ?_⟩
      obtain ⟨k, rfl⟩ : ∃ k, fuel = k + 1 := ⟨fuel - 1, by omega⟩
      simp [Datepicker.moveAvailableDate, hw, hdis]
  · refine ⟨1, Datepicker.MoveResult.noDestination, fun fuel hf => ?_⟩
    obtain ⟨k, rfl⟩ : ∃ k, fuel = k + 1 := ⟨fuel - 1, by omega⟩
    have hout : p.dateWithinRange (date.add dir unit) = false := by simpa using hw
    simp [Datepicker.moveAvailableDate, hout]

/-- Witness of C22: every weekday is disabled, the start is 5 March 2012 and
the move is one month back. -/
theorem C22_moveAvailableDate_terminates_witness :
    ∃ n r, ∀ fuel, n ≤ fuel →
      (constrainedPicker [0, 1, 2, 3, 4, 5, 6] []).moveAvailableDate fuel (march 5) (-1)
        Unit.MONTH = some r :=
  C22_moveAvailableDate_terminates (constrainedPicker [0, 1, 2, 3, 4, 5, 6] []) (march 5) (-1)
    Unit.MONTH (by decide)

/-- Counterexample to C23 as stated: Down at the months view passes
`dir = 4` with the unit month; from 5 March 2012 the first candidate is 5 July
2012, and with that day disabled the next candidate, which is returned, is
9 July 2012: four days later, not one. -/
theorem C23_counterexample :
    (constrainedPicker [] [july 5]).moveCandidates 5 (march 5) 4 Unit.MONTH = [july 5, july 9]
      ∧ (constrainedPicker [] [july 5]).moveAvailableDate 5 (march 5) 4 Unit.MONTH
          = some (Datepicker.MoveResult.date (july 9))
      ∧ (july 9).valueOf = (july 5).valueOf + 4 * msPerDay
      ∧ (july 9).valueOf ≠ (july 5).valueOf + 1 * msPerDay := by
  refine ⟨by decide, by decide, by decide, by decide⟩

/-- C23, amended: for every start date, unit and direction `dir`, the first
candidate of `moveAvailableDate` is the start date moved by `dir` units, every
later candidate is the one before moved by exactly `dir` days (one day in the
direction of travel when `dir` is 1 or -1, four days for the 4 and -4 that
Up and Down pass at the months and years views), and a date that is returned
is the last candidate. -/
theorem C23_later_steps_move_by_dir_days (p : Datepicker) (fuel : Nat) (date : Moment)
    (dir : Int) (unit : Unit) :
    (p.moveCandidates (fuel + 1) date dir unit).head? = some (date.add dir unit)
      ∧ List.Chain' (fun a b : Moment => b.valueOf = a.valueOf + dir * msPerDay)
          (p.moveCandidates (fuel + 1) date dir unit)
      ∧ ∀ m, p.moveAvailableDate (fuel + 1) date dir unit = some (Datepicker.MoveResult.date m) →
          (p.moveCandidates (fuel + 1) date dir unit).getLast? = some m := by
  refine ⟨?_, Datepicker.moveCandidates_chain p _ date dir unit,
    fun m h => Datepicker.moveCandidates_last p _ date dir unit m h⟩
  simp only [Datepicker.moveCandidates]
  split
  · rfl
  · split <;> rfl

/-- C21, evaluated on the code: a click on a day cell emits no event at all.
`clickDate` without a scope always throws (at the latest in
`_trigger(Event.DATE_CHANGE)`, through `Dates#last`) and leaves the trace as
it was, so the day branch of `click` throws as well, before its YearChange and
MonthChange triggers, which come after the call of `clickDate`, are run.  On
a picker viewing March 2012 with 5 March selected, a click on the cell `28` of
the previous month selects 28 February and moves the view there, and the trace
stays empty: neither a MonthChange nor a DateChange. -/
theorem C21_day_click_emits_no_event :
    (∀ (L : MomentLib) (p : Datepicker) (date : Moment),
        (Datepicker.clickDate L p date none).fault ≠ none
          ∧ (Datepicker.clickDate L p date none).state.events = p.events)
      ∧ (∀ (L : MomentLib) (p : Datepicker) (cell : Option Int) (old new : Bool),
          (Datepicker.clickDay L p cell old new).fault ≠ none
            ∧ (Datepicker.clickDay L p cell old new).state.events = p.events)
      ∧ selectedPicker.events = []
      ∧ Datepicker.monthOf selectedPicker.viewDate = 2
      ∧ (Datepicker.clickDay inputLib selectedPicker (some 28) true false).fault
          = some Fault.typeError
      ∧ (Datepicker.clickDay inputLib selectedPicker (some 28) true false).state.events = []
      ∧ (Datepicker.clickDay inputLib selectedPicker (some 28) true false).state.viewDate
          = Datepicker.newMomentYMD 2012 1 28
      ∧ (Datepicker.clickDay inputLib selectedPicker (some 28) true false).state.dates
          = Dates.ofMoments [Datepicker.newMomentYMD 2012 1 28] := by
  refine ⟨fun L p date => Datepicker.clickDate_throws L p date, fun L p cell old new => ?_,
    rfl, by decide, rfl, rfl, rfl, rfl⟩
  simp only [Datepicker.clickDay]
  exact Outcome.andThen_of_throws _ _ p.events (Datepicker.clickDate_throws L p _).1
    (Datepicker.clickDate_throws L p _).2

/-- C24, evaluated on the code: `setDatesDisabled()` and
`setDatesDisabled(null)` throw the unknown-value-type error of `parseDate` and
`setDatesDisabled('')` throws its invalid-moment error; the picker,
`config.date.disabled` included, is left as it was, so nothing is unset. -/
theorem C24_setDatesDisabled_falsy_throws :
    (∀ (L : MomentLib) (p : Datepicker),
        Datepicker.setDatesDisabled L p (DatesArg.single Value.undefined)
            = ⟨p, some Fault.unknownValueType⟩
          ∧ Datepicker.setDatesDisabled L p (DatesArg.single Value.null)
            = ⟨p, some Fault.unknownValueType⟩)
      ∧ Datepicker.setDatesDisabled inputLib (constrainedPicker [] [march 7])
          (DatesArg.single (Value.string ""))
          = ⟨constrainedPicker [] [march 7], some Fault.invalidMoment⟩
      ∧ (constrainedPicker [] [march 7]).config.date.disabled = [march 7] := by
  refine ⟨fun L p => ⟨rfl, rfl⟩, rfl, rfl⟩

/-- C25, evaluated on the code: `normalizeConfig` turns a negative number
given for `multidate.enabled` into the number 0, which is not greater than 0
(`-3` becomes `0`).  For the other values the result is as claimed: `true`
stays, `false`, `0` and a string that is not a number become `false`, a
positive number stays; in every case the result is `true`, `false` or a
number that is at least 0. -/
theorem C25_negative_enabled_normalises_to_zero :
    (∀ numberOf, normalizeEnabled numberOf (EnabledOption.number (-3))
        = MultidateEnabled.number 0)
      ∧ (∀ numberOf n, n < 0 →
          normalizeEnabled numberOf (EnabledOption.number n) = MultidateEnabled.number 0)
      ∧ (∀ numberOf n, 0 < n →
          normalizeEnabled numberOf (EnabledOption.number n) = MultidateEnabled.number n)
      ∧ (∀ numberOf b, normalizeEnabled numberOf (EnabledOption.bool b)
          = MultidateEnabled.bool b)
      ∧ (∀ numberOf, normalizeEnabled numberOf (EnabledOption.number 0)
          = MultidateEnabled.bool false)
      ∧ (∀ numberOf t, numberOf t = none →
          normalizeEnabled numberOf (EnabledOption.text t) = MultidateEnabled.bool false)
      ∧ (∀ numberOf value,
          normalizeEnabled numberOf value = MultidateEnabled.bool true
            ∨ normalizeEnabled numberOf value = MultidateEnabled.bool false
            ∨ ∃ n, 0 ≤ n ∧ normalizeEnabled numberOf value = MultidateEnabled.number n) := by
  refine ⟨fun _ => rfl, ?_, ?_, ?_, fun _ => rfl, ?_, ?_⟩
  · intro numberOf n hn
    have h0 : n ≠ 0 := by omega
    simp [normalizeEnabled, EnabledOption.toNumber, h0]
    omega
  · intro numberOf n hn
    have h0 : n ≠ 0 := by omega
    simp [normalizeEnabled, EnabledOption.toNumber, h0]
    omega
  · intro numberOf b
    cases b <;> simp [normalizeEnabled, EnabledOption.toNumber]
  · intro numberOf t ht
    simp [normalizeEnabled, EnabledOption.toNumber, ht]
  · intro numberOf value
    unfold normalizeEnabled
    split
    · exact Or.inl rfl
    · split
      · exact Or.inr (Or.inl rfl)
      · split
        · exact Or.inr (Or.inl rfl)
        · exact Or.inr (Or.inr ⟨_, le_max_left _ _, rfl⟩)

/-- Counterexample to C26 as stated: with `multidate.enabled = 1` and
`toggleActive = false`, `toggleMultidate` on the selected date 5 March 2012
leaves it selected. -/
theorem C26_counterexample :
    (samplePicker false (MultidateEnabled.number 1) [march 5]).config.multidate.enabled
        = MultidateEnabled.number 1
      ∧ (samplePicker false (MultidateEnabled.number 1) [march 5]).toggleMultidate (march 5)
        = ⟨samplePicker false (MultidateEnabled.number 1) [march 5], none⟩
      ∧ (samplePicker false (MultidateEnabled.number 1) [march 5]).dates
        = Dates.ofMoments [march 5] := by
  refine ⟨rfl, rfl, rfl⟩

/-- C26, amended: whenever `multidate.enabled` is `true` or a number greater
than 1, `toggleMultidate` on a date `d` of a duplicate-free selection `S`
returns and unsets it, whatever the value of `toggleActive`: the selection
afterwards consists of dates of `S` other than `d`, in their order. -/
theorem C26_multidate_toggle_unsets (p : Datepicker) (S : List Moment) (d : Moment)
    (hmode : p.config.multidate.enabled = MultidateEnabled.bool true
      ∨ ∃ n : Int, 1 < n ∧ p.config.multidate.enabled = MultidateEnabled.number n)
    (hnodup : S.Nodup) (hd : d ∈ S) (hsel : p.dates = Dates.ofMoments S) :
    ∃ T : List Moment,
      p.toggleMultidate d = ⟨{ p with dates := Dates.ofMoments T }, none⟩
        ∧ d ∉ T ∧ List.Sublist T (S.erase d) := by
  have hnot : d ∉ S.erase d := fun h => (List.Nodup.mem_erase_iff hnodup).1 h |>.1 rfl
  rcases hmode with h | ⟨n, hn, h⟩
  · refine ⟨S.erase d, ?_, hnot, List.Sublist.refl _⟩
    exact Datepicker.toggleMultidate_present p S d (Or.inl h)
      (fun k hk => by rw [h] at hk; cases hk) hsel hd
  · obtain ⟨k, rfl⟩ := Int.eq_ofNat_of_zero_le (show 0 ≤ n by omega)
    refine ⟨(S.erase d).drop ((S.erase d).length - k), ?_,
      fun hm => hnot (List.mem_of_mem_drop hm), List.drop_sublist _ _⟩
    exact Datepicker.toggleMultidate_present_number p S d k h
      (Or.inl (by simp only [h, MultidateEnabled.gt, decide_eq_true_eq]; omega)) hsel hd

/-- Witness of C26 (amended): `multidate.enabled = true`, `toggleActive = false`,
selection `[5 March, 14 March]`, and 5 March is toggled. -/
theorem C26_multidate_toggle_unsets_witness :
    ∃ T : List Moment,
      (samplePicker false (MultidateEnabled.bool true) [march 5, march 14]).toggleMultidate
          (march 5)
          = ⟨{ samplePicker false (MultidateEnabled.bool true) [march 5, march 14] with
                dates := Dates.ofMoments T }, none⟩
        ∧ march 5 ∉ T ∧ List.Sublist T ([march 5, march 14].erase (march 5)) :=
  C26_multidate_toggle_unsets
    (samplePicker false (MultidateEnabled.bool true) [march 5, march 14]) [march 5, march 14]
    (march 5) (Or.inl rfl) (by decide) (by decide) rfl

/-- Counterexample to C27 as stated: -1 is not a position of the selection
`[5 March, 14 March]`, yet `remove(-1)` removes its last entry. -/
theorem C27_counterexample :
    (Dates.ofMoments [march 5, march 14]).remove (-1) = Dates.ofMoments [march 5]
      ∧ ((Dates.ofMoments [march 5, march 14]).remove (-1)).length
          ≠ (Dates.ofMoments [march 5, march 14]).length := by
  refine ⟨rfl, by decide⟩

/-- C27, amended: for every selection and every index `i`, `remove(i)` is
`splice(i, 1)`: for `i >= length` it leaves the selection unchanged; for
`0 <= i < length` it removes exactly the entry at position `i` and keeps the
order of the others; a negative `i` counts from the end: for
`-length <= i < 0` it removes the entry at position `length + i`, and for
`i < -length` the first entry. -/
theorem C27_remove_is_splice (ds : Dates) (i : Int) :
    ((ds.length : Int) ≤ i → ds.remove i = ds)
      ∧ (0 ≤ i → i < (ds.length : Int) → (ds.remove i).array = ds.array.eraseIdx i.toNat)
      ∧ (i < 0 → -(ds.length : Int) ≤ i →
          (ds.remove i).array = ds.array.eraseIdx ((ds.length : Int) + i).toNat)
      ∧ (i < -(ds.length : Int) → (ds.remove i).array = ds.array.eraseIdx 0) := by
  refine ⟨?_, ?_, ?_, ?_⟩
  · intro h
    have h0 : ¬ i < 0 := by
      have : (0 : Int) ≤ (ds.length : Int) := Int.natCast_nonneg _
      omega
    have hmin : min i (ds.array.length : Int) = (ds.array.length : Int) :=
      min_eq_right (by simpa [Dates.length] using h)
    simp only [Dates.remove, Dates.splice1, h0, if_false, hmin, Int.toNat_ofNat]
    rw [List.eraseIdx_of_length_le (le_refl _)]
  · intro h0 h1
    have hn : ¬ i < 0 := by omega
    have hmin : min i (ds.array.length : Int) = i :=
      min_eq_left (by simp only [Dates.length] at h1; omega)
    simp only [Dates.remove, Dates.splice1, hn, if_false, hmin]
  · intro h0 h1
    have hmax : max ((ds.array.length : Int) + i) 0 = (ds.array.length : Int) + i :=
      max_eq_left (by simp only [Dates.length] at h1; omega)
    simp only [Dates.remove, Dates.splice1, h0, if_true, hmax, Dates.length]
  · intro h0
    have hneg : i < 0 := by
      have : (0 : Int) ≤ (ds.length : Int) := Int.natCast_nonneg _
      omega
    have hmax : max ((ds.array.length : Int) + i) 0 = 0 :=
      max_eq_right (by simp only [Dates.length] at h0; omega)
    simp only [Dates.remove, Dates.splice1, hneg, if_true, hmax, Int.toNat_zero]

/-- C28, evaluated on the code: the constructor pushes its rest parameter as
one element, so every new `Dates` has `length() = 1`: the one constructed with
no dates holds an empty array, the one constructed from `m1 .. mk` holds the
array `[m1, .., mk]` as its only entry, and `copy()` of a selection of two
dates has length 1, its only entry being the array of the two. -/
theorem C28_constructor_stores_one_element :
    (∀ moments : List Entry,
        (Dates.new moments).length = 1 ∧ (Dates.new moments).array = [Entry.group moments])
      ∧ (Dates.new []).length = 1
      ∧ (Dates.new [Entry.moment (march 5), Entry.moment (march 14)]).length = 1
      ∧ (∀ ds : Dates, ds.copy.length = 1 ∧ ds.copy.array = [Entry.group ds.array])
      ∧ (Dates.ofMoments [march 5, march 14]).length = 2
      ∧ (Dates.ofMoments [march 5, march 14]).copy.length = 1 := by
  refine ⟨fun _ => ⟨rfl, rfl⟩, rfl, rfl, fun _ => ⟨rfl, rfl⟩, rfl, rfl⟩

/-- C29, evaluated on the code: for every list of moments passed to
`setDates` / `update`, `resolveDates` does keep exactly those that satisfy
`dateWithinRange` (after `parseDate`), in their order, but the selection it
returns holds them as one array element, not as its entries, and `update`
then throws a `TypeError`: `setDates('03/05/2012', '03/14/2012')` with the
range 1 March .. 10 March 2012 leaves the one-element array `[[5 March]]`. -/
theorem C29_setDates_wraps_the_dates :
    (∀ (L : MomentLib) (p : Datepicker) (ms : List Moment),
        Datepicker.resolveDates L p (ms.map Value.moment)
          = Except.ok (Dates.new
              (((ms.map L.restamp).filter (fun d => p.dateWithinRange d)).map Entry.moment)))
      ∧ (rangePicker true).dateWithinRange (march 5) = true
      ∧ (rangePicker true).dateWithinRange (march 14) = false
      ∧ (Datepicker.setDates inputLib (rangePicker true)
          [Value.string "03/05/2012", Value.string "03/14/2012"]).state.dates.array
          = [Entry.group [Entry.moment (march 5)]]
      ∧ (Datepicker.setDates inputLib (rangePicker true)
          [Value.string "03/05/2012", Value.string "03/14/2012"]).state.dates.length = 1
      ∧ (Datepicker.setDates inputLib (rangePicker true)
          [Value.string "03/05/2012", Value.string "03/14/2012"]).fault
          = some Fault.typeError := by
  refine ⟨fun L p ms => ?_, by decide, by decide, rfl, rfl, rfl⟩
  simp [Datepicker.resolveDates, restIsTruthy, Datepicker.parseDates_moments]

/-- C30, evaluated on the code: with a non-empty selection `resolveViewDate`
throws a `TypeError` (through `Dates#last`) and leaves `viewDate` as it was,
instead of setting it to the last selected date; with an empty selection it
sets `viewDate` to `date.start` when it was before `date.start`, to `date.end`
when it was after `date.end`, and to the configured default date otherwise. -/
theorem C30_resolveViewDate_cases :
    (∀ p : Datepicker,
        Datepicker.resolveViewDate p
          = if p.dates.length ≠ 0 then ⟨p, some Fault.typeError⟩
            else if p.viewDate.valueOf < p.config.date.start.valueOf then
              ⟨{ p with viewDate := p.config.date.start }, none⟩
            else if p.viewDate.valueOf > p.config.date.end.valueOf then
              ⟨{ p with viewDate := p.config.date.end }, none⟩
            else ⟨{ p with viewDate := p.config.date.dflt }, none⟩)
      ∧ viewElsewherePicker.dates = Dates.ofMoments [march 14]
      ∧ Datepicker.resolveViewDate viewElsewherePicker
          = ⟨viewElsewherePicker, some Fault.typeError⟩
      ∧ viewElsewherePicker.viewDate = march 5 := by
  refine ⟨fun p => ?_, rfl, rfl, rfl⟩
  unfold Datepicker.resolveViewDate
  by_cases h : p.dates.length ≠ 0
  · simp only [h, if_true, Dates.last, Dates.get]
  · simp only [h, if_false]

/-- Counterexample to C31 as stated: on a shown picker with `forceParse` off,
5 March 2012 selected and the keyboard focus on 14 March 2012, Enter changes
nothing: `toggleMultidate` is not applied to the focus date (it would leave
14 March selected) and `focusDate` stays set. -/
theorem C31_counterexample :
    (enterPicker false true (some (march 14))).showing = true
      ∧ (enterPicker false true (some (march 14))).config.forceParse = false
      ∧ Datepicker.keydownEnter inputLib (enterPicker false true (some (march 14)))
          = ⟨enterPicker false true (some (march 14)), none⟩
      ∧ (Datepicker.keydownEnter inputLib
          (enterPicker false true (some (march 14)))).state.focusDate = some (march 14)
      ∧ (Datepicker.keydownEnter inputLib
          (enterPicker false true (some (march 14)))).state.dates = Dates.ofMoments [march 5]
      ∧ ((enterPicker false true (some (march 14))).toggleMultidate (march 14)).state.dates
          = Dates.ofMoments [march 14] := by
  refine ⟨rfl, rfl, rfl, rfl, rfl, rfl⟩

/-- C31, amended: on every shown picker whose keyboard focus is set, Enter
changes nothing when `forceParse` is off; with `forceParse` and
`keyboard.navigation` on it applies `toggleMultidate` to `focusDate` and, when
that call returns, leaves `focusDate` unset; with `forceParse` on and
`keyboard.navigation` off it leaves the selection as it is and `focusDate`
unset. -/
theorem C31_enter_toggles_focus_date_behind_guards (L : MomentLib) (p : Datepicker)
    (f : Moment) (hshow : p.showing = true) (hfocus : p.focusDate = some f) :
    (p.config.forceParse = false → Datepicker.keydownEnter L p = ⟨p, none⟩)
      ∧ (p.config.forceParse = true → p.config.keyboardNavigation = true →
          (Datepicker.keydownEnter L p).state.dates = (p.toggleMultidate f).state.dates
            ∧ ((p.toggleMultidate f).fault = none →
                (Datepicker.keydownEnter L p).state.focusDate = none))
      ∧ (p.config.forceParse = true → p.config.keyboardNavigation = false →
          (Datepicker.keydownEnter L p).state.dates = p.dates
            ∧ (Datepicker.keydownEnter L p).state.focusDate = none) := by
  refine ⟨fun hp => ?_, fun hp hnav => ?_, fun hp hnav => ?_⟩
  · simp [Datepicker.keydownEnter, hshow, hp]
  · rw [Datepicker.keydownEnter_focus L p f hshow hp hfocus]
    simp only [hnav, if_true, Outcome.andThen]
    cases hfault : (p.toggleMultidate f).fault with
    | some e => exact ⟨rfl, fun h => by cases h⟩
    | none => exact ⟨rfl, fun _ => rfl⟩
  · rw [Datepicker.keydownEnter_focus L p f hshow hp hfocus]
    simp only [hnav, Bool.false_eq_true, if_false, Outcome.andThen]
    constructor <;> first | rfl | trivial

/-- Witness of C31 (amended): a shown single-select picker with `forceParse`
and `keyboard.navigation` on, 5 March 2012 selected and the keyboard focus on
14 March 2012. -/
theorem C31_enter_toggles_focus_date_behind_guards_witness :
    (Datepicker.keydownEnter inputLib (enterPicker true true (some (march 14)))).state.dates
        = ((enterPicker true true (some (march 14))).toggleMultidate (march 14)).state.dates
      ∧ (Datepicker.keydownEnter inputLib
          (enterPicker true true (some (march 14)))).state.focusDate = none :=
  ⟨((C31_enter_toggles_focus_date_behind_guards inputLib
      (enterPicker true true (some (march 14))) (march 14) rfl rfl).2.1 rfl rfl).1,
    ((C31_enter_toggles_focus_date_behind_guards inputLib
      (enterPicker true true (some (march 14))) (march 14) rfl rfl).2.1 rfl rfl).2 rfl⟩

/-- Counterexample to C32 as stated: only Monday is disabled, so six weekdays
are enabled; the picker is shown at the days view with keyboard navigation on
and the focus on Monday 5 March 2012.  Up and Down without modifier key leave
the picker as it is. -/
theorem C32_counterexample :
    (arrowPicker [1] (some (march 5))).config.daysOfWeek.disabled = [1]
      ∧ (arrowPicker [1] (some (march 5))).config.keyboardNavigation = true
      ∧ (arrowPicker [1] (some (march 5))).viewMode = View.DAYS
      ∧ (arrowPicker [1] (some (march 5))).focusDate = some (march 5)
      ∧ (march 5).day = 1
      ∧ (∀ fuel : Nat,
          Datepicker.keydownArrow inputLib (arrowPicker [1] (some (march 5))) fuel
              Datepicker.ArrowKey.UP false false
            = some ⟨arrowPicker [1] (some (march 5)), none⟩)
      ∧ (∀ fuel : Nat,
          Datepicker.keydownArrow inputLib (arrowPicker [1] (some (march 5))) fuel
              Datepicker.ArrowKey.DOWN false false
            = some ⟨arrowPicker [1] (some (march 5)), none⟩) := by
  refine ⟨rfl, rfl, rfl, rfl, by decide, fun fuel => ?_, fun fuel => ?_⟩
  · rw [Datepicker.keydownArrow_week inputLib _ fuel _ (march 5) (Or.inl rfl) rfl rfl
      (Or.inl rfl)]
    rfl
  · rw [Datepicker.keydownArrow_week inputLib _ fuel _ (march 5) (Or.inr rfl) rfl rfl
      (Or.inl rfl)]
    rfl

/-- C32, amended: at the days view with keyboard navigation on and no modifier
key, an Up or Down arrow on a shown picker changes nothing when
`daysOfWeek.disabled` has exactly 7 entries or the weekday of the focus date
itself (`focusDate`, or `viewDate` when no focus is set) is disabled.
Otherwise `focusDate` and `viewDate` become the date that
`moveAvailableDate(focus, -1 or 1, week)` returns, which is the date one week
back (Up) or forward (Down) when that date is within range and not disabled,
and nothing changes when `moveAvailableDate` returns `false`.  The key press
always returns. -/
theorem C32_week_step_needs_enabled_focus_weekday (L : MomentLib) (p : Datepicker)
    (key : Datepicker.ArrowKey) (focus : Moment)
    (hkey : key = Datepicker.ArrowKey.UP ∨ key = Datepicker.ArrowKey.DOWN)
    (hview : p.viewMode = View.DAYS) (hnav : p.config.keyboardNavigation = true)
    (hfocus : p.focusDate = some focus ∨ (p.focusDate = none ∧ p.viewDate = focus)) :
    ((p.config.daysOfWeek.disabled.length = 7 ∨ p.weekOfDateIsDisabled focus = true) →
        ∀ fuel : Nat, Datepicker.keydownArrow L p fuel key false false = some ⟨p, none⟩)
      ∧ (p.config.daysOfWeek.disabled.length ≠ 7 → p.weekOfDateIsDisabled focus = false →
          ∀ fuel : Nat,
            (∀ m : Moment,
                p.moveAvailableDate fuel focus (if key = Datepicker.ArrowKey.UP then -1 else 1)
                    Unit.WEEK = some (Datepicker.MoveResult.date m) →
                ∃ o : Outcome, Datepicker.keydownArrow L p fuel key false false = some o
                  ∧ o.state.focusDate = some m ∧ o.state.viewDate = m
                  ∧ o.state.dates = p.dates)
              ∧ (p.moveAvailableDate fuel focus (if key = Datepicker.ArrowKey.UP then -1 else 1)
                    Unit.WEEK = some Datepicker.MoveResult.noDestination →
                  Datepicker.keydownArrow L p fuel key false false = some ⟨p, none⟩)
              ∧ (0 < fuel →
                  p.dateWithinRange
                    (focus.add (if key = Datepicker.ArrowKey.UP then -1 else 1) Unit.WEEK)
                    = true →
                  p.dateIsDisabled
                    (focus.add (if key = Datepicker.ArrowKey.UP then -1 else 1) Unit.WEEK)
                    = false →
                  p.moveAvailableDate fuel focus
                      (if key = Datepicker.ArrowKey.UP then -1 else 1) Unit.WEEK
                    = some (Datepicker.MoveResult.date
                        (focus.add (if key = Datepicker.ArrowKey.UP then -1 else 1)
                          Unit.WEEK))))
      ∧ (focus.add (if key = Datepicker.ArrowKey.UP then -1 else 1) Unit.WEEK).valueOf
          = focus.valueOf + (if key = Datepicker.ArrowKey.UP then -1 else 1) * 7 * msPerDay
      ∧ (∃ (n : Nat) (o : Outcome), ∀ fuel : Nat, n ≤ fuel →
          Datepicker.keydownArrow L p fuel key false false = some o) := by
  have hweek := fun fuel : Nat =>
    Datepicker.keydownArrow_week L p fuel key focus hkey hview hnav hfocus
  refine ⟨fun hoff fuel => ?_, fun h7 hw fuel => ⟨fun m hm => ?_, fun hm => ?_,
    fun hfuel hin hen => ?_⟩, rfl, ?_⟩
  · rw [hweek fuel, if_pos hoff]
  · have hoff : ¬ (p.config.daysOfWeek.disabled.length = 7
        ∨ p.weekOfDateIsDisabled focus = true) := by
      rintro (h | h)
      · exact h7 h
      · rw [hw] at h; cases h
    refine ⟨_, by rw [hweek fuel, if_neg hoff, hm], ?_, ?_, ?_⟩
    · exact (Datepicker.setInputValue_selection L _).2.1
    · exact (Datepicker.setInputValue_selection L _).2.2
    · exact (Datepicker.setInputValue_selection L _).1
  · have hoff : ¬ (p.config.daysOfWeek.disabled.length = 7
        ∨ p.weekOfDateIsDisabled focus = true) := by
      rintro (h | h)
      · exact h7 h
      · rw [hw] at h; cases h
    rw [hweek fuel, if_neg hoff, hm]
  · obtain ⟨k, rfl⟩ : ∃ k, fuel = k + 1 := ⟨fuel - 1, by omega⟩
    simp [Datepicker.moveAvailableDate, hin, hen]
  · by_cases hoff : p.config.daysOfWeek.disabled.length = 7
        ∨ p.weekOfDateIsDisabled focus = true
    · exact ⟨0, ⟨p, none⟩, fun fuel _ => by rw [hweek fuel, if_pos hoff]⟩
    · have hdir : (if key = Datepicker.ArrowKey.UP then (-1 : Int) else 1) ≠ 0 := by
        split <;> decide
      obtain ⟨n, r, hr⟩ := Datepicker.moveAvailableDate_stops p focus _ Unit.WEEK hdir
      cases r with
      | noDestination =>
        exact ⟨n, ⟨p, none⟩, fun fuel hf => by rw [hweek fuel, if_neg hoff, hr fuel hf]⟩
      | date m =>
        exact ⟨n, Datepicker.setInputValue L { p with focusDate := some m, viewDate := m },
          fun fuel hf => by rw [hweek fuel, if_neg hoff, hr fuel hf]⟩

/-- Witness of C32 (amended): Tuesday is disabled, the picker is shown at the
days view with no focus set and the view date Monday 5 March 2012; Down moves
`focusDate` and `viewDate` to Monday 12 March 2012. -/
theorem C32_week_step_needs_enabled_focus_weekday_witness :
    ∃ o : Outcome,
      Datepicker.keydownArrow inputLib (arrowPicker [2] none) 10 Datepicker.ArrowKey.DOWN
          false false = some o
        ∧ o.state.focusDate = some (march 12) ∧ o.state.viewDate = march 12
        ∧ o.state.dates = (arrowPicker [2] none).dates :=
  ((C32_week_step_needs_enabled_focus_weekday inputLib (arrowPicker [2] none)
      Datepicker.ArrowKey.DOWN (march 5) (Or.inr rfl) rfl rfl (Or.inr ⟨rfl, rfl⟩)).2.1
      (by decide) rfl 10).1 (march 12) rfl

/-- C33, evaluated on the code, with the moments as the objects they are: at
every view of the five a click on prev/next returns, moves the object of
`viewDate` by `navStep` months at the days view and by `navStep` years at the
other views (`navStep` is 1, 1, 10, 100, 1000), back for prev and forward for
next, changes no other object, and adds to the trace a MonthChange record at
the days view, a YearChange record at the months view and nothing at the
higher views.  The selection is unchanged when none of its entries is the
object of `viewDate`, and then the click is the one of the value model; an
entry that is this object moves with it.  With 5 March 2012 selected and
`viewDate` that same object, next at the days view leaves 5 April 2012
selected; with `viewDate` another object it leaves 5 March selected. -/
theorem C33_prev_next_moves_a_shared_selected_date :
    (navStep View.DAYS = some 1 ∧ navStep View.MONTHS = some 1 ∧ navStep View.YEARS = some 10
        ∧ navStep View.DECADES = some 100 ∧ navStep View.CENTURIES = some 1000)
      ∧ (∀ (q : ObjectPicker) (prev : Bool) (step : Int), navStep q.viewMode = some step →
          ∃ q2 : ObjectPicker, q.clickPrevNext prev = some q2
            ∧ q2.viewDate = q.viewDate ∧ q2.dates = q.dates ∧ q2.viewMode = q.viewMode
            ∧ q2.store q.viewDate
                = (q.store q.viewDate).add (step * (if prev then -1 else 1))
                    (if q.viewMode = View.DAYS then Unit.MONTH else Unit.YEAR)
            ∧ (∀ r : Nat, r ≠ q.viewDate → q2.store r = q.store r)
            ∧ q2.events = q.events ++
                (if q.viewMode = View.DAYS then
                  [⟨EventType.MONTH_CHANGE, some (q2.store q.viewDate), q2.selection⟩]
                else if q.viewMode = View.MONTHS then
                  [⟨EventType.YEAR_CHANGE, some (q2.store q.viewDate), q2.selection⟩]
                else [])
            ∧ q2.selection
                = q.dates.map (fun r => if r = q.viewDate then q2.store q.viewDate else q.store r)
            ∧ (q.viewDate ∉ q.dates → q2.selection = q.selection)
            ∧ (q.viewDate ∉ q.dates → ∀ p : Datepicker,
                Datepicker.clickPrevNext (q.values p) prev = ⟨q2.values p, none⟩))
      ∧ (objectPicker 0 [0] 0).selection = [march 5]
      ∧ ((objectPicker 0 [0] 0).clickPrevNext false).map ObjectPicker.selection
          = some [april 5]
      ∧ ((objectPicker 0 [0] 0).clickPrevNext false).map ObjectPicker.events
          = some [⟨EventType.MONTH_CHANGE, some (april 5), [april 5]⟩]
      ∧ (objectPicker 2 [0] 0).selection = [march 5]
      ∧ ((objectPicker 2 [0] 0).clickPrevNext false).map ObjectPicker.selection
          = some [march 5] := by
  refine ⟨⟨rfl, rfl, rfl, rfl, rfl⟩, fun q prev step hstep => ?_, by decide, by decide,
    by decide, by decide, by decide⟩
  have hnot : ∀ (dir : Int) (unit : Unit),
      q.viewDate ∉ q.dates → (q.add q.viewDate dir unit).selection = q.selection :=
    fun dir unit h => ObjectPicker.add_selection_of_not_mem q q.viewDate dir unit h
  refine ⟨_, ObjectPicker.clickPrevNext_eq q prev step hstep, ?_, ?_, ?_, ?_, ?_, ?_, ?_, ?_,
    fun hns p => ObjectPicker.clickPrevNext_values q p prev _
      (ObjectPicker.clickPrevNext_eq q prev step hstep) hns⟩
  · split
    · rfl
    · split <;> rfl
  · split
    · rfl
    · split <;> rfl
  · split
    · rfl
    · split <;> rfl
  · by_cases hd : q.viewMode = View.DAYS
    · simp only [if_pos hd]
      exact ObjectPicker.add_store_self q q.viewDate _ _
    · by_cases hm : q.viewMode = View.MONTHS
      · simp only [if_neg hd, if_pos hm]
        exact ObjectPicker.add_store_self q q.viewDate _ _
      · simp only [if_neg hd, if_neg hm]
        exact ObjectPicker.add_store_self q q.viewDate _ _
  · intro r hr
    by_cases hd : q.viewMode = View.DAYS
    · simp only [if_pos hd]
      exact ObjectPicker.add_store_other q q.viewDate r _ _ hr
    · by_cases hm : q.viewMode = View.MONTHS
      · simp only [if_neg hd, if_pos hm]
        exact ObjectPicker.add_store_other q q.viewDate r _ _ hr
      · simp only [if_neg hd, if_neg hm]
        exact ObjectPicker.add_store_other q q.viewDate r _ _ hr
  · by_cases hd : q.viewMode = View.DAYS
    · simp only [if_pos hd]
      rfl
    · by_cases hm : q.viewMode = View.MONTHS
      · simp only [if_neg hd, if_pos hm]
        rfl
      · simp only [if_neg hd, if_neg hm, List.append_nil]
        rfl
  · have hsel : ∀ (dir : Int) (unit : Unit),
        (q.add q.viewDate dir unit).selection
          = q.dates.map (fun r =>
              if r = q.viewDate then (q.add q.viewDate dir unit).store q.viewDate
              else q.store r) := by
      intro dir unit
      rw [ObjectPicker.add_store_self]
      rfl
    by_cases hd : q.viewMode = View.DAYS
    · simp only [if_pos hd]
      exact hsel _ _
    · by_cases hm : q.viewMode = View.MONTHS
      · simp only [if_neg hd, if_pos hm]
        exact hsel _ _
      · simp only [if_neg hd, if_neg hm]
        exact hsel _ _
  · intro hns
    by_cases hd : q.viewMode = View.DAYS
    · simp only [if_pos hd]
      exact hnot _ _ hns
    · by_cases hm : q.viewMode = View.MONTHS
      · simp only [if_neg hd, if_pos hm]
        exact hnot _ _ hns
      · simp only [if_neg hd, if_neg hm]
        exact hnot _ _ hns

/-- C34, evaluated on the code: for every input configuration a second run
of `normalizeConfig` leaves `view.start`, `view.min`, `view.max`, `week.start`
and `week.end` equal to their values after the first run, and
`multidate.enabled` as well unless the first run left the number 0 there: the
second run turns that 0 into `false`.  The first run leaves 0 exactly for an
input that `Number` reads as a negative number.  With `multidate.enabled = -3`
the first run leaves 0, and `setDaysOfWeekDisabled([0, 6])` or
`setDaysOfWeekHighlighted([0, 6])` afterwards leaves `false`. -/
theorem C34_second_run_turns_zero_into_false :
    (∀ (numberOf : String → Option Int) (o : Options),
        (normalizeConfig numberOf (normalizeConfig numberOf o)).viewStart
            = (normalizeConfig numberOf o).viewStart
          ∧ (normalizeConfig numberOf (normalizeConfig numberOf o)).viewMin
            = (normalizeConfig numberOf o).viewMin
          ∧ (normalizeConfig numberOf (normalizeConfig numberOf o)).viewMax
            = (normalizeConfig numberOf o).viewMax
          ∧ (normalizeConfig numberOf (normalizeConfig numberOf o)).weekStart
            = (normalizeConfig numberOf o).weekStart
          ∧ (normalizeConfig numberOf (normalizeConfig numberOf o)).weekEnd
            = (normalizeConfig numberOf o).weekEnd)
      ∧ (∀ (numberOf : String → Option Int) (o : Options),
          (normalizeConfig numberOf o).multidateEnabled ≠ EnabledOption.number 0 →
          normalizeConfig numberOf (normalizeConfig numberOf o) = normalizeConfig numberOf o)
      ∧ (∀ (numberOf : String → Option Int) (o : Options),
          (normalizeConfig numberOf o).multidateEnabled = EnabledOption.number 0 →
          (normalizeConfig numberOf (normalizeConfig numberOf o)).multidateEnabled
            = EnabledOption.bool false)
      ∧ (∀ (numberOf : String → Option Int) (o : Options),
          (normalizeConfig numberOf o).multidateEnabled = EnabledOption.number 0
            ↔ ∃ n : Int, n < 0 ∧ o.multidateEnabled.toNumber numberOf = some n)
      ∧ (normalizeConfig (fun _ => none)
            { multidateEnabled := EnabledOption.number (-3) }).multidateEnabled
          = EnabledOption.number 0
      ∧ (setDaysOfWeekDisabled (fun _ => none)
            (normalizeConfig (fun _ => none) { multidateEnabled := EnabledOption.number (-3) })
            [0, 6]).multidateEnabled = EnabledOption.bool false
      ∧ (setDaysOfWeekHighlighted (fun _ => none)
            (normalizeConfig (fun _ => none) { multidateEnabled := EnabledOption.number (-3) })
            [0, 6]).multidateEnabled = EnabledOption.bool false := by
  have hview : ∀ (numberOf : String → Option Int) (o : Options),
      normalizeView (normalizeConfig numberOf o).viewStart (normalizeConfig numberOf o).viewMin
          (normalizeConfig numberOf o).viewMax
        = normalizeView o.viewStart o.viewMin o.viewMax := fun numberOf o =>
    normalizeView_idem o.viewStart o.viewMin o.viewMax
  have hweek : ∀ (numberOf : String → Option Int) (o : Options),
      jsRemainder (normalizeConfig numberOf o).weekStart 7 = jsRemainder o.weekStart 7 :=
    fun numberOf o => jsRemainder_idem o.weekStart
  have hinj : ∀ a b : MultidateEnabled, a.toOption = b.toOption → a = b := by
    intro a b h
    cases a <;> cases b <;> simp_all [MultidateEnabled.toOption]
  refine ⟨fun numberOf o => ?_, fun numberOf o h => ?_, fun numberOf o h => ?_,
    fun numberOf o => ?_, by decide, by decide, by decide⟩
  · have hv := hview numberOf o
    have hw := hweek numberOf o
    refine ⟨?_, ?_, ?_, ?_, ?_⟩
    · show ViewOption.digit (normalizeView _ _ _).start = _
      rw [hv]; rfl
    · show ViewOption.digit (normalizeView _ _ _).min = _
      rw [hv]; rfl
    · show ViewOption.digit (normalizeView _ _ _).max = _
      rw [hv]; rfl
    · exact hw
    · show some (jsRemainder (jsRemainder _ 7 + 6) 7) = _
      rw [hw]; rfl
  · have hv := hview numberOf o
    have hw := hweek numberOf o
    have he : normalizeEnabled numberOf (normalizeConfig numberOf o).multidateEnabled
        = normalizeEnabled numberOf o.multidateEnabled :=
      (normalizeEnabled_again numberOf o.multidateEnabled).1
        (fun e => h (by show (normalizeEnabled numberOf o.multidateEnabled).toOption = _
                        rw [e]; rfl))
    show ({ normalizeConfig numberOf o with
        viewStart := ViewOption.digit (normalizeView _ _ _).start
        viewMin := ViewOption.digit (normalizeView _ _ _).min
        viewMax := ViewOption.digit (normalizeView _ _ _).max
        multidateEnabled := (normalizeEnabled numberOf _).toOption
        weekStart := jsRemainder _ 7
        weekEnd := some (jsRemainder (jsRemainder _ 7 + 6) 7) } : Options) = _
    rw [hv, hw, he]
    rfl
  · have h0 : normalizeEnabled numberOf o.multidateEnabled = MultidateEnabled.number 0 :=
      hinj _ _ h
    show (normalizeEnabled numberOf
      (normalizeEnabled numberOf o.multidateEnabled).toOption).toOption = _
    rw [(normalizeEnabled_again numberOf o.multidateEnabled).2 h0]
    rfl
  · show (normalizeEnabled numberOf o.multidateEnabled).toOption = EnabledOption.number 0 ↔ _
    constructor
    · intro h
      have h0 : normalizeEnabled numberOf o.multidateEnabled = MultidateEnabled.number 0 :=
        hinj _ _ h
      unfold normalizeEnabled at h0
      split at h0
      · cases h0
      · split at h0
        · cases h0
        · rename_i n hn
          split at h0
          · cases h0
          · rename_i hne
            refine ⟨n, ?_, hn⟩
            have : Max.max 0 n = 0 := by injection h0
            omega
    · rintro ⟨n, hn, hnum⟩
      have hne : o.multidateEnabled ≠ EnabledOption.bool true := by
        intro e
        rw [e] at hnum
        simp [EnabledOption.toNumber] at hnum
        omega
      have hn0 : n ≠ 0 := by omega
      simp only [normalizeEnabled, if_neg hne, hnum, if_neg hn0, MultidateEnabled.toOption]
      congr 1
      omega

end PickerJs
